import Mathlib

/-!
# Sprite editor: shallow embedding of `src/main.c`

The editor keeps a 640x360 pixel buffer, 64 colour buttons, a sheet of 128
tiles of 8x8 palette indices, the current colour and the current tile.  One
iteration of the main loop that gets past the frame limiter is a *frame step*:
click processing followed by a full repaint.

Modelling conventions.

* A C array of `n` elements is a function `Int → α` read and written through
  `readAt n` / `writeAt n`, which fail (`none`) outside `0 ≤ i < n`.  A routine
  that performs an out-of-bounds access therefore has no result.
* `for (int i = lo; i < hi; ++i)` is `forLoop lo hi`.
* C `int` values are mathematical integers.  The only operands that are not
  bounded by program constants are the mouse coordinates, so the arithmetic of
  the two hit tests and of the canvas coordinates is reduced with `wrap32`
  (two's complement, 32 bits).
* C `/` and `%` on `int` truncate towards zero: `Int.tdiv`, `Int.tmod`.
* Colours are 32-bit words, identified with their bit pattern.
* Window set-up, event polling and the frame limiter are outside the model;
  a frame step receives the mouse state the event loop has produced.
-/

namespace SpriteEditor

/-! ## Constants -/

@[reducible] def SCREEN_WIDTH : Int := 640
@[reducible] def SCREEN_HEIGHT : Int := 360
@[reducible] def BUTTON_SIZE : Int := 16
@[reducible] def COLOURS : Int := 64
@[reducible] def COLUMNS : Int := 4
@[reducible] def TILE_SIZE : Int := 8
@[reducible] def N_TILES : Int := 128
@[reducible] def SPRITE_COLUMNS : Int := 8
@[reducible] def RENDER_SIZE : Int := 24
@[reducible] def SPRITE_SHEET_X : Int := 50
@[reducible] def SPRITE_SHEET_Y : Int := 50

/-- Number of words of the pixel buffer, `malloc(SCREEN_WIDTH * SCREEN_HEIGHT * 4)` bytes. -/
@[reducible] def PIXELS_LEN : Int := SCREEN_WIDTH * SCREEN_HEIGHT

/-- Number of entries of `int colour_data[64]`. -/
@[reducible] def COLOUR_DATA_LEN : Int := 64

/-- The border colour written around a selected button or tile. -/
@[reducible] def HIGHLIGHT : Int := 0xffffff00

/-! ## Machine arithmetic, arrays and loops -/

/-- Two's-complement reduction of an integer to the range of a 32-bit `int`. -/
def wrap32 (z : Int) : Int := (z + 2147483648) % 4294967296 - 2147483648

/-- Checked read of element `i` of an array of `n` elements. -/
def readAt {α : Type} (n : Int) (a : Int → α) (i : Int) : Option α :=
  if 0 ≤ i ∧ i < n then some (a i) else none

/-- Checked write of element `i` of an array of `n` elements. -/
def writeAt {α : Type} (n : Int) (a : Int → α) (i : Int) (v : α) : Option (Int → α) :=
  if 0 ≤ i ∧ i < n then some (Function.update a i v) else none

/-- The first `n` iterations of a counting loop that starts at `lo`. -/
def iterate {σ : Type} (body : Int → σ → Option σ) (lo : Int) : Nat → σ → Option σ
  | 0, s => some s
  | n + 1, s => (iterate body lo n s).bind (body (lo + n))

/-- The loop `for (int i = lo; i < hi; ++i) body`. -/
def forLoop {σ : Type} (lo hi : Int) (body : Int → σ → Option σ) (s : σ) : Option σ :=
  iterate body lo (hi - lo).toNat s

/-! ## Data types -/

/-- The C struct `ColourButton`. -/
structure ColourButton where
  colour : Int
  colour_index : Int
  x : Int
  y : Int
  selected : Bool
  deriving DecidableEq, Repr

/-- The C struct `MouseInput`. -/
structure MouseInput where
  click : Bool
  x : Int
  y : Int
  deriving DecidableEq, Repr

/-- The C struct `Sprite`; `colour_data` is an array of 64 palette indices. -/
structure Sprite where
  colour_data : Int → Int
  index : Int
  x : Int
  y : Int
  selected : Bool

/-- The pixel buffer: `SCREEN_WIDTH * SCREEN_HEIGHT` colour words. -/
abbrev Pixels := Int → Int

/-- Modelled from the spec: `palette.h` is not among the sources.  The palette
is a fixed, read-only table with one colour per button, so it is a parameter
of the model and is read as an array of `COLOURS` entries. -/
abbrev Palette := Int → Int

/-- The variables of `main` that live across iterations of the main loop. -/
structure Editor where
  pixels : Pixels
  colour_palette : Int → ColourButton
  current_colour : ColourButton
  sprite_sheet : Int → Sprite
  current_sprite : Sprite

/-! ## The routines of `main.c` -/

/-- `draw_colour_button`: a 16x16 swatch, with a highlight ring when selected. -/
def draw_colour_button (pixels : Pixels) (button : ColourButton) : Option Pixels :=
  let button_index := button.x + button.y * SCREEN_WIDTH
  if button.selected then
    forLoop 0 BUTTON_SIZE (fun i px =>
      forLoop 0 BUTTON_SIZE (fun j px =>
        if i = 0 ∨ i = BUTTON_SIZE - 1 ∨ j = 0 ∨ j = BUTTON_SIZE - 1 then
          writeAt PIXELS_LEN px (button_index + i + j * SCREEN_WIDTH) HIGHLIGHT
        else
          writeAt PIXELS_LEN px (button_index + i + j * SCREEN_WIDTH) button.colour) px) pixels
  else
    forLoop 0 BUTTON_SIZE (fun i px =>
      forLoop 0 BUTTON_SIZE (fun j px =>
        writeAt PIXELS_LEN px (button_index + i + j * SCREEN_WIDTH) button.colour) px) pixels

/-- `colour_select`: hit test of one button; returns the button and the
current colour as they are left by the call. -/
def colour_select (button : ColourButton) (mouse : MouseInput) (current_colour : ColourButton) :
    ColourButton × ColourButton :=
  let current_colour1 :=
    if 0 ≤ wrap32 (mouse.x - button.x) ∧
        wrap32 (mouse.x - button.x) < BUTTON_SIZE ∧
        0 ≤ wrap32 (mouse.y - button.y) ∧
        wrap32 (mouse.y - button.y) < BUTTON_SIZE then
      { current_colour with colour := button.colour, colour_index := button.colour_index }
    else current_colour
  ({ button with selected := false }, current_colour1)

/-- `draw_pixel`: stores the current colour index in the current tile of the
sheet.  The pixel buffer is not written (the drawing loop is commented out in
the source and the local `buffer_index` is unused), so only the sheet is
returned. -/
def draw_pixel (_pixels : Pixels) (pixel_x pixel_y : Int) (colour : ColourButton)
    (sprite : Sprite) (sprite_sheet : Int → Sprite) : Option (Int → Sprite) :=
  (readAt N_TILES sprite_sheet sprite.index).bind fun tile =>
  (writeAt COLOUR_DATA_LEN tile.colour_data (pixel_x + TILE_SIZE * pixel_y)
      colour.colour_index).bind fun cd =>
  writeAt N_TILES sprite_sheet sprite.index { tile with colour_data := cd }

/-- `draw_canvas`: the current tile of the sheet at zoom `RENDER_SIZE`. -/
def draw_canvas (palette : Palette) (pixels : Pixels) (sprite : Sprite)
    (sprite_sheet : Int → Sprite) : Option Pixels :=
  let area_corner_x := SCREEN_WIDTH.tdiv 2 - (RENDER_SIZE * TILE_SIZE).tdiv 2
  let area_corner_y := SCREEN_HEIGHT.tdiv 2 - (RENDER_SIZE * TILE_SIZE).tdiv 2
  let buffer_index := area_corner_x + area_corner_y * SCREEN_WIDTH
  forLoop 0 (RENDER_SIZE * TILE_SIZE) (fun i px =>
    forLoop 0 (RENDER_SIZE * TILE_SIZE) (fun j px =>
      (readAt N_TILES sprite_sheet sprite.index).bind fun tile =>
      (readAt COLOUR_DATA_LEN tile.colour_data
          (i.tdiv RENDER_SIZE + j.tdiv RENDER_SIZE * TILE_SIZE)).bind fun c =>
      (readAt COLOURS palette c).bind fun v =>
      writeAt PIXELS_LEN px (buffer_index + i + j * SCREEN_WIDTH) v) px) pixels

/-- `draw_sprite`: one tile at its own position.  The selected branch uses
`scale`; the unselected branch has the literal `2` of the source. -/
def draw_sprite (palette : Palette) (pixels : Pixels) (sprite : Sprite) (scale : Int) :
    Option Pixels :=
  let buffer_index := sprite.x + sprite.y * SCREEN_WIDTH
  if sprite.selected then
    forLoop 0 (scale * TILE_SIZE) (fun i px =>
      forLoop 0 (scale * TILE_SIZE) (fun j px =>
        if i = 0 ∨ i = scale * TILE_SIZE - 1 ∨ j = 0 ∨ j = scale * TILE_SIZE - 1 then
          writeAt PIXELS_LEN px (buffer_index + i + j * SCREEN_WIDTH) HIGHLIGHT
        else
          (readAt COLOUR_DATA_LEN sprite.colour_data
              (i.tdiv scale + j.tdiv scale * TILE_SIZE)).bind fun c =>
          (readAt COLOURS palette c).bind fun v =>
          writeAt PIXELS_LEN px (buffer_index + i + j * SCREEN_WIDTH) v) px) pixels
  else
    forLoop 0 (2 * TILE_SIZE) (fun i px =>
      forLoop 0 (2 * TILE_SIZE) (fun j px =>
        (readAt COLOUR_DATA_LEN sprite.colour_data
            (i.tdiv 2 + j.tdiv 2 * TILE_SIZE)).bind fun c =>
        (readAt COLOURS palette c).bind fun v =>
        writeAt PIXELS_LEN px (buffer_index + i + j * SCREEN_WIDTH) v) px) pixels

/-- `draw_sprite_sheet`: every tile of the sheet at zoom 2 (the parameters `x`
and `y` are unused in the source). -/
def draw_sprite_sheet (palette : Palette) (pixels : Pixels) (_x _y : Int)
    (sprite_sheet : Int → Sprite) : Option Pixels :=
  forLoop 0 N_TILES (fun i px =>
    (readAt N_TILES sprite_sheet i).bind fun tile => draw_sprite palette px tile 2) pixels

/-- `sprite_select`: hit test of one tile; returns the tile and the current
sprite as they are left by the call. -/
def sprite_select (mouse : MouseInput) (sprite : Sprite) (current_sprite : Sprite) :
    Sprite × Sprite :=
  let current_sprite1 :=
    if sprite.x ≤ mouse.x ∧
        mouse.x < wrap32 (sprite.x + 2 * TILE_SIZE) ∧
        sprite.y ≤ mouse.y ∧
        mouse.y < wrap32 (sprite.y + 2 * TILE_SIZE) then
      { current_sprite with index := sprite.index }
    else current_sprite
  ({ sprite with selected := false }, current_sprite1)

/-! ## `main`: start-up -/

/-- Lines 120-139: background fill, then the working grid. -/
def init_pixels (pixels : Pixels) : Option Pixels :=
  (forLoop 0 SCREEN_HEIGHT (fun y px =>
    forLoop 0 SCREEN_WIDTH (fun x px =>
      writeAt PIXELS_LEN px (x + y * SCREEN_WIDTH) 0x232324ff) px) pixels).bind fun pixels1 =>
  forLoop (SCREEN_WIDTH.tdiv 2 - (RENDER_SIZE * TILE_SIZE).tdiv 2)
      (SCREEN_WIDTH.tdiv 2 + (RENDER_SIZE * TILE_SIZE).tdiv 2 + 1) (fun i px =>
    forLoop (SCREEN_HEIGHT.tdiv 2 - (RENDER_SIZE * TILE_SIZE).tdiv 2)
        (SCREEN_HEIGHT.tdiv 2 + (RENDER_SIZE * TILE_SIZE).tdiv 2 + 1) (fun j px =>
      if (i - SCREEN_WIDTH.tdiv 2).tmod RENDER_SIZE = 0 ∨
          (j - SCREEN_HEIGHT.tdiv 2).tmod RENDER_SIZE = 0 then
        writeAt PIXELS_LEN px (i + j * SCREEN_WIDTH) 0x000000ff
      else some px) px) pixels1

/-- Lines 141-157: the array of colour buttons. -/
def init_colour_palette (palette : Palette) (colour_palette : Int → ColourButton) :
    Option (Int → ColourButton) :=
  let palette_x : Int := 512
  let palette_y : Int := 64
  forLoop 0 (COLOURS.tdiv COLUMNS) (fun i cp =>
    forLoop 0 COLUMNS (fun j cp =>
      let colour_index := i + (j * COLOURS).tdiv COLUMNS
      (readAt COLOURS palette colour_index).bind fun c =>
      writeAt COLOURS cp colour_index
        { colour := c
          colour_index := colour_index
          x := palette_x + j * BUTTON_SIZE
          y := palette_y + i * BUTTON_SIZE
          selected := false }) cp) colour_palette

/-- Lines 167-180: the sprite sheet, every tile blank. -/
def init_sprite_sheet (sprite_sheet : Int → Sprite) : Option (Int → Sprite) :=
  forLoop 0 N_TILES (fun i ss =>
    (readAt N_TILES ss i).bind fun tile =>
    (forLoop 0 (TILE_SIZE * TILE_SIZE) (fun j cd => writeAt COLOUR_DATA_LEN cd j 0)
        tile.colour_data).bind fun cd =>
    writeAt N_TILES ss i
      { colour_data := cd
        index := i
        selected := false
        x := 2 * (i.tmod TILE_SIZE) * TILE_SIZE + SPRITE_SHEET_X
        y := 2 * (i.tdiv TILE_SIZE) * TILE_SIZE + SPRITE_SHEET_Y }) sprite_sheet

/-- The state of `main` on entry to the main loop.  The arguments are the
contents of the freshly allocated buffer and arrays before initialisation. -/
@[irreducible] def init (palette : Palette) (pixels0 : Pixels) (colour_palette0 : Int → ColourButton)
    (sprite_sheet0 : Int → Sprite) : Option Editor :=
  (init_pixels pixels0).bind fun pixels =>
  (init_colour_palette palette colour_palette0).bind fun colour_palette =>
  (init_sprite_sheet sprite_sheet0).bind fun sprite_sheet =>
  (readAt N_TILES sprite_sheet 0).bind fun current_sprite =>
  some
    { pixels := pixels
      colour_palette := colour_palette
      current_colour := { colour := 0x00000000, colour_index := 0, x := 0, y := 0, selected := false }
      sprite_sheet := sprite_sheet
      current_sprite := current_sprite }

/-! ## `main`: one frame -/

/-- Lines 229-233: the scan of all buttons, then the re-assertion of the winner. -/
def select_colour (mouse : MouseInput) (colour_palette : Int → ColourButton)
    (current_colour : ColourButton) : Option ((Int → ColourButton) × ColourButton) :=
  (forLoop 0 COLOURS (fun i (st : (Int → ColourButton) × ColourButton) =>
    (readAt COLOURS st.1 i).bind fun button =>
    let r := colour_select button mouse st.2
    (writeAt COLOURS st.1 i r.1).bind fun cp => some (cp, r.2)) (colour_palette, current_colour)).bind
  fun st =>
  (readAt COLOURS st.1 st.2.colour_index).bind fun button =>
  (writeAt COLOURS st.1 st.2.colour_index { button with selected := true }).bind fun cp =>
  some (cp, st.2)

/-- Lines 234-238: the scan of all tiles, then the re-assertion of the winner. -/
def select_sprite (mouse : MouseInput) (sprite_sheet : Int → Sprite)
    (current_sprite : Sprite) : Option ((Int → Sprite) × Sprite) :=
  (forLoop 0 N_TILES (fun i (st : (Int → Sprite) × Sprite) =>
    (readAt N_TILES st.1 i).bind fun sprite =>
    let r := sprite_select mouse sprite st.2
    (writeAt N_TILES st.1 i r.1).bind fun ss => some (ss, r.2)) (sprite_sheet, current_sprite)).bind
  fun st =>
  (readAt N_TILES st.1 st.2.index).bind fun sprite =>
  (writeAt N_TILES st.1 st.2.index { sprite with selected := true }).bind fun ss =>
  some (ss, st.2)

/-- Line 241: the canvas column under the mouse. -/
def canvas_pixel_x (mouse : MouseInput) : Int :=
  (wrap32 (mouse.x - (SCREEN_WIDTH.tdiv 2 - (RENDER_SIZE * TILE_SIZE).tdiv 2))).tdiv RENDER_SIZE

/-- Line 242: the canvas row under the mouse. -/
def canvas_pixel_y (mouse : MouseInput) : Int :=
  (wrap32 (mouse.y - (SCREEN_HEIGHT.tdiv 2 - (RENDER_SIZE * TILE_SIZE).tdiv 2))).tdiv RENDER_SIZE

/-- Line 244: the test that guards the call of `draw_pixel`. -/
def paint_gate (mouse : MouseInput) : Bool :=
  decide (canvas_pixel_x mouse ≥ 0 ∧ canvas_pixel_x mouse < TILE_SIZE ∧
    canvas_pixel_y mouse ≥ 0 ∧ canvas_pixel_y mouse < TILE_SIZE)

/-- Lines 226-249: click processing. -/
def process_input (mouse : MouseInput) (s : Editor) : Option Editor :=
  if mouse.click then
    (select_colour mouse s.colour_palette s.current_colour).bind fun c =>
    (select_sprite mouse s.sprite_sheet s.current_sprite).bind fun t =>
    let pixel_x := canvas_pixel_x mouse
    let pixel_y := canvas_pixel_y mouse
    if paint_gate mouse then
      (draw_pixel s.pixels pixel_x pixel_y c.2 t.2 t.1).bind fun ss =>
      some { s with colour_palette := c.1, current_colour := c.2,
                    sprite_sheet := ss, current_sprite := t.2 }
    else
      some { s with colour_palette := c.1, current_colour := c.2,
                    sprite_sheet := t.1, current_sprite := t.2 }
  else some s

/-- Lines 251-257: the full repaint. -/
def render (palette : Palette) (s : Editor) : Option Editor :=
  (forLoop 0 COLOURS (fun i px =>
    (readAt COLOURS s.colour_palette i).bind fun button => draw_colour_button px button)
    s.pixels).bind fun pixels1 =>
  (draw_canvas palette pixels1 s.current_sprite s.sprite_sheet).bind fun pixels2 =>
  (draw_sprite_sheet palette pixels2 20 20 s.sprite_sheet).bind fun pixels3 =>
  some { s with pixels := pixels3 }

/-- One iteration of the main loop that is not skipped by the frame limiter. -/
@[irreducible] def frame (palette : Palette) (mouse : MouseInput) (s : Editor) : Option Editor :=
  (process_input mouse s).bind (render palette)

/-- The states the program can be in at the top of the main loop. -/
inductive Reachable (palette : Palette) : Editor → Prop
  | start (pixels0 : Pixels) (colour_palette0 : Int → ColourButton)
      (sprite_sheet0 : Int → Sprite) (s : Editor)
      (h : init palette pixels0 colour_palette0 sprite_sheet0 = some s) : Reachable palette s
  | step (mouse : MouseInput) (s t : Editor) (hs : Reachable palette s)
      (h : frame palette mouse s = some t) : Reachable palette t

/-! ## Auxiliary definitions used by the proofs -/

/-- One cell of a rectangle fill: store `val i j`, when it is defined, at
buffer index `ix i j`. -/
def cellWrite (ix : Int → Int → Int) (val : Int → Int → Option Int) (i j : Int)
    (px : Pixels) : Option Pixels :=
  (val i j).bind fun v => writeAt PIXELS_LEN px (ix i j) v

/-- The common shape of the drawing routines: an outer loop over `0 ≤ i < w`,
an inner loop over `0 ≤ j < h`, one store per cell. -/
def fillRect (ix : Int → Int → Int) (val : Int → Int → Option Int) (w h : Int)
    (pixels : Pixels) : Option Pixels :=
  forLoop 0 w (fun i px => forLoop 0 h (fun j px => cellWrite ix val i j px) px) pixels

/-- The colour drawn for cell `c` of a tile: `palette[colour_data[c]]`, with
both reads checked. -/
def cellColour (palette : Palette) (colour_data : Int → Int) (c : Int) : Option Int :=
  (readAt COLOUR_DATA_LEN colour_data c).bind fun k => readAt COLOURS palette k

/-- Every entry of a tile's `colour_data` is an index into the palette. -/
def ValidData (colour_data : Int → Int) : Prop :=
  ∀ k, 0 ≤ k → k < COLOUR_DATA_LEN → 0 ≤ colour_data k ∧ colour_data k < COLOURS

/-- The `w` by `h` box at `(x, y)` lies inside the 640x360 screen. -/
def FitsScreen (x y w h : Int) : Prop :=
  0 ≤ x ∧ x + w ≤ SCREEN_WIDTH ∧ 0 ≤ y ∧ y + h ≤ SCREEN_HEIGHT

/-- Pixel `(i, j)` of an `n` by `n` box lies on its outermost ring. -/
def OnRing (n i j : Int) : Prop :=
  i = 0 ∨ i = n - 1 ∨ j = 0 ∨ j = n - 1

instance (n i j : Int) : Decidable (OnRing n i j) := by
  unfold OnRing; infer_instance

instance (x y w h : Int) : Decidable (FitsScreen x y w h) := by
  unfold FitsScreen; infer_instance

/-- The test of `colour_select`: the mouse is inside the button's 16x16 box. -/
def colour_hit (button : ColourButton) (mouse : MouseInput) : Prop :=
  0 ≤ wrap32 (mouse.x - button.x) ∧
    wrap32 (mouse.x - button.x) < BUTTON_SIZE ∧
    0 ≤ wrap32 (mouse.y - button.y) ∧
    wrap32 (mouse.y - button.y) < BUTTON_SIZE

instance (button : ColourButton) (mouse : MouseInput) : Decidable (colour_hit button mouse) := by
  unfold colour_hit; infer_instance

/-- The test of `sprite_select`: the mouse is inside the tile's 16x16 box. -/
def sprite_hit (sprite : Sprite) (mouse : MouseInput) : Prop :=
  sprite.x ≤ mouse.x ∧
    mouse.x < wrap32 (sprite.x + 2 * TILE_SIZE) ∧
    sprite.y ≤ mouse.y ∧
    mouse.y < wrap32 (sprite.y + 2 * TILE_SIZE)

instance (sprite : Sprite) (mouse : MouseInput) : Decidable (sprite_hit sprite mouse) := by
  unfold sprite_hit; infer_instance

/-- The current colour after `colour_select` has been run on buttons
`0, ..., n-1` in array order. -/
def scanColour (mouse : MouseInput) (colour_palette : Int → ColourButton)
    (current_colour : ColourButton) : Nat → ColourButton
  | 0 => current_colour
  | n + 1 =>
    (colour_select (colour_palette n) mouse (scanColour mouse colour_palette current_colour n)).2

/-- The current sprite after `sprite_select` has been run on tiles
`0, ..., n-1` in array order. -/
def scanSprite (mouse : MouseInput) (sprite_sheet : Int → Sprite)
    (current_sprite : Sprite) : Nat → Sprite
  | 0 => current_sprite
  | n + 1 =>
    (sprite_select mouse (sprite_sheet n) (scanSprite mouse sprite_sheet current_sprite n)).2

/-- Button `k` as the start-up loop builds it. -/
def startButton (palette : Palette) (k : Int) : ColourButton :=
  { colour := palette k
    colour_index := k
    x := 512 + 16 * (k / 16)
    y := 64 + 16 * (k % 16)
    selected := false }

/-- The buttons have the start-up layout: position, colour and colour index of
button `k` are those of `startButton`; the selected flags are free. -/
def ButtonLayout (palette : Palette) (colour_palette : Int → ColourButton) : Prop :=
  ∀ k, 0 ≤ k → k < COLOURS →
    (colour_palette k).colour = palette k ∧ (colour_palette k).colour_index = k ∧
    (colour_palette k).x = 512 + 16 * (k / 16) ∧ (colour_palette k).y = 64 + 16 * (k % 16)

/-- The tiles have the start-up layout: tile `i` has index `i` and its
thumbnail at `(50 + 16 * (i mod 8), 50 + 16 * (i div 8))`. -/
def SheetLayout (sprite_sheet : Int → Sprite) : Prop :=
  ∀ i, 0 ≤ i → i < N_TILES →
    (sprite_sheet i).index = i ∧
    (sprite_sheet i).x = 50 + 16 * (i % 8) ∧ (sprite_sheet i).y = 50 + 16 * (i / 8)

/-- Screen position `(cx, cy)` lies in the `w` by `h` box at `(x, y)`. -/
def InBox (x y w h cx cy : Int) : Prop :=
  x ≤ cx ∧ cx < x + w ∧ y ≤ cy ∧ cy < y + h

instance (x y w h cx cy : Int) : Decidable (InBox x y w h cx cy) := by
  unfold InBox; infer_instance

/-- The invariant of the main loop: the start-up layout of buttons and tiles,
valid indices everywhere, and no selected flag other than on the current
colour's button and on the current tile. -/
structure Inv (palette : Palette) (s : Editor) : Prop where
  buttons : ButtonLayout palette s.colour_palette
  colour_index : 0 ≤ s.current_colour.colour_index ∧ s.current_colour.colour_index < COLOURS
  tiles : SheetLayout s.sprite_sheet
  data : ∀ i, 0 ≤ i → i < N_TILES → ValidData (s.sprite_sheet i).colour_data
  sprite_index : 0 ≤ s.current_sprite.index ∧ s.current_sprite.index < N_TILES
  one_button : ∀ k, 0 ≤ k → k < COLOURS → (s.colour_palette k).selected = true →
    k = s.current_colour.colour_index
  one_tile : ∀ i, 0 ≤ i → i < N_TILES → (s.sprite_sheet i).selected = true →
    i = s.current_sprite.index

/-- The colour `draw_colour_button` leaves at screen position `(cx, cy)` of
the button's box. -/
def buttonPixel (b : ColourButton) (cx cy : Int) : Int :=
  if b.selected = true ∧ OnRing 16 (cx - b.x) (cy - b.y) then HIGHLIGHT else b.colour

/-- The colour `draw_sprite` at zoom 2 leaves at screen position `(cx, cy)` of
the tile's thumbnail. -/
def tilePixel (palette : Palette) (sp : Sprite) (cx cy : Int) : Int :=
  if sp.selected = true ∧ OnRing 16 (cx - sp.x) (cy - sp.y) then HIGHLIGHT
  else palette (sp.colour_data ((cx - sp.x).tdiv 2 + (cy - sp.y).tdiv 2 * 8))

/-- The colour `draw_canvas` leaves at screen position `(cx, cy)` of the
canvas area. -/
def canvasPixel (palette : Palette) (colour_data : Int → Int) (cx cy : Int) : Int :=
  palette (colour_data ((cx - 224).tdiv 24 + (cy - 84).tdiv 24 * 8))

/-- A sample palette with pairwise distinct colours, none of them the
highlight colour or the value `0`. -/
def samplePalette : Palette := fun k => 1000 + k

/-- A sample tile: a checkerboard of palette indices 0 and 1, unselected, at
the top-left corner of the screen. -/
def checkerTile : Sprite :=
  { colour_data := fun k => (k + k / 8) % 2, index := 0, x := 0, y := 0, selected := false }

/-- A sample button. -/
def sampleButton : ColourButton :=
  { colour := 1005, colour_index := 5, x := 512, y := 144, selected := true }

/-- A sample selected tile: the checkerboard at screen position (50, 50). -/
def selectedTile : Sprite :=
  { colour_data := fun k => (k + k / 8) % 2, index := 0, x := 50, y := 50, selected := true }

/-! ## Further vocabulary -/

/-- Lines 229-232: the scan of all buttons, before the re-assertion. -/
def scan_colours (mouse : MouseInput) (colour_palette : Int → ColourButton)
    (current_colour : ColourButton) : Option ((Int → ColourButton) × ColourButton) :=
  forLoop 0 COLOURS (fun i (st : (Int → ColourButton) × ColourButton) =>
    (readAt COLOURS st.1 i).bind fun button =>
    let r := colour_select button mouse st.2
    (writeAt COLOURS st.1 i r.1).bind fun cp => some (cp, r.2)) (colour_palette, current_colour)

/-- Lines 234-237: the scan of all tiles, before the re-assertion. -/
def scan_sprites (mouse : MouseInput) (sprite_sheet : Int → Sprite)
    (current_sprite : Sprite) : Option ((Int → Sprite) × Sprite) :=
  forLoop 0 N_TILES (fun i (st : (Int → Sprite) × Sprite) =>
    (readAt N_TILES st.1 i).bind fun sprite =>
    let r := sprite_select mouse sprite st.2
    (writeAt N_TILES st.1 i r.1).bind fun ss => some (ss, r.2)) (sprite_sheet, current_sprite)

/-- The value fits a 32-bit C `int`. -/
def IsInt32 (z : Int) : Prop := -2147483648 ≤ z ∧ z < 2147483648

instance (z : Int) : Decidable (IsInt32 z) := by
  unfold IsInt32; infer_instance

/-- A drawing routine writes buffer index `idx`: for some buffer it has a
result that differs from the buffer at `idx`.  (The routines store values that
do not depend on the buffer, so an index that is stored to is changed for a
suitable buffer, and an index that is never stored to is changed for none.) -/
def Writes (draw : Pixels → Option Pixels) (idx : Int) : Prop :=
  ∃ px px', draw px = some px' ∧ px' idx ≠ px idx

/-- The pixel `(cx, cy)` belongs to the working grid drawn at start-up. -/
def OnGrid (cx cy : Int) : Prop :=
  224 ≤ cx ∧ cx ≤ 416 ∧ 84 ≤ cy ∧ cy ≤ 276 ∧ ((cx - 320) % 24 = 0 ∨ (cy - 180) % 24 = 0)

instance (cx cy : Int) : Decidable (OnGrid cx cy) := by
  unfold OnGrid; infer_instance

/-- The pixel `(cx, cy)` is on the right or the bottom edge of the working
grid, just outside the canvas area. -/
def OnGridEdge (cx cy : Int) : Prop :=
  (cx = 416 ∧ 84 ≤ cy ∧ cy ≤ 276) ∨ (cy = 276 ∧ 224 ≤ cx ∧ cx ≤ 416)

instance (cx cy : Int) : Decidable (OnGridEdge cx cy) := by
  unfold OnGridEdge; infer_instance

/-- The arithmetic that the test of `colour_select` evaluates for this button
and mouse position does not overflow a 32-bit `int`: the difference
`mouse->x - button->x`, and `mouse->y - button->y` when the two comparisons on
x have passed (`&&` evaluates from left to right and stops at the first
failure). -/
def ColourTestDefined (button : ColourButton) (mouse : MouseInput) : Prop :=
  IsInt32 (mouse.x - button.x) ∧
    (0 ≤ mouse.x - button.x ∧ mouse.x - button.x < 16 → IsInt32 (mouse.y - button.y))

/-- The arithmetic that the test of `sprite_select` evaluates for this tile
and mouse position does not overflow a 32-bit `int`: the sum
`sprite->x + 2*TILE_SIZE` when `sprite->x <= mouse->x`, and
`sprite->y + 2*TILE_SIZE` when the first three comparisons have passed. -/
def SpriteTestDefined (sprite : Sprite) (mouse : MouseInput) : Prop :=
  (sprite.x ≤ mouse.x → IsInt32 (sprite.x + 16)) ∧
    (sprite.x ≤ mouse.x ∧ mouse.x < sprite.x + 16 ∧ sprite.y ≤ mouse.y →
      IsInt32 (sprite.y + 16))

/-- Sample buttons, all at x = 2147483643, y = 0: the last five columns of the
`int` range. -/
def edgeButtons : Int → ColourButton :=
  fun k => { colour := 1000 + k, colour_index := k, x := 2147483643, y := 0, selected := false }

/-- Sample tiles, all at x = 2147483640, y = 0, with index equal to position. -/
def edgeTiles : Int → Sprite :=
  fun i => { colour_data := fun _ => 0, index := i, x := 2147483640, y := 0, selected := false }

/-- Sample overlapping buttons near the top of the `int` range, at
x = 2147483642, y = 100. -/
def stackedButtons : Int → ColourButton :=
  fun k => { colour := 1000 + k, colour_index := k, x := 2147483642, y := 100, selected := false }

/-! # Theorems -/

/-! ## Arrays -/

theorem readAt_some {α : Type} (n : Int) (a : Int → α) (i : Int) (h0 : 0 ≤ i) (h1 : i < n) :
    readAt n a i = some (a i) := by
  simp only [readAt, h0, h1, and_self, if_true]

theorem writeAt_some {α : Type} (n : Int) (a : Int → α) (i : Int) (v : α) (h0 : 0 ≤ i)
    (h1 : i < n) : writeAt n a i v = some (Function.update a i v) := by
  simp only [writeAt, h0, h1, and_self, if_true]

/-! ## Loops -/

theorem iterate_inv {σ : Type} (body : Int → σ → Option σ) (lo : Int) (I : Nat → σ → Prop)
    (n : Nat) (s : σ) (h0 : I 0 s)
    (hstep : ∀ k : Nat, k < n → ∀ t, I k t → ∃ t', body (lo + k) t = some t' ∧ I (k + 1) t') :
    ∃ t, iterate body lo n s = some t ∧ I n t := by
  induction n with
  | zero => exact ⟨s, rfl, h0⟩
  | succ m ih =>
    obtain ⟨t, ht, hI⟩ := ih (fun k hk => hstep k (Nat.lt_succ_of_lt hk))
    obtain ⟨t', ht', hI'⟩ := hstep m (Nat.lt_succ_self m) t hI
    refine ⟨t', ?_, hI'⟩
    simp only [iterate, ht, Option.some_bind, ht']

theorem forLoop_inv {σ : Type} (lo hi : Int) (body : Int → σ → Option σ) (I : Int → σ → Prop)
    (s : σ) (hle : lo ≤ hi) (h0 : I lo s)
    (hstep : ∀ i, lo ≤ i → i < hi → ∀ t, I i t → ∃ t', body i t = some t' ∧ I (i + 1) t') :
    ∃ t, forLoop lo hi body s = some t ∧ I hi t := by
  have key := iterate_inv body lo (fun k t => I (lo + k) t) (hi - lo).toNat s
    (by simpa using h0)
    (fun k hk t hI => by
      have hk' : (k : Int) < hi - lo := by omega
      obtain ⟨t', h1, h2⟩ := hstep (lo + k) (by omega) (by omega) t hI
      exact ⟨t', h1, by simpa [add_assoc] using h2⟩)
  obtain ⟨t, h1, h2⟩ := key
  refine ⟨t, h1, ?_⟩
  have e : lo + ((hi - lo).toNat : Int) = hi := by omega
  rw [e] at h2
  exact h2

theorem forLoop_empty {σ : Type} (lo hi : Int) (body : Int → σ → Option σ) (s : σ)
    (h : hi ≤ lo) : forLoop lo hi body s = some s := by
  have : (hi - lo).toNat = 0 := by omega
  simp [forLoop, this, iterate]

theorem forLoop_congr {σ : Type} (lo hi : Int) (f g : Int → σ → Option σ) (s : σ)
    (h : ∀ i t, f i t = g i t) : forLoop lo hi f s = forLoop lo hi g s := by
  have e : f = g := funext fun i => funext (h i)
  rw [e]

theorem iterate_none {σ : Type} (body : Int → σ → Option σ) (lo : Int) (n k : Nat) (s : σ)
    (hk : k < n) (h : ∀ t, body (lo + k) t = none) : iterate body lo n s = none := by
  induction n with
  | zero => exact absurd hk (Nat.not_lt_zero k)
  | succ m ih =>
    simp only [iterate]
    by_cases hkm : k = m
    · subst hkm
      cases iterate body lo k s with
      | none => rfl
      | some t => exact h t
    · rw [ih (by omega)]
      rfl

/-- A loop one of whose iterations fails on every state has no result. -/
theorem forLoop_none {σ : Type} (lo hi : Int) (body : Int → σ → Option σ) (s : σ) (i : Int)
    (hi0 : lo ≤ i) (hi1 : i < hi) (h : ∀ t, body i t = none) : forLoop lo hi body s = none := by
  unfold forLoop
  apply iterate_none body lo (hi - lo).toNat (i - lo).toNat s (by omega)
  have e : lo + ((i - lo).toNat : Int) = i := by omega
  rw [e]
  exact h

/-! ## Rectangle fills -/

theorem fillRect_column (ix : Int → Int → Int) (val : Int → Int → Option Int) (h : Int)
    (i : Int) (px : Pixels) (hh : 0 ≤ h)
    (hval : ∀ j, 0 ≤ j → j < h → (val i j).isSome)
    (hin : ∀ j, 0 ≤ j → j < h → 0 ≤ ix i j ∧ ix i j < PIXELS_LEN)
    (hinj : ∀ j j', 0 ≤ j → j < h → 0 ≤ j' → j' < h → ix i j = ix i j' → j = j') :
    ∃ px', forLoop 0 h (fun j px => cellWrite ix val i j px) px = some px' ∧
      (∀ j, 0 ≤ j → j < h → some (px' (ix i j)) = val i j) ∧
      (∀ idx, (∀ j, 0 ≤ j → j < h → idx ≠ ix i j) → px' idx = px idx) := by
  apply forLoop_inv 0 h _ (fun k t =>
      (∀ j, 0 ≤ j → j < k → some (t (ix i j)) = val i j) ∧
      (∀ idx, (∀ j, 0 ≤ j → j < k → idx ≠ ix i j) → t idx = px idx)) px hh
  · exact ⟨fun j h0 h1 => absurd h1 (by omega), fun idx _ => rfl⟩
  · intro k hk0 hk1 t ⟨hA, hB⟩
    obtain ⟨v, hv⟩ := Option.isSome_iff_exists.mp (hval k hk0 hk1)
    have hb := hin k hk0 hk1
    refine ⟨Function.update t (ix i k) v, ?_, ?_, ?_⟩
    · simp only [cellWrite, hv, Option.some_bind, writeAt, hb, and_self, if_true]
    · intro j hj0 hj1
      by_cases hjk : j = k
      · subst hjk; simp [hv]
      · have hne : ix i j ≠ ix i k := fun e => hjk (hinj j k hj0 (by omega) hk0 hk1 e)
        rw [Function.update_noteq hne]
        exact hA j hj0 (by omega)
    · intro idx hidx
      have hne : idx ≠ ix i k := hidx k hk0 (by omega)
      rw [Function.update_noteq hne]
      exact hB idx (fun j hj0 hj1 => hidx j hj0 (by omega))

theorem fillRect_spec (ix : Int → Int → Int) (val : Int → Int → Option Int) (w h : Int)
    (px : Pixels) (hw : 0 ≤ w) (hh : 0 ≤ h)
    (hval : ∀ i j, 0 ≤ i → i < w → 0 ≤ j → j < h → (val i j).isSome)
    (hin : ∀ i j, 0 ≤ i → i < w → 0 ≤ j → j < h → 0 ≤ ix i j ∧ ix i j < PIXELS_LEN)
    (hinj : ∀ i j i' j', 0 ≤ i → i < w → 0 ≤ j → j < h → 0 ≤ i' → i' < w → 0 ≤ j' → j' < h →
      ix i j = ix i' j' → i = i' ∧ j = j') :
    ∃ px', fillRect ix val w h px = some px' ∧
      (∀ i j, 0 ≤ i → i < w → 0 ≤ j → j < h → some (px' (ix i j)) = val i j) ∧
      (∀ idx, (∀ i j, 0 ≤ i → i < w → 0 ≤ j → j < h → idx ≠ ix i j) → px' idx = px idx) := by
  apply forLoop_inv 0 w _ (fun k t =>
      (∀ i j, 0 ≤ i → i < k → 0 ≤ j → j < h → some (t (ix i j)) = val i j) ∧
      (∀ idx, (∀ i j, 0 ≤ i → i < k → 0 ≤ j → j < h → idx ≠ ix i j) → t idx = px idx)) px hw
  · exact ⟨fun i j h0 h1 => absurd h1 (by omega), fun idx _ => rfl⟩
  · intro k hk0 hk1 t ⟨hA, hB⟩
    obtain ⟨t', ht', hC, hD⟩ := fillRect_column ix val h k t hh
      (fun j a b => hval k j hk0 hk1 a b) (fun j a b => hin k j hk0 hk1 a b)
      (fun j j' a b c d e => (hinj k j k j' hk0 hk1 a b hk0 hk1 c d e).2)
    refine ⟨t', ht', ?_, ?_⟩
    · intro i j hi0 hi1 hj0 hj1
      by_cases hik : i = k
      · subst hik; exact hC j hj0 hj1
      · rw [hD (ix i j) (fun j' a b e =>
          hik (hinj i j k j' hi0 (by omega) hj0 hj1 hk0 hk1 a b e).1)]
        exact hA i j hi0 (by omega) hj0 hj1
    · intro idx hidx
      rw [hD idx (fun j a b => hidx k j hk0 (by omega) a b)]
      exact hB idx (fun i j a b c d => hidx i j a (by omega) c d)

/-- A fill of the `w` by `h` box whose top-left corner is the screen position
`(x, y)`: inside the box every pixel receives its value, outside the box the
buffer is untouched. -/
theorem fillBox_spec (x y w h : Int) (val : Int → Int → Option Int) (px : Pixels)
    (hw : 0 ≤ w) (hh : 0 ≤ h) (hx : 0 ≤ x) (hxw : x + w ≤ 640) (hy : 0 ≤ y) (hyh : y + h ≤ 360)
    (hval : ∀ i j, 0 ≤ i → i < w → 0 ≤ j → j < h → (val i j).isSome) :
    ∃ px', fillRect (fun i j => x + y * SCREEN_WIDTH + i + j * SCREEN_WIDTH) val w h px = some px' ∧
      (∀ i j, 0 ≤ i → i < w → 0 ≤ j → j < h → some (px' ((x + i) + (y + j) * 640)) = val i j) ∧
      (∀ cx cy, 0 ≤ cx → cx < 640 → ¬ (x ≤ cx ∧ cx < x + w ∧ y ≤ cy ∧ cy < y + h) →
        px' (cx + cy * 640) = px (cx + cy * 640)) := by
  obtain ⟨px', h1, h2, h3⟩ := fillRect_spec
    (fun i j => x + y * SCREEN_WIDTH + i + j * SCREEN_WIDTH) val w h px hw hh hval
    (fun i j a b c d => by simp only [SCREEN_WIDTH, PIXELS_LEN, SCREEN_HEIGHT]; omega)
    (fun i j i' j' a b c d a' b' c' d' e => by
      simp only [SCREEN_WIDTH] at e; omega)
  refine ⟨px', h1, ?_, ?_⟩
  · intro i j a b c d
    have e : (x + i) + (y + j) * 640 = x + y * SCREEN_WIDTH + i + j * SCREEN_WIDTH := by
      simp only [SCREEN_WIDTH]; omega
    rw [e]
    exact h2 i j a b c d
  · intro cx cy a b hout
    apply h3
    intro i j a' b' c' d'
    simp only [SCREEN_WIDTH]
    omega

/-- A rectangle fill one of whose cells has no value (a failed read) has no
result. -/
theorem fillRect_none (ix : Int → Int → Int) (val : Int → Int → Option Int) (w h : Int)
    (px : Pixels) (i j : Int) (hi0 : 0 ≤ i) (hi1 : i < w) (hj0 : 0 ≤ j) (hj1 : j < h)
    (hval : val i j = none) : fillRect ix val w h px = none := by
  unfold fillRect
  apply forLoop_none 0 w _ px i hi0 hi1
  intro t
  apply forLoop_none 0 h _ t j hj0 hj1
  intro u
  simp only [cellWrite, hval, Option.none_bind]

/-- Whenever the fill of a box on the screen has a result, the result is the
one described by `fillBox_spec`. -/
theorem fillBox_result (x y w h : Int) (val : Int → Int → Option Int) (px px' : Pixels)
    (hw : 0 ≤ w) (hh : 0 ≤ h) (hx : 0 ≤ x) (hxw : x + w ≤ 640) (hy : 0 ≤ y) (hyh : y + h ≤ 360)
    (hres : fillRect (fun i j => x + y * SCREEN_WIDTH + i + j * SCREEN_WIDTH) val w h px =
      some px') :
    (∀ i j, 0 ≤ i → i < w → 0 ≤ j → j < h → some (px' ((x + i) + (y + j) * 640)) = val i j) ∧
    (∀ cx cy, 0 ≤ cx → cx < 640 → ¬ (x ≤ cx ∧ cx < x + w ∧ y ≤ cy ∧ cy < y + h) →
      px' (cx + cy * 640) = px (cx + cy * 640)) := by
  by_cases hall : ∀ i j, 0 ≤ i → i < w → 0 ≤ j → j < h → (val i j).isSome
  · obtain ⟨q, e, h2, h3⟩ := fillBox_spec x y w h val px hw hh hx hxw hy hyh hall
    rw [e] at hres
    cases hres
    exact ⟨h2, h3⟩
  · push_neg at hall
    obtain ⟨i, j, hi0, hi1, hj0, hj1, hn⟩ := hall
    have hv : val i j = none := by
      cases hv' : val i j with
      | none => rfl
      | some v => rw [hv'] at hn; exact absurd rfl hn
    rw [fillRect_none _ val w h px i j hi0 hi1 hj0 hj1 hv] at hres
    cases hres

/-! ## `draw_colour_button` -/

theorem draw_colour_button_eq_fillRect (px : Pixels) (b : ColourButton) :
    draw_colour_button px b =
      fillRect (fun i j => b.x + b.y * SCREEN_WIDTH + i + j * SCREEN_WIDTH)
        (fun i j => some (if b.selected = true ∧ (i = 0 ∨ i = 15 ∨ j = 0 ∨ j = 15)
          then HIGHLIGHT else b.colour)) 16 16 px := by
  unfold draw_colour_button fillRect cellWrite
  cases hsel : b.selected
  · simp
  · simp only [if_true, BUTTON_SIZE, true_and, Option.some_bind]
    congr 1
    funext i px
    congr 1
    funext j px
    have e : (16 : Int) - 1 = 15 := by norm_num
    rw [e]
    split_ifs <;> rfl

theorem draw_colour_button_spec (px : Pixels) (b : ColourButton)
    (hx : 0 ≤ b.x) (hxw : b.x + 16 ≤ 640) (hy : 0 ≤ b.y) (hyh : b.y + 16 ≤ 360) :
    ∃ px', draw_colour_button px b = some px' ∧
      (∀ i j, 0 ≤ i → i < 16 → 0 ≤ j → j < 16 →
        px' ((b.x + i) + (b.y + j) * 640) =
          if b.selected = true ∧ (i = 0 ∨ i = 15 ∨ j = 0 ∨ j = 15) then HIGHLIGHT else b.colour) ∧
      (∀ cx cy, 0 ≤ cx → cx < 640 → ¬ (b.x ≤ cx ∧ cx < b.x + 16 ∧ b.y ≤ cy ∧ cy < b.y + 16) →
        px' (cx + cy * 640) = px (cx + cy * 640)) := by
  obtain ⟨px', h1, h2, h3⟩ := fillBox_spec b.x b.y 16 16
    (fun i j => some (if b.selected = true ∧ (i = 0 ∨ i = 15 ∨ j = 0 ∨ j = 15)
      then HIGHLIGHT else b.colour)) px (by norm_num) (by norm_num) hx hxw hy hyh
    (fun i j _ _ _ _ => rfl)
  refine ⟨px', ?_, ?_, h3⟩
  · rw [draw_colour_button_eq_fillRect]; exact h1
  · intro i j a b' c d
    exact Option.some.inj (h2 i j a b' c d)

/-! ## Tiles -/

theorem tdiv_cell (s i : Int) (hs : 1 ≤ s) (hi : 0 ≤ i) (hi' : i < s * 8) :
    0 ≤ i.tdiv s ∧ i.tdiv s < 8 := by
  rw [Int.tdiv_eq_ediv hi (by omega)]
  exact ⟨Int.ediv_nonneg hi (by omega), Int.ediv_lt_of_lt_mul (by omega) (by omega)⟩

theorem cell_index_bounds (s i j : Int) (hs : 1 ≤ s) (hi : 0 ≤ i) (hi' : i < s * 8)
    (hj : 0 ≤ j) (hj' : j < s * 8) :
    0 ≤ i.tdiv s + j.tdiv s * 8 ∧ i.tdiv s + j.tdiv s * 8 < 64 := by
  have a := tdiv_cell s i hs hi hi'
  have b := tdiv_cell s j hs hj hj'
  omega

theorem cellColour_valid (palette : Palette) (cd : Int → Int) (c : Int) (hcd : ValidData cd)
    (h0 : 0 ≤ c) (h1 : c < 64) : cellColour palette cd c = some (palette (cd c)) := by
  have hv := hcd c h0 h1
  simp only [COLOURS] at hv
  simp [cellColour, readAt, h0, h1, hv]

theorem draw_sprite_selected_eq (palette : Palette) (px : Pixels) (sp : Sprite) (s : Int)
    (hsel : sp.selected = true) :
    draw_sprite palette px sp s =
      fillRect (fun i j => sp.x + sp.y * SCREEN_WIDTH + i + j * SCREEN_WIDTH)
        (fun i j => if OnRing (s * 8) i j then some HIGHLIGHT
          else cellColour palette sp.colour_data (i.tdiv s + j.tdiv s * 8)) (s * 8) (s * 8) px := by
  unfold draw_sprite fillRect cellWrite
  simp only [hsel, if_true, TILE_SIZE]
  congr 1
  funext i px
  congr 1
  funext j px
  unfold OnRing cellColour
  split_ifs
  · rfl
  · simp only [Option.bind_assoc, Option.bind_eq_bind]

theorem draw_sprite_unselected_eq (palette : Palette) (px : Pixels) (sp : Sprite) (s : Int)
    (hsel : sp.selected = false) :
    draw_sprite palette px sp s =
      fillRect (fun i j => sp.x + sp.y * SCREEN_WIDTH + i + j * SCREEN_WIDTH)
        (fun i j => cellColour palette sp.colour_data (i.tdiv 2 + j.tdiv 2 * 8)) 16 16 px := by
  unfold draw_sprite fillRect cellWrite
  simp only [hsel, TILE_SIZE]
  have e : (2 : Int) * 8 = 16 := by norm_num
  simp only [e, Bool.false_eq_true, if_false]
  congr 1
  funext i px
  congr 1
  funext j px
  unfold cellColour
  simp only [Option.bind_assoc, Option.bind_eq_bind]

/-- A selected tile at scale `s`: highlight ring, magnified cells inside. -/
theorem draw_sprite_selected_spec (palette : Palette) (px : Pixels) (sp : Sprite) (s : Int)
    (hsel : sp.selected = true) (hs : 1 ≤ s) (hfit : FitsScreen sp.x sp.y (s * 8) (s * 8))
    (hcd : ValidData sp.colour_data) :
    ∃ px', draw_sprite palette px sp s = some px' ∧
      (∀ i j, 0 ≤ i → i < s * 8 → 0 ≤ j → j < s * 8 →
        px' ((sp.x + i) + (sp.y + j) * 640) =
          if OnRing (s * 8) i j then HIGHLIGHT
          else palette (sp.colour_data (i.tdiv s + j.tdiv s * 8))) ∧
      (∀ cx cy, 0 ≤ cx → cx < 640 →
        ¬ (sp.x ≤ cx ∧ cx < sp.x + s * 8 ∧ sp.y ≤ cy ∧ cy < sp.y + s * 8) →
        px' (cx + cy * 640) = px (cx + cy * 640)) := by
  obtain ⟨hx, hxw, hy, hyh⟩ := hfit
  have hval : ∀ i j, 0 ≤ i → i < s * 8 → 0 ≤ j → j < s * 8 →
      (if OnRing (s * 8) i j then some HIGHLIGHT
        else cellColour palette sp.colour_data (i.tdiv s + j.tdiv s * 8)) =
      some (if OnRing (s * 8) i j then HIGHLIGHT
        else palette (sp.colour_data (i.tdiv s + j.tdiv s * 8))) := by
    intro i j a b c d
    have hb := cell_index_bounds s i j hs a b c d
    split_ifs
    · rfl
    · exact cellColour_valid palette _ _ hcd hb.1 hb.2
  obtain ⟨px', h1, h2, h3⟩ := fillBox_spec sp.x sp.y (s * 8) (s * 8)
    (fun i j => if OnRing (s * 8) i j then some HIGHLIGHT
      else cellColour palette sp.colour_data (i.tdiv s + j.tdiv s * 8)) px
    (by omega) (by omega) hx hxw hy hyh
    (fun i j a b c d => by
      have := hval i j a b c d
      simp only at this ⊢
      rw [this]; rfl)
  refine ⟨px', ?_, ?_, h3⟩
  · rw [draw_sprite_selected_eq palette px sp s hsel]; exact h1
  · intro i j a b c d
    have := h2 i j a b c d
    simp only at this
    rw [hval i j a b c d] at this
    exact Option.some.inj this

/-- An unselected tile: the 16x16 rendering at zoom 2, whatever `scale` is. -/
theorem draw_sprite_unselected_spec (palette : Palette) (px : Pixels) (sp : Sprite) (s : Int)
    (hsel : sp.selected = false) (hfit : FitsScreen sp.x sp.y 16 16)
    (hcd : ValidData sp.colour_data) :
    ∃ px', draw_sprite palette px sp s = some px' ∧
      (∀ i j, 0 ≤ i → i < 16 → 0 ≤ j → j < 16 →
        px' ((sp.x + i) + (sp.y + j) * 640) =
          palette (sp.colour_data (i.tdiv 2 + j.tdiv 2 * 8))) ∧
      (∀ cx cy, 0 ≤ cx → cx < 640 →
        ¬ (sp.x ≤ cx ∧ cx < sp.x + 16 ∧ sp.y ≤ cy ∧ cy < sp.y + 16) →
        px' (cx + cy * 640) = px (cx + cy * 640)) := by
  obtain ⟨hx, hxw, hy, hyh⟩ := hfit
  have hval : ∀ i j : Int, 0 ≤ i → i < 16 → 0 ≤ j → j < 16 →
      cellColour palette sp.colour_data (i.tdiv 2 + j.tdiv 2 * 8) =
      some (palette (sp.colour_data (i.tdiv 2 + j.tdiv 2 * 8))) := by
    intro i j a b c d
    have hb := cell_index_bounds 2 i j (by norm_num) a (by omega) c (by omega)
    exact cellColour_valid palette _ _ hcd hb.1 hb.2
  obtain ⟨px', h1, h2, h3⟩ := fillBox_spec sp.x sp.y 16 16
    (fun i j => cellColour palette sp.colour_data (i.tdiv 2 + j.tdiv 2 * 8)) px
    (by omega) (by omega) hx hxw hy hyh
    (fun i j a b c d => by
      have := hval i j a b c d
      simp only at this ⊢
      rw [this]; rfl)
  refine ⟨px', ?_, ?_, h3⟩
  · rw [draw_sprite_unselected_eq palette px sp s hsel]; exact h1
  · intro i j a b c d
    have := h2 i j a b c d
    simp only at this
    rw [hval i j a b c d] at this
    exact Option.some.inj this

theorem cellColour_eq_some (palette : Palette) (cd : Int → Int) (c v : Int)
    (h : cellColour palette cd c = some v) : v = palette (cd c) := by
  unfold cellColour readAt at h
  by_cases h1 : 0 ≤ c ∧ c < COLOUR_DATA_LEN
  · by_cases h2 : 0 ≤ cd c ∧ cd c < COLOURS
    · simp only [h1, h2, and_self, if_true, Option.some_bind, Option.some.injEq] at h
      exact h.symm
    · simp only [h1, h2, and_self, if_true, if_false, Option.some_bind] at h
      cases h
  · simp only [h1, if_false, Option.none_bind] at h
    cases h

/-- Whenever `draw_sprite` on a selected tile has a result, the result is the
ring and the magnified cells. -/
theorem draw_sprite_selected_result (palette : Palette) (px px' : Pixels) (sp : Sprite)
    (s : Int) (hsel : sp.selected = true) (hs : 1 ≤ s)
    (hfit : FitsScreen sp.x sp.y (s * 8) (s * 8))
    (hres : draw_sprite palette px sp s = some px') :
    (∀ i j, 0 ≤ i → i < s * 8 → 0 ≤ j → j < s * 8 →
      px' ((sp.x + i) + (sp.y + j) * 640) =
        if OnRing (s * 8) i j then HIGHLIGHT
        else palette (sp.colour_data (i.tdiv s + j.tdiv s * 8))) ∧
    (∀ cx cy, 0 ≤ cx → cx < 640 →
      ¬ (sp.x ≤ cx ∧ cx < sp.x + s * 8 ∧ sp.y ≤ cy ∧ cy < sp.y + s * 8) →
      px' (cx + cy * 640) = px (cx + cy * 640)) := by
  obtain ⟨hx, hxw, hy, hyh⟩ := hfit
  rw [draw_sprite_selected_eq palette px sp s hsel] at hres
  obtain ⟨h2, h3⟩ := fillBox_result sp.x sp.y (s * 8) (s * 8) _ px px' (by omega) (by omega)
    hx hxw hy hyh hres
  refine ⟨?_, h3⟩
  intro i j a b c d
  have := h2 i j a b c d
  simp only at this
  split_ifs with hr
  · rw [if_pos hr] at this
    exact Option.some.inj this
  · rw [if_neg hr] at this
    exact cellColour_eq_some palette _ _ _ this.symm

/-- Whenever `draw_sprite` on an unselected tile has a result, the result is
the 16x16 rendering at zoom 2. -/
theorem draw_sprite_unselected_result (palette : Palette) (px px' : Pixels) (sp : Sprite)
    (s : Int) (hsel : sp.selected = false) (hfit : FitsScreen sp.x sp.y 16 16)
    (hres : draw_sprite palette px sp s = some px') :
    (∀ i j, 0 ≤ i → i < 16 → 0 ≤ j → j < 16 →
      px' ((sp.x + i) + (sp.y + j) * 640) =
        palette (sp.colour_data (i.tdiv 2 + j.tdiv 2 * 8))) ∧
    (∀ cx cy, 0 ≤ cx → cx < 640 →
      ¬ (sp.x ≤ cx ∧ cx < sp.x + 16 ∧ sp.y ≤ cy ∧ cy < sp.y + 16) →
      px' (cx + cy * 640) = px (cx + cy * 640)) := by
  obtain ⟨hx, hxw, hy, hyh⟩ := hfit
  rw [draw_sprite_unselected_eq palette px sp s hsel] at hres
  obtain ⟨h2, h3⟩ := fillBox_result sp.x sp.y 16 16 _ px px' (by omega) (by omega)
    hx hxw hy hyh hres
  refine ⟨?_, h3⟩
  intro i j a b c d
  have := h2 i j a b c d
  simp only at this
  exact cellColour_eq_some palette _ _ _ this.symm

/-! ## `draw_canvas` -/

theorem canvas_corner_x : SCREEN_WIDTH.tdiv 2 - (RENDER_SIZE * TILE_SIZE).tdiv 2 = 224 := by
  decide

theorem canvas_corner_y : SCREEN_HEIGHT.tdiv 2 - (RENDER_SIZE * TILE_SIZE).tdiv 2 = 84 := by
  decide

theorem draw_canvas_eq (palette : Palette) (px : Pixels) (cur : Sprite) (sheet : Int → Sprite)
    (h0 : 0 ≤ cur.index) (h1 : cur.index < 128) :
    draw_canvas palette px cur sheet =
      fillRect (fun i j => 224 + 84 * SCREEN_WIDTH + i + j * SCREEN_WIDTH)
        (fun i j => cellColour palette (sheet cur.index).colour_data (i.tdiv 24 + j.tdiv 24 * 8))
        192 192 px := by
  unfold draw_canvas fillRect cellWrite
  simp only [canvas_corner_x, canvas_corner_y]
  have e : RENDER_SIZE * TILE_SIZE = 192 := by decide
  rw [e]
  refine forLoop_congr _ _ _ _ _ (fun i px => forLoop_congr _ _ _ _ _ (fun j px => ?_))
  unfold cellColour
  simp [readAt, h0, h1, Option.bind_assoc]

theorem draw_canvas_spec (palette : Palette) (px : Pixels) (cur : Sprite) (sheet : Int → Sprite)
    (h0 : 0 ≤ cur.index) (h1 : cur.index < 128)
    (hcd : ValidData (sheet cur.index).colour_data) :
    ∃ px', draw_canvas palette px cur sheet = some px' ∧
      (∀ i j, 0 ≤ i → i < 192 → 0 ≤ j → j < 192 →
        px' ((224 + i) + (84 + j) * 640) =
          palette ((sheet cur.index).colour_data (i.tdiv 24 + j.tdiv 24 * 8))) ∧
      (∀ cx cy, 0 ≤ cx → cx < 640 →
        ¬ (224 ≤ cx ∧ cx < 224 + 192 ∧ 84 ≤ cy ∧ cy < 84 + 192) →
        px' (cx + cy * 640) = px (cx + cy * 640)) := by
  have hval : ∀ i j : Int, 0 ≤ i → i < 192 → 0 ≤ j → j < 192 →
      cellColour palette (sheet cur.index).colour_data (i.tdiv 24 + j.tdiv 24 * 8) =
      some (palette ((sheet cur.index).colour_data (i.tdiv 24 + j.tdiv 24 * 8))) := by
    intro i j a b c d
    have hb := cell_index_bounds 24 i j (by norm_num) a (by omega) c (by omega)
    exact cellColour_valid palette _ _ hcd hb.1 hb.2
  obtain ⟨px', h1', h2, h3⟩ := fillBox_spec 224 84 192 192
    (fun i j => cellColour palette (sheet cur.index).colour_data (i.tdiv 24 + j.tdiv 24 * 8)) px
    (by norm_num) (by norm_num) (by norm_num) (by norm_num) (by norm_num) (by norm_num)
    (fun i j a b c d => by
      have := hval i j a b c d
      simp only at this ⊢
      rw [this]; rfl)
  refine ⟨px', ?_, ?_, h3⟩
  · rw [draw_canvas_eq palette px cur sheet h0 h1]; exact h1'
  · intro i j a b c d
    have := h2 i j a b c d
    simp only at this
    rw [hval i j a b c d] at this
    exact Option.some.inj this

/-- Whenever `draw_canvas` has a result, the result is the current tile at
zoom 24. -/
theorem draw_canvas_result (palette : Palette) (px px' : Pixels) (cur : Sprite)
    (sheet : Int → Sprite) (h0 : 0 ≤ cur.index) (h1 : cur.index < 128)
    (hres : draw_canvas palette px cur sheet = some px') :
    (∀ i j, 0 ≤ i → i < 192 → 0 ≤ j → j < 192 →
      px' ((224 + i) + (84 + j) * 640) =
        palette ((sheet cur.index).colour_data (i.tdiv 24 + j.tdiv 24 * 8))) ∧
    (∀ cx cy, 0 ≤ cx → cx < 640 →
      ¬ (224 ≤ cx ∧ cx < 224 + 192 ∧ 84 ≤ cy ∧ cy < 84 + 192) →
      px' (cx + cy * 640) = px (cx + cy * 640)) := by
  rw [draw_canvas_eq palette px cur sheet h0 h1] at hres
  obtain ⟨h2, h3⟩ := fillBox_result 224 84 192 192 _ px px' (by norm_num) (by norm_num)
    (by norm_num) (by norm_num) (by norm_num) (by norm_num) hres
  refine ⟨?_, h3⟩
  intro i j a b c d
  have := h2 i j a b c d
  simp only at this
  exact cellColour_eq_some palette _ _ _ this.symm

/-- The canvas only looks at the index of the current sprite and at the
`colour_data` of the sheet. -/
theorem draw_canvas_congr (palette : Palette) (px : Pixels) (cur cur' : Sprite)
    (sheet sheet' : Int → Sprite) (hidx : cur'.index = cur.index)
    (hdata : ∀ k, (sheet' k).colour_data = (sheet k).colour_data) :
    draw_canvas palette px cur' sheet' = draw_canvas palette px cur sheet := by
  unfold draw_canvas
  simp only [hidx]
  refine forLoop_congr _ _ _ _ _ (fun i px => forLoop_congr _ _ _ _ _ (fun j px => ?_))
  unfold readAt
  by_cases hb : 0 ≤ cur.index ∧ cur.index < N_TILES
  · simp only [hb, and_self, if_true, Option.some_bind, hdata]
  · simp only [hb, if_false, Option.none_bind]

/-! ## `draw_pixel` -/

theorem draw_pixel_spec (pixels : Pixels) (x y : Int) (colour : ColourButton) (sprite : Sprite)
    (sheet : Int → Sprite) (h0 : 0 ≤ sprite.index) (h1 : sprite.index < 128)
    (hx0 : 0 ≤ x) (hx1 : x < 8) (hy0 : 0 ≤ y) (hy1 : y < 8) :
    draw_pixel pixels x y colour sprite sheet =
      some (Function.update sheet sprite.index
        { sheet sprite.index with
          colour_data := Function.update (sheet sprite.index).colour_data (x + 8 * y)
            colour.colour_index }) := by
  have hc : 0 ≤ x + 8 * y ∧ x + 8 * y < 64 := by omega
  simp [draw_pixel, readAt, writeAt, h0, h1, hc]

theorem checkerTile_valid : ValidData checkerTile.colour_data := by
  intro k _ _
  simp only [checkerTile, COLOURS]
  omega

/-! ## Start-up -/

theorem forLoop_some {σ : Type} (lo hi : Int) (body : Int → σ → Option σ) (s : σ)
    (h : ∀ i, lo ≤ i → i < hi → ∀ t, ∃ t', body i t = some t') :
    ∃ t, forLoop lo hi body s = some t := by
  by_cases hle : lo ≤ hi
  · obtain ⟨t, ht, _⟩ := forLoop_inv lo hi body (fun _ _ => True) s hle trivial
      (fun i a b t _ => by
        obtain ⟨t', e⟩ := h i a b t
        exact ⟨t', e, trivial⟩)
    exact ⟨t, ht⟩
  · exact ⟨s, forLoop_empty lo hi body s (by omega)⟩

theorem init_pixels_some (px0 : Pixels) : ∃ px, init_pixels px0 = some px := by
  unfold init_pixels
  obtain ⟨p1, e1⟩ := forLoop_some 0 SCREEN_HEIGHT (fun y px =>
    forLoop 0 SCREEN_WIDTH (fun x px =>
      writeAt PIXELS_LEN px (x + y * SCREEN_WIDTH) 0x232324ff) px) px0
    (fun y hy0 hy1 t => forLoop_some 0 SCREEN_WIDTH _ t (fun x hx0 hx1 u => by
      have hb : 0 ≤ x + y * SCREEN_WIDTH ∧ x + y * SCREEN_WIDTH < PIXELS_LEN := by
        simp only [SCREEN_WIDTH, SCREEN_HEIGHT, PIXELS_LEN] at *; omega
      exact ⟨_, writeAt_some _ _ _ _ hb.1 hb.2⟩))
  rw [e1, Option.some_bind]
  have ex : SCREEN_WIDTH.tdiv 2 + (RENDER_SIZE * TILE_SIZE).tdiv 2 + 1 = 417 := by decide
  have ey : SCREEN_HEIGHT.tdiv 2 + (RENDER_SIZE * TILE_SIZE).tdiv 2 + 1 = 277 := by decide
  rw [canvas_corner_x, canvas_corner_y, ex, ey]
  exact forLoop_some 224 417 _ p1 (fun i hi0 hi1 t => forLoop_some 84 277 _ t
    (fun j hj0 hj1 u => by
      have hb : 0 ≤ i + j * SCREEN_WIDTH ∧ i + j * SCREEN_WIDTH < PIXELS_LEN := by
        simp only [SCREEN_WIDTH, SCREEN_HEIGHT, PIXELS_LEN] at *; omega
      by_cases hc : (i - SCREEN_WIDTH.tdiv 2).tmod RENDER_SIZE = 0 ∨
          (j - SCREEN_HEIGHT.tdiv 2).tmod RENDER_SIZE = 0
      · exact ⟨_, by simp only [hc, if_true, writeAt_some _ _ _ _ hb.1 hb.2]; rfl⟩
      · exact ⟨u, by simp only [hc, if_false]⟩))

theorem init_colour_palette_spec (palette : Palette) (cp0 : Int → ColourButton) :
    ∃ cp, init_colour_palette palette cp0 = some cp ∧
      ∀ k, 0 ≤ k → k < 64 → cp k = startButton palette k := by
  unfold init_colour_palette
  have e16 : COLOURS.tdiv COLUMNS = 16 := by decide
  simp only [e16]
  obtain ⟨cp, e, h⟩ := forLoop_inv 0 16 (fun i cp =>
      forLoop 0 COLUMNS (fun j cp =>
        (readAt COLOURS palette (i + (j * COLOURS).tdiv COLUMNS)).bind fun c =>
        writeAt COLOURS cp (i + (j * COLOURS).tdiv COLUMNS)
          { colour := c
            colour_index := i + (j * COLOURS).tdiv COLUMNS
            x := 512 + j * BUTTON_SIZE
            y := 64 + i * BUTTON_SIZE
            selected := false }) cp)
    (fun n t => ∀ k, 0 ≤ k → k < 64 → k % 16 < n → t k = startButton palette k) cp0
    (by norm_num) (fun k a b c => absurd c (by omega))
    (fun i hi0 hi1 t hI => by
      obtain ⟨t', e', h'⟩ := forLoop_inv 0 COLUMNS (fun j cp =>
          (readAt COLOURS palette (i + (j * COLOURS).tdiv COLUMNS)).bind fun c =>
          writeAt COLOURS cp (i + (j * COLOURS).tdiv COLUMNS)
            { colour := c
              colour_index := i + (j * COLOURS).tdiv COLUMNS
              x := 512 + j * BUTTON_SIZE
              y := 64 + i * BUTTON_SIZE
              selected := false })
        (fun m u => ∀ k, 0 ≤ k → k < 64 → (k % 16 < i ∨ (k % 16 = i ∧ k / 16 < m)) →
          u k = startButton palette k) t (by norm_num)
        (fun k a b c => hI k a b (by omega))
        (fun j hj0 hj1 u hJ => by
          have ej : (j * COLOURS).tdiv COLUMNS = 16 * j := by
            rw [Int.tdiv_eq_ediv (by simp only [COLOURS]; omega) (by norm_num)]
            simp only [COLOURS, COLUMNS]; omega
          simp only [COLUMNS] at hj1
          have hb : 0 ≤ i + 16 * j ∧ i + 16 * j < COLOURS := by simp only [COLOURS]; omega
          refine ⟨_, by simp only [ej, readAt_some _ _ _ hb.1 hb.2,
            writeAt_some _ _ _ _ hb.1 hb.2, Option.some_bind]; rfl, ?_⟩
          intro k hk0 hk1 hk
          by_cases hki : k = i + 16 * j
          · subst hki
            rw [Function.update_same]
            have q : (i + 16 * j) / 16 = j := by omega
            have r : (i + 16 * j) % 16 = i := by omega
            simp only [startButton, q, r, BUTTON_SIZE]
            congr 1 <;> omega
          · rw [Function.update_noteq hki]
            exact hJ k hk0 hk1 (by omega))
      refine ⟨t', e', ?_⟩
      intro k hk0 hk1 hk
      simp only [COLUMNS] at h'
      exact h' k hk0 hk1 (by omega))
  exact ⟨cp, e, fun k a b => h k a b (by omega)⟩

theorem blank_colour_data (cd0 : Int → Int) :
    ∃ cd, forLoop 0 (TILE_SIZE * TILE_SIZE) (fun j cd => writeAt COLOUR_DATA_LEN cd j 0) cd0 =
        some cd ∧ ∀ k, 0 ≤ k → k < 64 → cd k = 0 := by
  have e : TILE_SIZE * TILE_SIZE = 64 := by decide
  rw [e]
  obtain ⟨cd, h1, h2⟩ := forLoop_inv 0 64 (fun j cd => writeAt COLOUR_DATA_LEN cd j 0)
    (fun n t => ∀ k, 0 ≤ k → k < n → t k = 0) cd0 (by norm_num)
    (fun k a b => absurd b (by omega))
    (fun j hj0 hj1 t hI => by
      refine ⟨_, writeAt_some _ _ _ _ hj0 hj1, ?_⟩
      intro k hk0 hk1
      by_cases hkj : k = j
      · subst hkj; rw [Function.update_same]
      · rw [Function.update_noteq hkj]; exact hI k hk0 (by omega))
  exact ⟨cd, h1, h2⟩

theorem init_sprite_sheet_spec (ss0 : Int → Sprite) :
    ∃ ss, init_sprite_sheet ss0 = some ss ∧
      ∀ i, 0 ≤ i → i < 128 →
        (ss i).index = i ∧ (ss i).selected = false ∧
        (ss i).x = 50 + 16 * (i % 8) ∧ (ss i).y = 50 + 16 * (i / 8) ∧
        ∀ k, 0 ≤ k → k < 64 → (ss i).colour_data k = 0 := by
  unfold init_sprite_sheet
  apply forLoop_inv 0 N_TILES _
    (fun n t => ∀ i, 0 ≤ i → i < n →
        (t i).index = i ∧ (t i).selected = false ∧
        (t i).x = 50 + 16 * (i % 8) ∧ (t i).y = 50 + 16 * (i / 8) ∧
        ∀ k, 0 ≤ k → k < 64 → (t i).colour_data k = 0) ss0 (by norm_num)
  · exact fun i a b => absurd b (by omega)
  · intro n hn0 hn1 t hI
    obtain ⟨cd, ecd, hcd⟩ := blank_colour_data (t n).colour_data
    refine ⟨_, by simp only [readAt_some _ _ _ hn0 hn1, Option.some_bind, ecd,
      writeAt_some _ _ _ _ hn0 hn1]; rfl, ?_⟩
    intro i hi0 hi1
    by_cases hin : i = n
    · subst hin
      rw [Function.update_same]
      have em : i.tmod TILE_SIZE = i % 8 := Int.tmod_eq_emod hi0 (by norm_num)
      have ed : i.tdiv TILE_SIZE = i / 8 := Int.tdiv_eq_ediv hi0 (by norm_num)
      simp only [em, ed, TILE_SIZE, SPRITE_SHEET_X, SPRITE_SHEET_Y]
      exact ⟨trivial, trivial, by omega, by omega, hcd⟩
    · rw [Function.update_noteq hin]
      exact hI i hi0 (by omega)

theorem init_spec (palette : Palette) (px0 : Pixels) (cp0 : Int → ColourButton)
    (ss0 : Int → Sprite) :
    ∃ s, init palette px0 cp0 ss0 = some s ∧
      (∀ k, 0 ≤ k → k < 64 → s.colour_palette k = startButton palette k) ∧
      s.current_colour = { colour := 0, colour_index := 0, x := 0, y := 0, selected := false } ∧
      (∀ i, 0 ≤ i → i < 128 →
        (s.sprite_sheet i).index = i ∧ (s.sprite_sheet i).selected = false ∧
        (s.sprite_sheet i).x = 50 + 16 * (i % 8) ∧ (s.sprite_sheet i).y = 50 + 16 * (i / 8) ∧
        ∀ k, 0 ≤ k → k < 64 → (s.sprite_sheet i).colour_data k = 0) ∧
      s.current_sprite.index = 0 := by
  obtain ⟨px, e1⟩ := init_pixels_some px0
  obtain ⟨cp, e2, h2⟩ := init_colour_palette_spec palette cp0
  obtain ⟨ss, e3, h3⟩ := init_sprite_sheet_spec ss0
  have e4 : readAt N_TILES ss 0 = some (ss 0) := readAt_some _ _ _ (by norm_num) (by norm_num)
  refine ⟨_, by unfold init; simp only [e1, e2, e3, e4, Option.some_bind]; rfl, h2, rfl, h3, ?_⟩
  exact (h3 0 (by norm_num) (by norm_num)).1

/-! ## Hit tests and scans -/

theorem colour_select_fst (b : ColourButton) (m : MouseInput) (c : ColourButton) :
    (colour_select b m c).1 = { b with selected := false } := rfl

theorem colour_select_hit (b : ColourButton) (m : MouseInput) (c : ColourButton)
    (h : colour_hit b m) :
    (colour_select b m c).2 = { c with colour := b.colour, colour_index := b.colour_index } := by
  unfold colour_hit at h
  simp only [colour_select, h, and_self, if_true]

theorem colour_select_miss (b : ColourButton) (m : MouseInput) (c : ColourButton)
    (h : ¬ colour_hit b m) : (colour_select b m c).2 = c := by
  unfold colour_hit at h
  simp only [colour_select, h, if_false]

theorem sprite_select_fst (m : MouseInput) (sp : Sprite) (c : Sprite) :
    (sprite_select m sp c).1 = { sp with selected := false } := rfl

theorem sprite_select_hit (m : MouseInput) (sp : Sprite) (c : Sprite) (h : sprite_hit sp m) :
    (sprite_select m sp c).2 = { c with index := sp.index } := by
  unfold sprite_hit at h
  simp only [sprite_select, h, and_self, if_true]

theorem sprite_select_miss (m : MouseInput) (sp : Sprite) (c : Sprite) (h : ¬ sprite_hit sp m) :
    (sprite_select m sp c).2 = c := by
  unfold sprite_hit at h
  simp only [sprite_select, h, if_false]

theorem colour_scan_spec (m : MouseInput) (cp : Int → ColourButton) (cur : ColourButton) :
    ∃ st, forLoop 0 COLOURS (fun i (st : (Int → ColourButton) × ColourButton) =>
        (readAt COLOURS st.1 i).bind fun button =>
        (writeAt COLOURS st.1 i (colour_select button m st.2).1).bind fun cp =>
          some (cp, (colour_select button m st.2).2)) (cp, cur) = some st ∧
      (∀ k, 0 ≤ k → k < 64 → st.1 k = { cp k with selected := false }) ∧
      (∀ k, ¬ (0 ≤ k ∧ k < 64) → st.1 k = cp k) ∧
      st.2 = scanColour m cp cur 64 := by
  obtain ⟨st, e, h1, h2, h3⟩ := forLoop_inv 0 COLOURS
    (fun i (st : (Int → ColourButton) × ColourButton) =>
        (readAt COLOURS st.1 i).bind fun button =>
        (writeAt COLOURS st.1 i (colour_select button m st.2).1).bind fun cp =>
          some (cp, (colour_select button m st.2).2))
    (fun n st => (∀ k, 0 ≤ k → k < n → st.1 k = { cp k with selected := false }) ∧
      (∀ k, ¬ (0 ≤ k ∧ k < n) → st.1 k = cp k) ∧
      st.2 = scanColour m cp cur n.toNat) (cp, cur) (by norm_num)
    ⟨fun k a b => absurd b (by omega), fun k _ => rfl, rfl⟩
    (fun n hn0 hn1 st ⟨hA, hB, hC⟩ => by
      have hn : st.1 n = cp n := hB n (by omega)
      refine ⟨_, by simp only [readAt_some _ _ _ hn0 hn1, Option.some_bind,
        writeAt_some _ _ _ _ hn0 hn1]; rfl, ?_, ?_, ?_⟩
      · intro k hk0 hk1
        by_cases hkn : k = n
        · subst hkn; simp only [Function.update_same, colour_select_fst, hn]
        · simp only [Function.update_noteq hkn]; exact hA k hk0 (by omega)
      · intro k hk
        have hkn : k ≠ n := by omega
        simp only [Function.update_noteq hkn]
        exact hB k (by omega)
      · have e1 : (n + 1).toNat = n.toNat + 1 := by omega
        have e2 : ((n.toNat : Nat) : Int) = n := by omega
        simp only [e1, scanColour, e2, hn, hC])
  exact ⟨st, e, h1, h2, h3⟩

theorem sprite_scan_spec (m : MouseInput) (ss : Int → Sprite) (cur : Sprite) :
    ∃ st, forLoop 0 N_TILES (fun i (st : (Int → Sprite) × Sprite) =>
        (readAt N_TILES st.1 i).bind fun sprite =>
        (writeAt N_TILES st.1 i (sprite_select m sprite st.2).1).bind fun ss =>
          some (ss, (sprite_select m sprite st.2).2)) (ss, cur) = some st ∧
      (∀ k, 0 ≤ k → k < 128 → st.1 k = { ss k with selected := false }) ∧
      (∀ k, ¬ (0 ≤ k ∧ k < 128) → st.1 k = ss k) ∧
      st.2 = scanSprite m ss cur 128 := by
  obtain ⟨st, e, h1, h2, h3⟩ := forLoop_inv 0 N_TILES
    (fun i (st : (Int → Sprite) × Sprite) =>
        (readAt N_TILES st.1 i).bind fun sprite =>
        (writeAt N_TILES st.1 i (sprite_select m sprite st.2).1).bind fun ss =>
          some (ss, (sprite_select m sprite st.2).2))
    (fun n st => (∀ k, 0 ≤ k → k < n → st.1 k = { ss k with selected := false }) ∧
      (∀ k, ¬ (0 ≤ k ∧ k < n) → st.1 k = ss k) ∧
      st.2 = scanSprite m ss cur n.toNat) (ss, cur) (by norm_num)
    ⟨fun k a b => absurd b (by omega), fun k _ => rfl, rfl⟩
    (fun n hn0 hn1 st ⟨hA, hB, hC⟩ => by
      have hn : st.1 n = ss n := hB n (by omega)
      refine ⟨_, by simp only [readAt_some _ _ _ hn0 hn1, Option.some_bind,
        writeAt_some _ _ _ _ hn0 hn1]; rfl, ?_, ?_, ?_⟩
      · intro k hk0 hk1
        by_cases hkn : k = n
        · subst hkn; simp only [Function.update_same, sprite_select_fst, hn]
        · simp only [Function.update_noteq hkn]; exact hA k hk0 (by omega)
      · intro k hk
        have hkn : k ≠ n := by omega
        simp only [Function.update_noteq hkn]
        exact hB k (by omega)
      · have e1 : (n + 1).toNat = n.toNat + 1 := by omega
        have e2 : ((n.toNat : Nat) : Int) = n := by omega
        simp only [e1, scanSprite, e2, hn, hC])
  exact ⟨st, e, h1, h2, h3⟩

theorem scanColour_miss (m : MouseInput) (cp : Int → ColourButton) (cur : ColourButton)
    (n : Nat) (h : ∀ k : Nat, k < n → ¬ colour_hit (cp k) m) : scanColour m cp cur n = cur := by
  induction n with
  | zero => rfl
  | succ n ih =>
    simp only [scanColour]
    rw [colour_select_miss _ _ _ (h n (Nat.lt_succ_self n))]
    exact ih (fun k hk => h k (Nat.lt_succ_of_lt hk))

theorem scanColour_hit (m : MouseInput) (cp : Int → ColourButton) (cur : ColourButton)
    (n k : Nat) (hk : k < n) (hit : colour_hit (cp k) m)
    (huniq : ∀ j : Nat, j < n → colour_hit (cp j) m → j = k) :
    scanColour m cp cur n =
      { cur with colour := (cp k).colour, colour_index := (cp k).colour_index } := by
  induction n with
  | zero => exact absurd hk (Nat.not_lt_zero k)
  | succ n ih =>
    simp only [scanColour]
    by_cases hkn : k = n
    · subst hkn
      rw [colour_select_hit _ _ _ hit, scanColour_miss m cp cur k (fun j hj hh => by
        have := huniq j (Nat.lt_succ_of_lt hj) hh
        omega)]
    · have hmiss : ¬ colour_hit (cp n) m := fun hh => hkn (huniq n (Nat.lt_succ_self n) hh).symm
      rw [colour_select_miss _ _ _ hmiss]
      exact ih (by omega) (fun j hj hh => huniq j (Nat.lt_succ_of_lt hj) hh)

theorem scanColour_index_range (m : MouseInput) (cp : Int → ColourButton) (cur : ColourButton)
    (n : Nat) (hcur : 0 ≤ cur.colour_index ∧ cur.colour_index < 64)
    (hcp : ∀ k : Nat, k < n → 0 ≤ (cp k).colour_index ∧ (cp k).colour_index < 64) :
    0 ≤ (scanColour m cp cur n).colour_index ∧ (scanColour m cp cur n).colour_index < 64 := by
  induction n with
  | zero => exact hcur
  | succ n ih =>
    simp only [scanColour]
    by_cases hh : colour_hit (cp n) m
    · rw [colour_select_hit _ _ _ hh]
      exact hcp n (Nat.lt_succ_self n)
    · rw [colour_select_miss _ _ _ hh]
      exact ih (fun k hk => hcp k (Nat.lt_succ_of_lt hk))

theorem scanSprite_miss (m : MouseInput) (ss : Int → Sprite) (cur : Sprite)
    (n : Nat) (h : ∀ k : Nat, k < n → ¬ sprite_hit (ss k) m) : scanSprite m ss cur n = cur := by
  induction n with
  | zero => rfl
  | succ n ih =>
    simp only [scanSprite]
    rw [sprite_select_miss _ _ _ (h n (Nat.lt_succ_self n))]
    exact ih (fun k hk => h k (Nat.lt_succ_of_lt hk))

theorem scanSprite_hit (m : MouseInput) (ss : Int → Sprite) (cur : Sprite)
    (n k : Nat) (hk : k < n) (hit : sprite_hit (ss k) m)
    (huniq : ∀ j : Nat, j < n → sprite_hit (ss j) m → j = k) :
    scanSprite m ss cur n = { cur with index := (ss k).index } := by
  induction n with
  | zero => exact absurd hk (Nat.not_lt_zero k)
  | succ n ih =>
    simp only [scanSprite]
    by_cases hkn : k = n
    · subst hkn
      rw [sprite_select_hit _ _ _ hit, scanSprite_miss m ss cur k (fun j hj hh => by
        have := huniq j (Nat.lt_succ_of_lt hj) hh
        omega)]
    · have hmiss : ¬ sprite_hit (ss n) m := fun hh => hkn (huniq n (Nat.lt_succ_self n) hh).symm
      rw [sprite_select_miss _ _ _ hmiss]
      exact ih (by omega) (fun j hj hh => huniq j (Nat.lt_succ_of_lt hj) hh)

theorem scanSprite_index_range (m : MouseInput) (ss : Int → Sprite) (cur : Sprite)
    (n : Nat) (hcur : 0 ≤ cur.index ∧ cur.index < 128)
    (hss : ∀ k : Nat, k < n → 0 ≤ (ss k).index ∧ (ss k).index < 128) :
    0 ≤ (scanSprite m ss cur n).index ∧ (scanSprite m ss cur n).index < 128 := by
  induction n with
  | zero => exact hcur
  | succ n ih =>
    simp only [scanSprite]
    by_cases hh : sprite_hit (ss n) m
    · rw [sprite_select_hit _ _ _ hh]
      exact hss n (Nat.lt_succ_self n)
    · rw [sprite_select_miss _ _ _ hh]
      exact ih (fun k hk => hss k (Nat.lt_succ_of_lt hk))

/-- The colour phase of click processing: every button is cleared, the button
of the resulting current colour is set. -/
theorem select_colour_spec (m : MouseInput) (cp : Int → ColourButton) (cur : ColourButton)
    (hr : 0 ≤ (scanColour m cp cur 64).colour_index ∧ (scanColour m cp cur 64).colour_index < 64) :
    ∃ cp', select_colour m cp cur = some (cp', scanColour m cp cur 64) ∧
      (∀ k, 0 ≤ k → k < 64 → cp' k =
        { cp k with selected := decide (k = (scanColour m cp cur 64).colour_index) }) ∧
      (∀ k, ¬ (0 ≤ k ∧ k < 64) → cp' k = cp k) := by
  obtain ⟨st, e, h1, h2, h3⟩ := colour_scan_spec m cp cur
  have e' : select_colour m cp cur = some (Function.update st.1 st.2.colour_index
      { st.1 st.2.colour_index with selected := true }, st.2) := by
    unfold select_colour
    simp only [e, Option.some_bind]
    rw [h3]
    simp only [readAt_some _ _ _ hr.1 hr.2, writeAt_some _ _ _ _ hr.1 hr.2, Option.some_bind]
  rw [h3] at e'
  refine ⟨_, e', ?_, ?_⟩
  · intro k hk0 hk1
    by_cases hk : k = (scanColour m cp cur 64).colour_index
    · rw [← hk, Function.update_same, h1 k hk0 hk1]
      simp [hk]
    · rw [Function.update_noteq hk, h1 k hk0 hk1]
      simp [hk]
  · intro k hk
    have hne : k ≠ (scanColour m cp cur 64).colour_index := by omega
    rw [Function.update_noteq hne]
    exact h2 k hk

/-- The tile phase of click processing: every tile is cleared, the tile of
the resulting current sprite is set. -/
theorem select_sprite_spec (m : MouseInput) (ss : Int → Sprite) (cur : Sprite)
    (hr : 0 ≤ (scanSprite m ss cur 128).index ∧ (scanSprite m ss cur 128).index < 128) :
    ∃ ss', select_sprite m ss cur = some (ss', scanSprite m ss cur 128) ∧
      (∀ k, 0 ≤ k → k < 128 → ss' k =
        { ss k with selected := decide (k = (scanSprite m ss cur 128).index) }) ∧
      (∀ k, ¬ (0 ≤ k ∧ k < 128) → ss' k = ss k) := by
  obtain ⟨st, e, h1, h2, h3⟩ := sprite_scan_spec m ss cur
  have e' : select_sprite m ss cur = some (Function.update st.1 st.2.index
      { st.1 st.2.index with selected := true }, st.2) := by
    unfold select_sprite
    simp only [e, Option.some_bind]
    rw [h3]
    simp only [readAt_some _ _ _ hr.1 hr.2, writeAt_some _ _ _ _ hr.1 hr.2, Option.some_bind]
  rw [h3] at e'
  refine ⟨_, e', ?_, ?_⟩
  · intro k hk0 hk1
    by_cases hk : k = (scanSprite m ss cur 128).index
    · rw [← hk, Function.update_same, h1 k hk0 hk1]
      simp [hk]
    · rw [Function.update_noteq hk, h1 k hk0 hk1]
      simp [hk]
  · intro k hk
    have hne : k ≠ (scanSprite m ss cur 128).index := by omega
    rw [Function.update_noteq hne]
    exact h2 k hk

/-! ## Click processing -/

theorem paint_gate_bounds (m : MouseInput) (h : paint_gate m = true) :
    (0 ≤ canvas_pixel_x m ∧ canvas_pixel_x m < 8) ∧ (0 ≤ canvas_pixel_y m ∧ canvas_pixel_y m < 8) := by
  have := of_decide_eq_true h
  simp only [TILE_SIZE, ge_iff_le] at this
  omega

theorem scanColour_range_of_inv (palette : Palette) (s : Editor) (hinv : Inv palette s)
    (m : MouseInput) :
    0 ≤ (scanColour m s.colour_palette s.current_colour 64).colour_index ∧
      (scanColour m s.colour_palette s.current_colour 64).colour_index < 64 :=
  scanColour_index_range m _ _ 64 hinv.colour_index (fun k hk => by
    have := (hinv.buttons k (by omega) (by simp only [COLOURS]; omega)).2.1
    omega)

theorem scanSprite_range_of_inv (palette : Palette) (s : Editor) (hinv : Inv palette s)
    (m : MouseInput) :
    0 ≤ (scanSprite m s.sprite_sheet s.current_sprite 128).index ∧
      (scanSprite m s.sprite_sheet s.current_sprite 128).index < 128 :=
  scanSprite_index_range m _ _ 128 hinv.sprite_index (fun k hk => by
    have := (hinv.tiles k (by omega) (by simp only [N_TILES]; omega)).1
    omega)

/-- A frame without click changes nothing before the repaint. -/
theorem process_input_idle (m : MouseInput) (s : Editor) (h : m.click = false) :
    process_input m s = some s := by
  simp only [process_input, h, Bool.false_eq_true, if_false]

/-- The effect of click processing in a state that satisfies the invariant. -/
theorem process_input_click_spec (palette : Palette) (s : Editor) (hinv : Inv palette s)
    (m : MouseInput) (hclick : m.click = true) :
    ∃ s', process_input m s = some s' ∧
      s'.pixels = s.pixels ∧
      s'.current_colour = scanColour m s.colour_palette s.current_colour 64 ∧
      s'.current_sprite = scanSprite m s.sprite_sheet s.current_sprite 128 ∧
      (∀ k, 0 ≤ k → k < 64 → s'.colour_palette k =
        { s.colour_palette k with selected := decide (k = s'.current_colour.colour_index) }) ∧
      (∀ i, 0 ≤ i → i < 128 → s'.sprite_sheet i =
        { s.sprite_sheet i with
          selected := decide (i = s'.current_sprite.index)
          colour_data :=
            if paint_gate m = true ∧ i = s'.current_sprite.index then
              Function.update (s.sprite_sheet i).colour_data
                (canvas_pixel_x m + 8 * canvas_pixel_y m) s'.current_colour.colour_index
            else (s.sprite_sheet i).colour_data }) := by
  have hc := scanColour_range_of_inv palette s hinv m
  have ht := scanSprite_range_of_inv palette s hinv m
  obtain ⟨cp', e1, a1, _⟩ := select_colour_spec m s.colour_palette s.current_colour hc
  obtain ⟨ss', e2, a2, _⟩ := select_sprite_spec m s.sprite_sheet s.current_sprite ht
  by_cases hg : paint_gate m = true
  · obtain ⟨⟨gx0, gx1⟩, gy0, gy1⟩ := paint_gate_bounds m hg
    have e3 := draw_pixel_spec s.pixels (canvas_pixel_x m) (canvas_pixel_y m)
      (scanColour m s.colour_palette s.current_colour 64)
      (scanSprite m s.sprite_sheet s.current_sprite 128) ss' ht.1 ht.2 gx0 gx1 gy0 gy1
    refine ⟨{ s with
        colour_palette := cp'
        current_colour := scanColour m s.colour_palette s.current_colour 64
        sprite_sheet := Function.update ss' (scanSprite m s.sprite_sheet s.current_sprite 128).index
          { ss' (scanSprite m s.sprite_sheet s.current_sprite 128).index with
            colour_data := Function.update
              (ss' (scanSprite m s.sprite_sheet s.current_sprite 128).index).colour_data
              (canvas_pixel_x m + 8 * canvas_pixel_y m)
              (scanColour m s.colour_palette s.current_colour 64).colour_index }
        current_sprite := scanSprite m s.sprite_sheet s.current_sprite 128 },
      by simp only [process_input, hclick, if_true, e1, e2, Option.some_bind, hg, e3],
      rfl, rfl, rfl, a1, ?_⟩
    intro i hi0 hi1
    simp only
    by_cases hi : i = (scanSprite m s.sprite_sheet s.current_sprite 128).index
    · rw [← hi, Function.update_same, a2 i hi0 hi1]
      simp [hi, hg]
    · rw [Function.update_noteq hi, a2 i hi0 hi1]
      simp [hi]
  · refine ⟨{ s with
        colour_palette := cp'
        current_colour := scanColour m s.colour_palette s.current_colour 64
        sprite_sheet := ss'
        current_sprite := scanSprite m s.sprite_sheet s.current_sprite 128 },
      by simp only [process_input, hclick, if_true, e1, e2, Option.some_bind, hg,
        Bool.false_eq_true, if_false], rfl, rfl, rfl, a1, ?_⟩
    intro i hi0 hi1
    simp only
    rw [a2 i hi0 hi1]
    simp [hg]

/-! ## The repaint -/

/-- A loop that draws item `k` into its own box, the boxes being pairwise
disjoint: every box ends up with its item's content, the rest is untouched. -/
theorem drawLoop_spec (n : Int) (hn : 0 ≤ n) (draw : Int → Pixels → Option Pixels)
    (box : Int → Int → Int → Prop) (content : Int → Int → Int → Int) (px : Pixels)
    (hdraw : ∀ k, 0 ≤ k → k < n → ∀ p, ∃ p', draw k p = some p' ∧
      (∀ cx cy, 0 ≤ cx → cx < 640 → box k cx cy → p' (cx + cy * 640) = content k cx cy) ∧
      (∀ cx cy, 0 ≤ cx → cx < 640 → ¬ box k cx cy → p' (cx + cy * 640) = p (cx + cy * 640)))
    (hdisj : ∀ k k' cx cy, 0 ≤ k → k < n → 0 ≤ k' → k' < n → box k cx cy → box k' cx cy →
      k = k') :
    ∃ p', forLoop 0 n draw px = some p' ∧
      (∀ k, 0 ≤ k → k < n → ∀ cx cy, 0 ≤ cx → cx < 640 → box k cx cy →
        p' (cx + cy * 640) = content k cx cy) ∧
      (∀ cx cy, 0 ≤ cx → cx < 640 → (∀ k, 0 ≤ k → k < n → ¬ box k cx cy) →
        p' (cx + cy * 640) = px (cx + cy * 640)) := by
  apply forLoop_inv 0 n draw (fun m t =>
      (∀ k, 0 ≤ k → k < m → ∀ cx cy, 0 ≤ cx → cx < 640 → box k cx cy →
        t (cx + cy * 640) = content k cx cy) ∧
      (∀ cx cy, 0 ≤ cx → cx < 640 → (∀ k, 0 ≤ k → k < m → ¬ box k cx cy) →
        t (cx + cy * 640) = px (cx + cy * 640))) px hn
  · exact ⟨fun k a b => absurd b (by omega), fun cx cy _ _ _ => rfl⟩
  · intro m hm0 hm1 t ⟨hA, hB⟩
    obtain ⟨t', e, hC, hD⟩ := hdraw m hm0 hm1 t
    refine ⟨t', e, ?_, ?_⟩
    · intro k hk0 hk1 cx cy hx0 hx1 hb
      by_cases hkm : k = m
      · subst hkm; exact hC cx cy hx0 hx1 hb
      · have hnb : ¬ box m cx cy := fun hb' =>
          hkm (hdisj k m cx cy hk0 (by omega) hm0 hm1 hb hb')
        rw [hD cx cy hx0 hx1 hnb]
        exact hA k hk0 (by omega) cx cy hx0 hx1 hb
    · intro cx cy hx0 hx1 hout
      rw [hD cx cy hx0 hx1 (hout m hm0 (by omega))]
      exact hB cx cy hx0 hx1 (fun k hk0 hk1 => hout k hk0 (by omega))

theorem draw_colour_button_abs (px : Pixels) (b : ColourButton)
    (hfit : FitsScreen b.x b.y 16 16) :
    ∃ px', draw_colour_button px b = some px' ∧
      (∀ cx cy, 0 ≤ cx → cx < 640 → InBox b.x b.y 16 16 cx cy →
        px' (cx + cy * 640) = buttonPixel b cx cy) ∧
      (∀ cx cy, 0 ≤ cx → cx < 640 → ¬ InBox b.x b.y 16 16 cx cy →
        px' (cx + cy * 640) = px (cx + cy * 640)) := by
  obtain ⟨hx, hxw, hy, hyh⟩ := hfit
  obtain ⟨px', e, h2, h3⟩ := draw_colour_button_spec px b hx hxw hy hyh
  refine ⟨px', e, ?_, h3⟩
  intro cx cy _ _ hb
  unfold InBox at hb
  have := h2 (cx - b.x) (cy - b.y) (by omega) (by omega) (by omega) (by omega)
  have e' : b.x + (cx - b.x) + (b.y + (cy - b.y)) * 640 = cx + cy * 640 := by omega
  rw [e'] at this
  rw [this]
  simp [buttonPixel, OnRing]

theorem draw_sprite_abs (palette : Palette) (px : Pixels) (sp : Sprite)
    (hfit : FitsScreen sp.x sp.y 16 16) (hcd : ValidData sp.colour_data) :
    ∃ px', draw_sprite palette px sp 2 = some px' ∧
      (∀ cx cy, 0 ≤ cx → cx < 640 → InBox sp.x sp.y 16 16 cx cy →
        px' (cx + cy * 640) = tilePixel palette sp cx cy) ∧
      (∀ cx cy, 0 ≤ cx → cx < 640 → ¬ InBox sp.x sp.y 16 16 cx cy →
        px' (cx + cy * 640) = px (cx + cy * 640)) := by
  cases hsel : sp.selected
  · obtain ⟨px', e, h2, h3⟩ := draw_sprite_unselected_spec palette px sp 2 hsel hfit hcd
    refine ⟨px', e, ?_, h3⟩
    intro cx cy _ _ hb
    unfold InBox at hb
    have := h2 (cx - sp.x) (cy - sp.y) (by omega) (by omega) (by omega) (by omega)
    have e' : sp.x + (cx - sp.x) + (sp.y + (cy - sp.y)) * 640 = cx + cy * 640 := by omega
    rw [e'] at this
    rw [this]
    simp [tilePixel, hsel]
  · obtain ⟨px', e, h2, h3⟩ := draw_sprite_selected_spec palette px sp 2 hsel (by norm_num)
      hfit hcd
    refine ⟨px', e, ?_, h3⟩
    intro cx cy _ _ hb
    unfold InBox at hb
    have := h2 (cx - sp.x) (cy - sp.y) (by omega) (by omega) (by omega) (by omega)
    have e' : sp.x + (cx - sp.x) + (sp.y + (cy - sp.y)) * 640 = cx + cy * 640 := by omega
    rw [e'] at this
    rw [this]
    simp [tilePixel, hsel]

theorem draw_canvas_abs (palette : Palette) (px : Pixels) (cur : Sprite) (sheet : Int → Sprite)
    (h0 : 0 ≤ cur.index) (h1 : cur.index < 128)
    (hcd : ValidData (sheet cur.index).colour_data) :
    ∃ px', draw_canvas palette px cur sheet = some px' ∧
      (∀ cx cy, 0 ≤ cx → cx < 640 → InBox 224 84 192 192 cx cy →
        px' (cx + cy * 640) = canvasPixel palette (sheet cur.index).colour_data cx cy) ∧
      (∀ cx cy, 0 ≤ cx → cx < 640 → ¬ InBox 224 84 192 192 cx cy →
        px' (cx + cy * 640) = px (cx + cy * 640)) := by
  obtain ⟨px', e, h2, h3⟩ := draw_canvas_spec palette px cur sheet h0 h1 hcd
  refine ⟨px', e, ?_, h3⟩
  intro cx cy _ _ hb
  unfold InBox at hb
  have := h2 (cx - 224) (cy - 84) (by omega) (by omega) (by omega) (by omega)
  have e' : (224 : Int) + (cx - 224) + (84 + (cy - 84)) * 640 = cx + cy * 640 := by omega
  rw [e'] at this
  rw [this]
  rfl

theorem button_box (palette : Palette) (cp : Int → ColourButton) (h : ButtonLayout palette cp)
    (k : Int) (hk0 : 0 ≤ k) (hk1 : k < 64) (cx cy : Int) :
    InBox (cp k).x (cp k).y 16 16 cx cy ↔
      (512 + 16 * (k / 16) ≤ cx ∧ cx < 512 + 16 * (k / 16) + 16 ∧
        64 + 16 * (k % 16) ≤ cy ∧ cy < 64 + 16 * (k % 16) + 16) := by
  obtain ⟨_, _, ex, ey⟩ := h k hk0 hk1
  unfold InBox
  rw [ex, ey]

theorem tile_box (ss : Int → Sprite) (h : SheetLayout ss) (i : Int) (hi0 : 0 ≤ i)
    (hi1 : i < 128) (cx cy : Int) :
    InBox (ss i).x (ss i).y 16 16 cx cy ↔
      (50 + 16 * (i % 8) ≤ cx ∧ cx < 50 + 16 * (i % 8) + 16 ∧
        50 + 16 * (i / 8) ≤ cy ∧ cy < 50 + 16 * (i / 8) + 16) := by
  obtain ⟨_, ex, ey⟩ := h i hi0 hi1
  unfold InBox
  rw [ex, ey]

theorem button_fits (palette : Palette) (cp : Int → ColourButton) (h : ButtonLayout palette cp)
    (k : Int) (hk0 : 0 ≤ k) (hk1 : k < 64) : FitsScreen (cp k).x (cp k).y 16 16 := by
  obtain ⟨_, _, ex, ey⟩ := h k hk0 hk1
  unfold FitsScreen
  rw [ex, ey]
  simp only [SCREEN_WIDTH, SCREEN_HEIGHT]
  omega

theorem tile_fits (ss : Int → Sprite) (h : SheetLayout ss) (i : Int) (hi0 : 0 ≤ i)
    (hi1 : i < 128) : FitsScreen (ss i).x (ss i).y 16 16 := by
  obtain ⟨_, ex, ey⟩ := h i hi0 hi1
  unfold FitsScreen
  rw [ex, ey]
  simp only [SCREEN_WIDTH, SCREEN_HEIGHT]
  omega

/-- The full repaint in a state that satisfies the invariant: it succeeds,
changes only the pixel buffer, and leaves every button box, the canvas area
and every thumbnail with the content of its element; all other pixels keep
their value. -/
theorem render_spec (palette : Palette) (s : Editor) (hinv : Inv palette s) :
    ∃ px', render palette s = some { s with pixels := px' } ∧
      (∀ k, 0 ≤ k → k < 64 → ∀ cx cy,
        InBox (s.colour_palette k).x (s.colour_palette k).y 16 16 cx cy →
        px' (cx + cy * 640) = buttonPixel (s.colour_palette k) cx cy) ∧
      (∀ cx cy, InBox 224 84 192 192 cx cy →
        px' (cx + cy * 640) =
          canvasPixel palette (s.sprite_sheet s.current_sprite.index).colour_data cx cy) ∧
      (∀ i, 0 ≤ i → i < 128 → ∀ cx cy,
        InBox (s.sprite_sheet i).x (s.sprite_sheet i).y 16 16 cx cy →
        px' (cx + cy * 640) = tilePixel palette (s.sprite_sheet i) cx cy) ∧
      (∀ cx cy, 0 ≤ cx → cx < 640 →
        (∀ k, 0 ≤ k → k < 64 →
          ¬ InBox (s.colour_palette k).x (s.colour_palette k).y 16 16 cx cy) →
        ¬ InBox 224 84 192 192 cx cy →
        (∀ i, 0 ≤ i → i < 128 →
          ¬ InBox (s.sprite_sheet i).x (s.sprite_sheet i).y 16 16 cx cy) →
        px' (cx + cy * 640) = s.pixels (cx + cy * 640)) := by
  have hB := hinv.buttons
  have hT := hinv.tiles
  obtain ⟨p1, e1, a1, b1⟩ := drawLoop_spec COLOURS (by norm_num)
    (fun i px => (readAt COLOURS s.colour_palette i).bind fun button =>
      draw_colour_button px button)
    (fun k cx cy => InBox (s.colour_palette k).x (s.colour_palette k).y 16 16 cx cy)
    (fun k cx cy => buttonPixel (s.colour_palette k) cx cy) s.pixels
    (fun k hk0 hk1 p => by
      simp only [readAt_some _ _ _ hk0 hk1, Option.some_bind]
      exact draw_colour_button_abs p _ (button_fits palette _ hB k hk0 hk1))
    (fun k k' cx cy hk0 hk1 hk0' hk1' hb hb' => by
      have c := (button_box palette _ hB k hk0 hk1 cx cy).mp hb
      have c' := (button_box palette _ hB k' hk0' hk1' cx cy).mp hb'
      simp only [COLOURS] at hk1 hk1'
      omega)
  obtain ⟨p2, e2, a2, b2⟩ := draw_canvas_abs palette p1 s.current_sprite s.sprite_sheet
    hinv.sprite_index.1 hinv.sprite_index.2
    (hinv.data _ hinv.sprite_index.1 hinv.sprite_index.2)
  obtain ⟨p3, e3, a3, b3⟩ := drawLoop_spec N_TILES (by norm_num)
    (fun i px => (readAt N_TILES s.sprite_sheet i).bind fun tile => draw_sprite palette px tile 2)
    (fun i cx cy => InBox (s.sprite_sheet i).x (s.sprite_sheet i).y 16 16 cx cy)
    (fun i cx cy => tilePixel palette (s.sprite_sheet i) cx cy) p2
    (fun i hi0 hi1 p => by
      simp only [readAt_some _ _ _ hi0 hi1, Option.some_bind]
      exact draw_sprite_abs palette p _ (tile_fits _ hT i hi0 hi1) (hinv.data i hi0 hi1))
    (fun i i' cx cy hi0 hi1 hi0' hi1' hb hb' => by
      have c := (tile_box _ hT i hi0 hi1 cx cy).mp hb
      have c' := (tile_box _ hT i' hi0' hi1' cx cy).mp hb'
      simp only [N_TILES] at hi1 hi1'
      omega)
  have er : render palette s = some { s with pixels := p3 } := by
    unfold render draw_sprite_sheet
    simp only [e1, e2, e3, Option.some_bind]
  refine ⟨p3, er, ?_, ?_, ?_, ?_⟩
  · intro k hk0 hk1 cx cy hb
    have hb' := (button_box palette _ hB k hk0 hk1 cx cy).mp hb
    have hx0 : 0 ≤ cx := by omega
    have hx1 : cx < 640 := by omega
    rw [b3 cx cy hx0 hx1 (fun i hi0 hi1 hh => by
      rw [tile_box _ hT i hi0 hi1] at hh; omega)]
    rw [b2 cx cy hx0 hx1 (by unfold InBox; omega)]
    exact a1 k hk0 hk1 cx cy hx0 hx1 hb
  · intro cx cy hb
    have hb' := hb
    unfold InBox at hb'
    have hx0 : 0 ≤ cx := by omega
    have hx1 : cx < 640 := by omega
    rw [b3 cx cy hx0 hx1 (fun i hi0 hi1 hh => by
      rw [tile_box _ hT i hi0 hi1] at hh; omega)]
    exact a2 cx cy hx0 hx1 hb
  · intro i hi0 hi1 cx cy hb
    have hb' := (tile_box _ hT i hi0 hi1 cx cy).mp hb
    have hx0 : 0 ≤ cx := by omega
    have hx1 : cx < 640 := by omega
    exact a3 i hi0 hi1 cx cy hx0 hx1 hb
  · intro cx cy hx0 hx1 hb hc ht
    rw [b3 cx cy hx0 hx1 ht, b2 cx cy hx0 hx1 hc]
    exact b1 cx cy hx0 hx1 hb

/-! ## The invariant -/

theorem validData_update (cd : Int → Int) (i c : Int) (h : ValidData cd) (hc0 : 0 ≤ c)
    (hc1 : c < 64) : ValidData (Function.update cd i c) := by
  intro k hk0 hk1
  by_cases hki : k = i
  · subst hki; rw [Function.update_same]; exact ⟨hc0, hc1⟩
  · rw [Function.update_noteq hki]; exact h k hk0 hk1

theorem inv_init (palette : Palette) (px0 : Pixels) (cp0 : Int → ColourButton)
    (ss0 : Int → Sprite) (s : Editor) (h : init palette px0 cp0 ss0 = some s) :
    Inv palette s := by
  obtain ⟨s0, e, hb, hc, ht, hi⟩ := init_spec palette px0 cp0 ss0
  rw [e] at h
  cases h
  refine ⟨?_, ?_, ?_, ?_, ?_, ?_, ?_⟩
  · intro k hk0 hk1
    rw [hb k hk0 hk1]
    exact ⟨rfl, rfl, rfl, rfl⟩
  · rw [hc]; decide
  · intro i hi0 hi1
    obtain ⟨a, _, c, d, _⟩ := ht i hi0 hi1
    exact ⟨a, c, d⟩
  · intro i hi0 hi1 k hk0 hk1
    rw [(ht i hi0 hi1).2.2.2.2 k hk0 hk1]
    decide
  · rw [hi]; decide
  · intro k hk0 hk1 hsel
    rw [hb k hk0 hk1] at hsel
    exact absurd hsel (by simp [startButton])
  · intro i hi0 hi1 hsel
    rw [(ht i hi0 hi1).2.1] at hsel
    exact absurd hsel (by simp)

theorem inv_process_input (palette : Palette) (s s' : Editor) (hinv : Inv palette s)
    (m : MouseInput) (h : process_input m s = some s') : Inv palette s' := by
  cases hclick : m.click
  · rw [process_input_idle m s hclick] at h
    cases h
    exact hinv
  · obtain ⟨s1, e, _, hc, ht, hb, hs⟩ := process_input_click_spec palette s hinv m hclick
    rw [e] at h
    cases h
    have rc := scanColour_range_of_inv palette s hinv m
    have rt := scanSprite_range_of_inv palette s hinv m
    refine ⟨?_, ?_, ?_, ?_, ?_, ?_, ?_⟩
    · intro k hk0 hk1
      rw [hb k hk0 hk1]
      exact hinv.buttons k hk0 hk1
    · rw [hc]; exact rc
    · intro i hi0 hi1
      rw [hs i hi0 hi1]
      exact hinv.tiles i hi0 hi1
    · intro i hi0 hi1
      rw [hs i hi0 hi1]
      simp only
      split_ifs
      · exact validData_update _ _ _ (hinv.data i hi0 hi1) (by rw [hc]; exact rc.1)
          (by rw [hc]; exact rc.2)
      · exact hinv.data i hi0 hi1
    · rw [ht]; exact rt
    · intro k hk0 hk1 hsel
      rw [hb k hk0 hk1] at hsel
      exact of_decide_eq_true hsel
    · intro i hi0 hi1 hsel
      rw [hs i hi0 hi1] at hsel
      exact of_decide_eq_true hsel

theorem inv_pixels (palette : Palette) (s : Editor) (px : Pixels) (hinv : Inv palette s) :
    Inv palette { s with pixels := px } :=
  ⟨hinv.buttons, hinv.colour_index, hinv.tiles, hinv.data, hinv.sprite_index, hinv.one_button,
    hinv.one_tile⟩

theorem process_input_some (palette : Palette) (s : Editor) (hinv : Inv palette s)
    (m : MouseInput) : ∃ s1, process_input m s = some s1 := by
  cases hclick : m.click
  · exact ⟨s, process_input_idle m s hclick⟩
  · obtain ⟨s1, e, _⟩ := process_input_click_spec palette s hinv m hclick
    exact ⟨s1, e⟩

/-- A frame step from a state that satisfies the invariant succeeds: it is
click processing followed by a repaint that only replaces the pixel buffer. -/
theorem frame_spec (palette : Palette) (s : Editor) (hinv : Inv palette s) (m : MouseInput) :
    ∃ s1 px', process_input m s = some s1 ∧ render palette s1 = some { s1 with pixels := px' } ∧
      frame palette m s = some { s1 with pixels := px' } ∧ Inv palette s1 := by
  obtain ⟨s1, e1⟩ := process_input_some palette s hinv m
  have h1 := inv_process_input palette s s1 hinv m e1
  obtain ⟨px', e2, _⟩ := render_spec palette s1 h1
  refine ⟨s1, px', e1, e2, ?_, h1⟩
  unfold frame
  rw [e1, Option.some_bind, e2]

theorem inv_frame (palette : Palette) (s t : Editor) (hinv : Inv palette s) (m : MouseInput)
    (h : frame palette m s = some t) : Inv palette t := by
  obtain ⟨s1, px', _, _, e, h1⟩ := frame_spec palette s hinv m
  rw [e] at h
  cases h
  exact inv_pixels palette s1 px' h1

theorem inv_reachable (palette : Palette) (s : Editor) (h : Reachable palette s) :
    Inv palette s := by
  induction h with
  | start px0 cp0 ss0 s h => exact inv_init palette px0 cp0 ss0 s h
  | step m s t _ h ih => exact inv_frame palette s t ih m h

/-! ## Hit tests on the start-up layout -/

theorem tdiv24 (a : Int) : a.tdiv 24 = if 0 ≤ a then a / 24 else -((-a) / 24) := by
  split_ifs with h
  · exact Int.tdiv_eq_ediv h (by norm_num)
  · have e : a = -(-a) := by omega
    rw [e, Int.neg_tdiv, Int.tdiv_eq_ediv (by omega) (by norm_num)]
    simp

theorem button_hit_iff (palette : Palette) (cp : Int → ColourButton)
    (h : ButtonLayout palette cp) (m : MouseInput) (hx : 0 ≤ m.x ∧ m.x < 640)
    (hy : 0 ≤ m.y ∧ m.y < 360) (k : Int) (hk0 : 0 ≤ k) (hk1 : k < 64) :
    colour_hit (cp k) m ↔ InBox (512 + 16 * (k / 16)) (64 + 16 * (k % 16)) 16 16 m.x m.y := by
  obtain ⟨_, _, ex, ey⟩ := h k hk0 hk1
  unfold colour_hit InBox wrap32
  rw [ex, ey]
  simp only [BUTTON_SIZE]
  omega

theorem tile_hit_iff (ss : Int → Sprite) (h : SheetLayout ss) (m : MouseInput)
    (i : Int) (hi0 : 0 ≤ i) (hi1 : i < 128) :
    sprite_hit (ss i) m ↔ InBox (50 + 16 * (i % 8)) (50 + 16 * (i / 8)) 16 16 m.x m.y := by
  obtain ⟨_, ex, ey⟩ := h i hi0 hi1
  unfold sprite_hit InBox wrap32
  rw [ex, ey]
  simp only [TILE_SIZE]
  omega

/-- A click inside button `c` makes it the current colour. -/
theorem scanColour_in_button (palette : Palette) (cp : Int → ColourButton)
    (h : ButtonLayout palette cp) (cur : ColourButton) (m : MouseInput) (c : Int)
    (hc0 : 0 ≤ c) (hc1 : c < 64)
    (hb : InBox (512 + 16 * (c / 16)) (64 + 16 * (c % 16)) 16 16 m.x m.y) :
    scanColour m cp cur 64 = { cur with colour := palette c, colour_index := c } := by
  have hb' := hb
  unfold InBox at hb'
  have hx : 0 ≤ m.x ∧ m.x < 640 := by omega
  have hy : 0 ≤ m.y ∧ m.y < 360 := by omega
  have ec : ((c.toNat : Nat) : Int) = c := by omega
  have := scanColour_hit m cp cur 64 c.toNat (by omega)
    (by rw [ec]; exact (button_hit_iff palette cp h m hx hy c hc0 hc1).mpr hb)
    (fun j hj hh => by
      have q := (button_hit_iff palette cp h m hx hy j (by omega) (by omega)).mp hh
      unfold InBox at q
      omega)
  rw [this, ec, (h c hc0 hc1).1, (h c hc0 hc1).2.1]

/-- A click on the screen that is in no button leaves the current colour. -/
theorem scanColour_off_buttons (palette : Palette) (cp : Int → ColourButton)
    (h : ButtonLayout palette cp) (cur : ColourButton) (m : MouseInput)
    (hx : 0 ≤ m.x ∧ m.x < 512) (hy : 0 ≤ m.y ∧ m.y < 360) :
    scanColour m cp cur 64 = cur :=
  scanColour_miss m cp cur 64 (fun j hj hh => by
    have q := (button_hit_iff palette cp h m (by omega) hy j (by omega) (by omega)).mp hh
    unfold InBox at q
    omega)

/-- A click inside the thumbnail of tile `t` makes it the current tile. -/
theorem scanSprite_in_tile (ss : Int → Sprite) (h : SheetLayout ss) (cur : Sprite)
    (m : MouseInput) (t : Int) (ht0 : 0 ≤ t) (ht1 : t < 128)
    (hb : InBox (50 + 16 * (t % 8)) (50 + 16 * (t / 8)) 16 16 m.x m.y) :
    scanSprite m ss cur 128 = { cur with index := t } := by
  have hb' := hb
  unfold InBox at hb'
  have et : ((t.toNat : Nat) : Int) = t := by omega
  have := scanSprite_hit m ss cur 128 t.toNat (by omega)
    (by rw [et]; exact (tile_hit_iff ss h m t ht0 ht1).mpr hb)
    (fun j hj hh => by
      have q := (tile_hit_iff ss h m j (by omega) (by omega)).mp hh
      unfold InBox at q
      omega)
  rw [this, et, (h t ht0 ht1).1]

/-- A click to the right of the thumbnails leaves the current tile. -/
theorem scanSprite_off_tiles (ss : Int → Sprite) (h : SheetLayout ss) (cur : Sprite)
    (m : MouseInput) (hx : 178 ≤ m.x) : scanSprite m ss cur 128 = cur :=
  scanSprite_miss m ss cur 128 (fun j hj hh => by
    have q := (tile_hit_iff ss h m j (by omega) (by omega)).mp hh
    unfold InBox at q
    omega)

theorem canvas_pixel_x_eq (m : MouseInput) (hx : 0 ≤ m.x ∧ m.x < 640) :
    canvas_pixel_x m = (m.x - 224).tdiv 24 := by
  unfold canvas_pixel_x
  rw [canvas_corner_x]
  have e : wrap32 (m.x - 224) = m.x - 224 := by unfold wrap32; omega
  rw [e]

theorem canvas_pixel_y_eq (m : MouseInput) (hy : 0 ≤ m.y ∧ m.y < 360) :
    canvas_pixel_y m = (m.y - 84).tdiv 24 := by
  unfold canvas_pixel_y
  rw [canvas_corner_y]
  have e : wrap32 (m.y - 84) = m.y - 84 := by unfold wrap32; omega
  rw [e]

/-- On the screen the gate of `draw_pixel` is open exactly for
201 ≤ x ≤ 415 and 61 ≤ y ≤ 275: truncation maps the 23 pixels to the left of
and above the canvas to column 0 and row 0. -/
theorem paint_gate_iff (m : MouseInput) (hx : 0 ≤ m.x ∧ m.x < 640)
    (hy : 0 ≤ m.y ∧ m.y < 360) :
    paint_gate m = true ↔ (201 ≤ m.x ∧ m.x < 416 ∧ 61 ≤ m.y ∧ m.y < 276) := by
  unfold paint_gate
  rw [decide_eq_true_iff, canvas_pixel_x_eq m hx, canvas_pixel_y_eq m hy, tdiv24, tdiv24]
  simp only [TILE_SIZE, ge_iff_le]
  split_ifs <;> omega

/-! ## Frames -/

/-- A frame step with the mouse held, from a state that satisfies the
invariant: the step succeeds and the new state is described field by field. -/
theorem frame_click_spec (palette : Palette) (s : Editor) (hinv : Inv palette s)
    (m : MouseInput) (hclick : m.click = true) :
    ∃ t, frame palette m s = some t ∧ Inv palette t ∧
      t.current_colour = scanColour m s.colour_palette s.current_colour 64 ∧
      t.current_sprite = scanSprite m s.sprite_sheet s.current_sprite 128 ∧
      (∀ k, 0 ≤ k → k < 64 → t.colour_palette k =
        { s.colour_palette k with selected := decide (k = t.current_colour.colour_index) }) ∧
      (∀ i, 0 ≤ i → i < 128 → t.sprite_sheet i =
        { s.sprite_sheet i with
          selected := decide (i = t.current_sprite.index)
          colour_data :=
            if paint_gate m = true ∧ i = t.current_sprite.index then
              Function.update (s.sprite_sheet i).colour_data
                (canvas_pixel_x m + 8 * canvas_pixel_y m) t.current_colour.colour_index
            else (s.sprite_sheet i).colour_data }) ∧
      (∀ cx cy, InBox 224 84 192 192 cx cy →
        t.pixels (cx + cy * 640) =
          canvasPixel palette (t.sprite_sheet t.current_sprite.index).colour_data cx cy) ∧
      (∀ i, 0 ≤ i → i < 128 → ∀ cx cy,
        InBox (t.sprite_sheet i).x (t.sprite_sheet i).y 16 16 cx cy →
        t.pixels (cx + cy * 640) = tilePixel palette (t.sprite_sheet i) cx cy) := by
  obtain ⟨s1, e1, _, hc, ht, hb, hs⟩ := process_input_click_spec palette s hinv m hclick
  have h1 := inv_process_input palette s s1 hinv m e1
  obtain ⟨px', e2, _, r2, r3, _⟩ := render_spec palette s1 h1
  refine ⟨{ s1 with pixels := px' }, ?_, inv_pixels palette s1 px' h1, hc, ht, hb, hs, r2, r3⟩
  unfold frame
  rw [e1, Option.some_bind, e2]

/-- A frame with the mouse held on the screen and the paint gate closed keeps
every tile's `colour_data`. -/
theorem frame_data_kept (s t : Editor) (m : MouseInput)
    (hg : ¬ paint_gate m = true)
    (hs : ∀ i, 0 ≤ i → i < 128 → t.sprite_sheet i =
        { s.sprite_sheet i with
          selected := decide (i = t.current_sprite.index)
          colour_data :=
            if paint_gate m = true ∧ i = t.current_sprite.index then
              Function.update (s.sprite_sheet i).colour_data
                (canvas_pixel_x m + 8 * canvas_pixel_y m) t.current_colour.colour_index
            else (s.sprite_sheet i).colour_data })
    (i : Int) (hi0 : 0 ≤ i) (hi1 : i < 128) :
    (t.sprite_sheet i).colour_data = (s.sprite_sheet i).colour_data := by
  rw [hs i hi0 hi1]
  simp [hg]

/-- The editing scenario: from the initial state, a click in the thumbnail of
tile `t`, a click in button `c` and a click in the canvas block of cell
`(x, y)`.  All three frames succeed; afterwards tile `t` is the current and
only selected tile, its cell `(x, y)` holds `c`, every other entry of the
sheet is 0, and the canvas area and the thumbnails show the sheet. -/
theorem scenario_spec (palette : Palette) (px0 : Pixels) (cp0 : Int → ColourButton)
    (ss0 : Int → Sprite) (t c x y : Int) (m1 m2 m3 : MouseInput)
    (ht : 0 ≤ t ∧ t < 128) (hc : 0 ≤ c ∧ c < 64) (hx : 0 ≤ x ∧ x < 8) (hy : 0 ≤ y ∧ y < 8)
    (h1c : m1.click = true) (h1 : InBox (50 + 16 * (t % 8)) (50 + 16 * (t / 8)) 16 16 m1.x m1.y)
    (h2c : m2.click = true)
    (h2 : InBox (512 + 16 * (c / 16)) (64 + 16 * (c % 16)) 16 16 m2.x m2.y)
    (h3c : m3.click = true) (h3 : InBox (224 + 24 * x) (84 + 24 * y) 24 24 m3.x m3.y) :
    ∃ s0 s1 s2 s3, init palette px0 cp0 ss0 = some s0 ∧ frame palette m1 s0 = some s1 ∧
      frame palette m2 s1 = some s2 ∧ frame palette m3 s2 = some s3 ∧
      (∀ i, 0 ≤ i → i < 128 →
        (s3.sprite_sheet i).x = 50 + 16 * (i % 8) ∧ (s3.sprite_sheet i).y = 50 + 16 * (i / 8) ∧
        (s3.sprite_sheet i).selected = decide (i = t) ∧
        ∀ k, 0 ≤ k → k < 64 →
          (s3.sprite_sheet i).colour_data k = if i = t ∧ k = x + 8 * y then c else 0) ∧
      (∀ cx cy, InBox 224 84 192 192 cx cy →
        s3.pixels (cx + cy * 640) = canvasPixel palette (s3.sprite_sheet t).colour_data cx cy) ∧
      (∀ i, 0 ≤ i → i < 128 → ∀ cx cy,
        InBox (50 + 16 * (i % 8)) (50 + 16 * (i / 8)) 16 16 cx cy →
        s3.pixels (cx + cy * 640) = tilePixel palette (s3.sprite_sheet i) cx cy) := by
  unfold InBox at h1 h2 h3
  obtain ⟨s0, e0, _, _, hd0, hi0⟩ := init_spec palette px0 cp0 ss0
  have inv0 := inv_init palette _ _ _ s0 e0
  obtain ⟨s1, e1, inv1, c1, t1, _, d1, _⟩ := frame_click_spec palette s0 inv0 m1 h1c
  obtain ⟨s2, e2, inv2, c2, t2, _, d2, _⟩ := frame_click_spec palette s1 inv1 m2 h2c
  obtain ⟨s3, e3, inv3, c3, t3, _, d3, r3, q3⟩ := frame_click_spec palette s2 inv2 m3 h3c
  have g1 : ¬ paint_gate m1 = true := by
    rw [paint_gate_iff m1 (by omega) (by omega)]; omega
  have g2 : ¬ paint_gate m2 = true := by
    rw [paint_gate_iff m2 (by omega) (by omega)]; omega
  have g3 : paint_gate m3 = true := by
    rw [paint_gate_iff m3 (by omega) (by omega)]; omega
  have px3 : canvas_pixel_x m3 = x := by
    rw [canvas_pixel_x_eq m3 (by omega), tdiv24, if_pos (by omega)]; omega
  have py3 : canvas_pixel_y m3 = y := by
    rw [canvas_pixel_y_eq m3 (by omega), tdiv24, if_pos (by omega)]; omega
  rw [scanSprite_in_tile _ inv0.tiles _ _ t ht.1 ht.2 (by unfold InBox; omega)] at t1
  rw [scanColour_in_button palette _ inv1.buttons _ _ c hc.1 hc.2 (by unfold InBox; omega)] at c2
  rw [scanSprite_off_tiles _ inv1.tiles _ _ (by omega)] at t2
  rw [scanColour_off_buttons palette _ inv2.buttons _ _ (by omega) (by omega)] at c3
  rw [scanSprite_off_tiles _ inv2.tiles _ _ (by omega)] at t3
  have i3 : s3.current_sprite.index = t := by rw [t3, t2, t1]
  have k3 : s3.current_colour.colour_index = c := by rw [c3, c2]
  have data2 : ∀ i, 0 ≤ i → i < 128 → ∀ k, 0 ≤ k → k < 64 →
      (s2.sprite_sheet i).colour_data k = 0 := by
    intro i hi0' hi1' k hk0 hk1
    rw [frame_data_kept s1 s2 m2 g2 d2 i hi0' hi1',
      frame_data_kept s0 s1 m1 g1 d1 i hi0' hi1']
    exact (hd0 i hi0' hi1').2.2.2.2 k hk0 hk1
  have sheet3 : ∀ i, 0 ≤ i → i < 128 →
      (s3.sprite_sheet i).x = 50 + 16 * (i % 8) ∧ (s3.sprite_sheet i).y = 50 + 16 * (i / 8) ∧
      (s3.sprite_sheet i).selected = decide (i = t) ∧
      ∀ k, 0 ≤ k → k < 64 →
        (s3.sprite_sheet i).colour_data k = if i = t ∧ k = x + 8 * y then c else 0 := by
    intro i hi0' hi1'
    obtain ⟨_, ex, ey⟩ := inv3.tiles i hi0' hi1'
    refine ⟨ex, ey, ?_, ?_⟩
    · rw [d3 i hi0' hi1', i3]
    · intro k hk0 hk1
      rw [d3 i hi0' hi1']
      simp only [g3, i3, k3, px3, py3, true_and]
      by_cases hit : i = t
      · simp only [hit, if_true, true_and]
        by_cases hk : k = x + 8 * y
        · rw [hk, Function.update_same, if_pos rfl]
        · rw [Function.update_noteq hk, if_neg hk]
          exact data2 t ht.1 ht.2 k hk0 hk1
      · simp only [hit, if_false, false_and]
        exact data2 i hi0' hi1' k hk0 hk1
  refine ⟨s0, s1, s2, s3, e0, e1, e2, e3, sheet3, ?_, ?_⟩
  · intro cx cy hb
    rw [r3 cx cy hb, i3]
  · intro i hi0' hi1' cx cy hb
    apply q3 i hi0' hi1' cx cy
    rw [(sheet3 i hi0' hi1').1, (sheet3 i hi0' hi1').2.1]
    exact hb

theorem selectedTile_valid : ValidData selectedTile.colour_data := by
  intro k _ _
  simp only [selectedTile, COLOURS]
  omega

/-! ## The scans on their own -/

theorem select_colour_eq_scan (m : MouseInput) (cp : Int → ColourButton) (cur : ColourButton) :
    select_colour m cp cur = (scan_colours m cp cur).bind fun st =>
      (readAt COLOURS st.1 st.2.colour_index).bind fun button =>
      (writeAt COLOURS st.1 st.2.colour_index { button with selected := true }).bind fun cp =>
      some (cp, st.2) := rfl

theorem select_sprite_eq_scan (m : MouseInput) (ss : Int → Sprite) (cur : Sprite) :
    select_sprite m ss cur = (scan_sprites m ss cur).bind fun st =>
      (readAt N_TILES st.1 st.2.index).bind fun sprite =>
      (writeAt N_TILES st.1 st.2.index { sprite with selected := true }).bind fun ss =>
      some (ss, st.2) := rfl

theorem scan_colours_spec (m : MouseInput) (cp : Int → ColourButton) (cur : ColourButton) :
    ∃ cp', scan_colours m cp cur = some (cp', scanColour m cp cur 64) ∧
      (∀ k, 0 ≤ k → k < 64 → cp' k = { cp k with selected := false }) ∧
      (∀ k, ¬ (0 ≤ k ∧ k < 64) → cp' k = cp k) := by
  obtain ⟨st, e, h1, h2, h3⟩ := colour_scan_spec m cp cur
  refine ⟨st.1, ?_, h1, h2⟩
  rw [← h3]
  exact e

theorem scan_sprites_spec (m : MouseInput) (ss : Int → Sprite) (cur : Sprite) :
    ∃ ss', scan_sprites m ss cur = some (ss', scanSprite m ss cur 128) ∧
      (∀ k, 0 ≤ k → k < 128 → ss' k = { ss k with selected := false }) ∧
      (∀ k, ¬ (0 ≤ k ∧ k < 128) → ss' k = ss k) := by
  obtain ⟨st, e, h1, h2, h3⟩ := sprite_scan_spec m ss cur
  refine ⟨st.1, ?_, h1, h2⟩
  rw [← h3]
  exact e

/-- The last button that passes the test decides the current colour. -/
theorem scanColour_last_hit (m : MouseInput) (cp : Int → ColourButton) (cur : ColourButton)
    (n k : Nat) (hk : k < n) (hit : colour_hit (cp k) m)
    (hlast : ∀ j : Nat, k < j → j < n → ¬ colour_hit (cp j) m) :
    (scanColour m cp cur n).colour = (cp k).colour ∧
      (scanColour m cp cur n).colour_index = (cp k).colour_index := by
  induction n with
  | zero => exact absurd hk (Nat.not_lt_zero k)
  | succ n ih =>
    simp only [scanColour]
    by_cases hkn : k = n
    · subst hkn
      rw [colour_select_hit _ _ _ hit]
      exact ⟨rfl, rfl⟩
    · rw [colour_select_miss _ _ _ (hlast n (by omega) (Nat.lt_succ_self n))]
      exact ih (by omega) (fun j hj1 hj2 => hlast j hj1 (Nat.lt_succ_of_lt hj2))

/-- The last tile that passes the test decides the current tile. -/
theorem scanSprite_last_hit (m : MouseInput) (ss : Int → Sprite) (cur : Sprite)
    (n k : Nat) (hk : k < n) (hit : sprite_hit (ss k) m)
    (hlast : ∀ j : Nat, k < j → j < n → ¬ sprite_hit (ss j) m) :
    (scanSprite m ss cur n).index = (ss k).index := by
  induction n with
  | zero => exact absurd hk (Nat.not_lt_zero k)
  | succ n ih =>
    simp only [scanSprite]
    by_cases hkn : k = n
    · subst hkn
      rw [sprite_select_hit _ _ _ hit]
    · rw [sprite_select_miss _ _ _ (hlast n (by omega) (Nat.lt_succ_self n))]
      exact ih (by omega) (fun j hj1 hj2 => hlast j hj1 (Nat.lt_succ_of_lt hj2))

/-- For operands that fit a C `int` and a box whose right and bottom edges
are representable, the test of `colour_select` is containment in the box. -/
theorem colour_hit_iff_inBox (b : ColourButton) (m : MouseInput)
    (hmx : IsInt32 m.x) (hmy : IsInt32 m.y) (hx : IsInt32 b.x) (hx' : IsInt32 (b.x + 16))
    (hy : IsInt32 b.y) (hy' : IsInt32 (b.y + 16)) :
    colour_hit b m ↔ InBox b.x b.y 16 16 m.x m.y := by
  unfold IsInt32 at *
  unfold colour_hit InBox wrap32
  simp only [BUTTON_SIZE]
  omega

/-- Likewise for the test of `sprite_select`. -/
theorem sprite_hit_iff_inBox (sp : Sprite) (m : MouseInput)
    (hx : IsInt32 sp.x) (hx' : IsInt32 (sp.x + 16))
    (hy : IsInt32 sp.y) (hy' : IsInt32 (sp.y + 16)) :
    sprite_hit sp m ↔ InBox sp.x sp.y 16 16 m.x m.y := by
  unfold IsInt32 at *
  unfold sprite_hit InBox wrap32
  simp only [TILE_SIZE]
  omega

theorem layout_of_start (palette : Palette) (cp0 start cp : Int → ColourButton)
    (hstart : init_colour_palette palette cp0 = some start)
    (hsame : ∀ j, 0 ≤ j → j < 64 → cp j = { start j with selected := (cp j).selected }) :
    ButtonLayout palette cp := by
  obtain ⟨b, eb, hb⟩ := init_colour_palette_spec palette cp0
  rw [eb] at hstart
  cases hstart
  intro j hj0 hj1
  rw [hsame j hj0 hj1, hb j hj0 hj1]
  exact ⟨rfl, rfl, rfl, rfl⟩

/-- On the start-up layout, a mouse position that fits a C `int` and lies in
no button's box passes the test of no button. -/
theorem no_button_hit (palette : Palette) (cp : Int → ColourButton)
    (h : ButtonLayout palette cp) (m : MouseInput) (hmx : IsInt32 m.x) (hmy : IsInt32 m.y)
    (hout : ∀ k, 0 ≤ k → k < 64 →
      ¬ InBox (512 + 16 * (k / 16)) (64 + 16 * (k % 16)) 16 16 m.x m.y)
    (k : Int) (hk0 : 0 ≤ k) (hk1 : k < 64) : ¬ colour_hit (cp k) m := by
  obtain ⟨_, _, ex, ey⟩ := h k hk0 hk1
  intro hh
  apply hout k hk0 hk1
  have := (colour_hit_iff_inBox (cp k) m hmx hmy
    (by rw [ex]; unfold IsInt32; omega) (by rw [ex]; unfold IsInt32; omega)
    (by rw [ey]; unfold IsInt32; omega) (by rw [ey]; unfold IsInt32; omega)).mp hh
  rw [ex, ey] at this
  exact this

/-! ## The sprite sheet -/

/-- The thumbnails of a sheet whose tiles stand at the start-up positions:
`draw_sprite_sheet` succeeds, every thumbnail box shows its tile, and nothing
else is written. -/
theorem draw_sprite_sheet_spec (palette : Palette) (px : Pixels) (x y : Int)
    (ss : Int → Sprite)
    (hpos : ∀ i, 0 ≤ i → i < 128 →
      (ss i).x = 50 + 16 * (i % 8) ∧ (ss i).y = 50 + 16 * (i / 8))
    (hcd : ∀ i, 0 ≤ i → i < 128 → ValidData (ss i).colour_data) :
    ∃ px', draw_sprite_sheet palette px x y ss = some px' ∧
      (∀ i, 0 ≤ i → i < 128 → ∀ cx cy,
        InBox (50 + 16 * (i % 8)) (50 + 16 * (i / 8)) 16 16 cx cy →
        px' (cx + cy * 640) = tilePixel palette (ss i) cx cy) ∧
      (∀ cx cy, 0 ≤ cx → cx < 640 →
        (∀ i, 0 ≤ i → i < 128 → ¬ InBox (50 + 16 * (i % 8)) (50 + 16 * (i / 8)) 16 16 cx cy) →
        px' (cx + cy * 640) = px (cx + cy * 640)) := by
  obtain ⟨p, e, a, b⟩ := drawLoop_spec N_TILES (by norm_num)
    (fun i px => (readAt N_TILES ss i).bind fun tile => draw_sprite palette px tile 2)
    (fun i cx cy => InBox (50 + 16 * (i % 8)) (50 + 16 * (i / 8)) 16 16 cx cy)
    (fun i cx cy => tilePixel palette (ss i) cx cy) px
    (fun i hi0 hi1 p => by
      simp only [readAt_some _ _ _ hi0 hi1, Option.some_bind]
      obtain ⟨ex, ey⟩ := hpos i hi0 hi1
      have hfit : FitsScreen (ss i).x (ss i).y 16 16 := by
        unfold FitsScreen
        rw [ex, ey]
        simp only [SCREEN_WIDTH, SCREEN_HEIGHT, N_TILES] at *
        omega
      have := draw_sprite_abs palette p (ss i) hfit (hcd i hi0 hi1)
      rw [ex, ey] at this
      exact this)
    (fun i i' cx cy hi0 hi1 hi0' hi1' hb hb' => by
      simp only [InBox, N_TILES] at *
      omega)
  refine ⟨p, ?_, ?_, b⟩
  · unfold draw_sprite_sheet
    exact e
  · intro i hi0 hi1 cx cy hb
    have hb' := hb
    unfold InBox at hb'
    exact a i hi0 hi1 cx cy (by omega) (by omega) hb

/-! ## Accesses -/

theorem readAt_isSome_iff {α : Type} (n : Int) (a : Int → α) (i : Int) :
    (readAt n a i).isSome = true ↔ (0 ≤ i ∧ i < n) := by
  unfold readAt
  by_cases h : 0 ≤ i ∧ i < n
  · simp [h]
  · simp only [h, if_false, Option.isSome_none, Bool.false_eq_true]

theorem writeAt_isSome_iff {α : Type} (n : Int) (a : Int → α) (i : Int) (v : α) :
    (writeAt n a i v).isSome = true ↔ (0 ≤ i ∧ i < n) := by
  unfold writeAt
  by_cases h : 0 ≤ i ∧ i < n
  · simp [h]
  · simp only [h, if_false, Option.isSome_none, Bool.false_eq_true]

/-! ## Click processing from an arbitrary state -/

/-- Whenever the colour phase has a result, it is the one of
`select_colour_spec`, and the current colour index is in range. -/
theorem select_colour_result (m : MouseInput) (cp : Int → ColourButton) (cur : ColourButton)
    (r : (Int → ColourButton) × ColourButton) (h : select_colour m cp cur = some r) :
    r.2 = scanColour m cp cur 64 ∧
      (0 ≤ r.2.colour_index ∧ r.2.colour_index < 64) ∧
      (∀ k, 0 ≤ k → k < 64 → r.1 k =
        { cp k with selected := decide (k = r.2.colour_index) }) ∧
      (∀ k, ¬ (0 ≤ k ∧ k < 64) → r.1 k = cp k) := by
  by_cases hr : 0 ≤ (scanColour m cp cur 64).colour_index ∧
      (scanColour m cp cur 64).colour_index < 64
  · obtain ⟨cp', e, h1, h2⟩ := select_colour_spec m cp cur hr
    rw [e] at h
    cases h
    exact ⟨rfl, hr, h1, h2⟩
  · obtain ⟨cp', e, _⟩ := scan_colours_spec m cp cur
    rw [select_colour_eq_scan, e, Option.some_bind] at h
    have hn : readAt COLOURS cp' (scanColour m cp cur 64).colour_index = none := by
      unfold readAt
      rw [if_neg hr]
    simp only [hn, Option.none_bind] at h
    cases h

/-- Whenever the tile phase has a result, it is the one of
`select_sprite_spec`, and the current tile index is in range. -/
theorem select_sprite_result (m : MouseInput) (ss : Int → Sprite) (cur : Sprite)
    (r : (Int → Sprite) × Sprite) (h : select_sprite m ss cur = some r) :
    r.2 = scanSprite m ss cur 128 ∧
      (0 ≤ r.2.index ∧ r.2.index < 128) ∧
      (∀ k, 0 ≤ k → k < 128 → r.1 k = { ss k with selected := decide (k = r.2.index) }) ∧
      (∀ k, ¬ (0 ≤ k ∧ k < 128) → r.1 k = ss k) := by
  by_cases hr : 0 ≤ (scanSprite m ss cur 128).index ∧ (scanSprite m ss cur 128).index < 128
  · obtain ⟨ss', e, h1, h2⟩ := select_sprite_spec m ss cur hr
    rw [e] at h
    cases h
    exact ⟨rfl, hr, h1, h2⟩
  · obtain ⟨ss', e, _⟩ := scan_sprites_spec m ss cur
    rw [select_sprite_eq_scan, e, Option.some_bind] at h
    have hn : readAt N_TILES ss' (scanSprite m ss cur 128).index = none := by
      unfold readAt
      rw [if_neg hr]
    simp only [hn, Option.none_bind] at h
    cases h

/-- Whenever click processing with the mouse held has a result, from any
state, the result is described field by field. -/
theorem process_input_click_result (m : MouseInput) (s s' : Editor) (hclick : m.click = true)
    (h : process_input m s = some s') :
    s'.pixels = s.pixels ∧
      s'.current_colour = scanColour m s.colour_palette s.current_colour 64 ∧
      s'.current_sprite = scanSprite m s.sprite_sheet s.current_sprite 128 ∧
      (∀ k, s'.colour_palette k =
        if 0 ≤ k ∧ k < 64 then
          { s.colour_palette k with selected := decide (k = s'.current_colour.colour_index) }
        else s.colour_palette k) ∧
      (∀ i, s'.sprite_sheet i =
        if 0 ≤ i ∧ i < 128 then
          { s.sprite_sheet i with
            selected := decide (i = s'.current_sprite.index)
            colour_data :=
              if paint_gate m = true ∧ i = s'.current_sprite.index then
                Function.update (s.sprite_sheet i).colour_data
                  (canvas_pixel_x m + 8 * canvas_pixel_y m) s'.current_colour.colour_index
              else (s.sprite_sheet i).colour_data }
        else s.sprite_sheet i) := by
  unfold process_input at h
  simp only [hclick, if_true] at h
  cases hc : select_colour m s.colour_palette s.current_colour with
  | none => rw [hc] at h; cases h
  | some c =>
    cases ht : select_sprite m s.sprite_sheet s.current_sprite with
    | none => rw [hc, ht] at h; cases h
    | some t =>
      rw [hc, ht] at h
      simp only [Option.some_bind] at h
      obtain ⟨c2, cr, c1, c0⟩ := select_colour_result m _ _ c hc
      obtain ⟨t2, tr, t1, t0⟩ := select_sprite_result m _ _ t ht
      by_cases hg : paint_gate m = true
      · obtain ⟨⟨gx0, gx1⟩, gy0, gy1⟩ := paint_gate_bounds m hg
        rw [if_pos hg, draw_pixel_spec s.pixels (canvas_pixel_x m) (canvas_pixel_y m) c.2 t.2
          t.1 tr.1 tr.2 gx0 gx1 gy0 gy1, Option.some_bind] at h
        cases h
        refine ⟨rfl, c2, t2, ?_, ?_⟩
        · intro k
          by_cases hk : 0 ≤ k ∧ k < 64
          · rw [if_pos hk]; exact c1 k hk.1 hk.2
          · rw [if_neg hk]; exact c0 k hk
        · intro i
          simp only
          by_cases hi : 0 ≤ i ∧ i < 128
          · rw [if_pos hi]
            by_cases hit : i = t.2.index
            · rw [← hit, Function.update_same, t1 i hi.1 hi.2]
              simp [hit, hg]
            · rw [Function.update_noteq hit, t1 i hi.1 hi.2]
              simp [hit]
          · rw [if_neg hi]
            have hne : i ≠ t.2.index := by omega
            rw [Function.update_noteq hne]
            exact t0 i hi
      · rw [if_neg hg] at h
        cases h
        refine ⟨rfl, c2, t2, ?_, ?_⟩
        · intro k
          by_cases hk : 0 ≤ k ∧ k < 64
          · rw [if_pos hk]; exact c1 k hk.1 hk.2
          · rw [if_neg hk]; exact c0 k hk
        · intro i
          simp only
          by_cases hi : 0 ≤ i ∧ i < 128
          · rw [if_pos hi, t1 i hi.1 hi.2]
            simp [hg]
          · rw [if_neg hi]
            exact t0 i hi

/-! ## The paint gate against the hit boxes -/

theorem gate_wrap_bounds (m : MouseInput) (hg : paint_gate m = true) :
    (-24 < wrap32 (m.x - 224) ∧ wrap32 (m.x - 224) < 192) ∧
      (-24 < wrap32 (m.y - 84) ∧ wrap32 (m.y - 84) < 192) := by
  obtain ⟨⟨a, b⟩, c, d⟩ := paint_gate_bounds m hg
  unfold canvas_pixel_x at a b
  unfold canvas_pixel_y at c d
  rw [canvas_corner_x, tdiv24] at a b
  rw [canvas_corner_y, tdiv24] at c d
  constructor
  · split_ifs at a b <;> omega
  · split_ifs at c d <;> omega

/-- A mouse position that opens the paint gate passes the test of no button of
the start-up layout. -/
theorem gate_no_button_hit (palette : Palette) (cp : Int → ColourButton)
    (h : ButtonLayout palette cp) (m : MouseInput) (hg : paint_gate m = true)
    (k : Int) (hk0 : 0 ≤ k) (hk1 : k < 64) : ¬ colour_hit (cp k) m := by
  obtain ⟨_, _, ex, ey⟩ := h k hk0 hk1
  obtain ⟨⟨a, b⟩, _⟩ := gate_wrap_bounds m hg
  unfold colour_hit
  rw [ex]
  unfold wrap32 at *
  simp only [BUTTON_SIZE]
  omega

/-- A mouse position that opens the paint gate passes the test of no tile of
the start-up layout. -/
theorem gate_no_tile_hit (ss : Int → Sprite) (h : SheetLayout ss) (m : MouseInput)
    (hg : paint_gate m = true) (i : Int) (hi0 : 0 ≤ i) (hi1 : i < 128) :
    ¬ sprite_hit (ss i) m := by
  obtain ⟨_, ex, ey⟩ := h i hi0 hi1
  obtain ⟨⟨a, b⟩, _⟩ := gate_wrap_bounds m hg
  unfold sprite_hit
  rw [ex]
  unfold wrap32 at *
  simp only [TILE_SIZE]
  omega

/-- A click that opens the paint gate, in a state that satisfies the
invariant, changes neither the current colour nor the current tile. -/
theorem gate_keeps_selection (palette : Palette) (s : Editor) (hinv : Inv palette s)
    (m : MouseInput) (hg : paint_gate m = true) :
    scanColour m s.colour_palette s.current_colour 64 = s.current_colour ∧
      scanSprite m s.sprite_sheet s.current_sprite 128 = s.current_sprite :=
  ⟨scanColour_miss m _ _ 64 (fun k hk =>
      gate_no_button_hit palette _ hinv.buttons m hg k (by omega) (by omega)),
    scanSprite_miss m _ _ 128 (fun i hi =>
      gate_no_tile_hit _ hinv.tiles m hg i (by omega) (by omega))⟩

/-! ## What the drawing routines write -/

theorem draw_colour_button_writes_iff (b : ColourButton) (hfit : FitsScreen b.x b.y 16 16)
    (cx cy : Int) (hx0 : 0 ≤ cx) (hx1 : cx < 640) :
    Writes (fun px => draw_colour_button px b) (cx + cy * 640) ↔
      InBox b.x b.y 16 16 cx cy := by
  constructor
  · rintro ⟨px, px', e, hne⟩
    by_contra hout
    obtain ⟨q, eq, _, hframe⟩ := draw_colour_button_abs px b hfit
    simp only at e
    rw [eq] at e
    cases e
    exact hne (hframe cx cy hx0 hx1 hout)
  · intro hin
    obtain ⟨q, eq, hval, _⟩ := draw_colour_button_abs (fun _ => buttonPixel b cx cy + 1) b hfit
    refine ⟨fun _ => buttonPixel b cx cy + 1, q, eq, ?_⟩
    rw [hval cx cy hx0 hx1 hin]
    show buttonPixel b cx cy ≠ buttonPixel b cx cy + 1
    omega

theorem draw_sprite_writes_iff (palette : Palette) (sp : Sprite)
    (hfit : FitsScreen sp.x sp.y 16 16) (hcd : ValidData sp.colour_data)
    (cx cy : Int) (hx0 : 0 ≤ cx) (hx1 : cx < 640) :
    Writes (fun px => draw_sprite palette px sp 2) (cx + cy * 640) ↔
      InBox sp.x sp.y 16 16 cx cy := by
  constructor
  · rintro ⟨px, px', e, hne⟩
    by_contra hout
    obtain ⟨q, eq, _, hframe⟩ := draw_sprite_abs palette px sp hfit hcd
    simp only at e
    rw [eq] at e
    cases e
    exact hne (hframe cx cy hx0 hx1 hout)
  · intro hin
    obtain ⟨q, eq, hval, _⟩ := draw_sprite_abs palette
      (fun _ => tilePixel palette sp cx cy + 1) sp hfit hcd
    refine ⟨fun _ => tilePixel palette sp cx cy + 1, q, eq, ?_⟩
    rw [hval cx cy hx0 hx1 hin]
    show tilePixel palette sp cx cy ≠ tilePixel palette sp cx cy + 1
    omega

/-! ## The start-up pixel loops -/

theorem tmod_zero_iff (a : Int) : a.tmod 24 = 0 ↔ a % 24 = 0 :=
  ⟨fun h => Int.emod_eq_zero_of_dvd (Int.dvd_of_tmod_eq_zero h),
    fun h => Int.tmod_eq_zero_of_dvd (Int.dvd_of_emod_eq_zero h)⟩

/-- One column of a conditional fill: rows `lo ≤ j < hi` of screen column `i`
receive `v` where `c i j` holds. -/
theorem condFill_column (lo hi i : Int) (c : Int → Int → Prop) [∀ i j, Decidable (c i j)]
    (v : Int) (px : Pixels) (hle : lo ≤ hi) (hi0 : 0 ≤ i) (hi1 : i < 640) (hlo : 0 ≤ lo)
    (hhi : hi ≤ 360) :
    ∃ p', forLoop lo hi (fun j px =>
        if c i j then writeAt PIXELS_LEN px (i + j * SCREEN_WIDTH) v else some px) px = some p' ∧
      ∀ cx cy, 0 ≤ cx → cx < 640 →
        p' (cx + cy * 640) =
          if cx = i ∧ lo ≤ cy ∧ cy < hi ∧ c cx cy then v else px (cx + cy * 640) := by
  apply forLoop_inv lo hi _ (fun n t => ∀ cx cy, 0 ≤ cx → cx < 640 →
      t (cx + cy * 640) =
        if cx = i ∧ lo ≤ cy ∧ cy < n ∧ c cx cy then v else px (cx + cy * 640)) px hle
  · intro cx cy _ _
    rw [if_neg (by omega)]
  · intro n hn0 hn1 t hI
    by_cases hc : c i n
    · have hb : 0 ≤ i + n * SCREEN_WIDTH ∧ i + n * SCREEN_WIDTH < PIXELS_LEN := by
        simp only [SCREEN_WIDTH, SCREEN_HEIGHT, PIXELS_LEN]; omega
      refine ⟨Function.update t (i + n * SCREEN_WIDTH) v, by
        simp only [hc, if_true, writeAt_some _ _ _ _ hb.1 hb.2], ?_⟩
      intro cx cy hx0 hx1
      by_cases hcell : cx = i ∧ cy = n
      · obtain ⟨rfl, rfl⟩ := hcell
        have e : cx + cy * 640 = cx + cy * SCREEN_WIDTH := rfl
        rw [e, Function.update_same, if_pos ⟨rfl, hn0, by omega, hc⟩]
      · have hne : cx + cy * 640 ≠ i + n * SCREEN_WIDTH := by
          simp only [SCREEN_WIDTH]; omega
        rw [Function.update_noteq hne, hI cx cy hx0 hx1]
        exact if_congr (by constructor <;> rintro ⟨a, b, c', d⟩ <;>
          exact ⟨a, b, by omega, d⟩) rfl rfl
    · refine ⟨t, by simp only [hc, if_false], ?_⟩
      intro cx cy hx0 hx1
      rw [hI cx cy hx0 hx1]
      refine if_congr ?_ rfl rfl
      constructor
      · rintro ⟨a, b, c', d⟩
        exact ⟨a, b, by omega, d⟩
      · rintro ⟨a, b, c', d⟩
        refine ⟨a, b, ?_, d⟩
        by_contra hlt
        have : cy = n := by omega
        subst a this
        exact hc d

/-- A conditional fill of the screen rectangle `loi ≤ cx < hii`,
`loj ≤ cy < hij`, column by column. -/
theorem condFill_spec (loi hii loj hij : Int) (c : Int → Int → Prop)
    [∀ i j, Decidable (c i j)] (v : Int) (px : Pixels) (hi : loi ≤ hii) (hj : loj ≤ hij)
    (hi0 : 0 ≤ loi) (hi1 : hii ≤ 640) (hj0 : 0 ≤ loj) (hj1 : hij ≤ 360) :
    ∃ p', forLoop loi hii (fun i px => forLoop loj hij (fun j px =>
        if c i j then writeAt PIXELS_LEN px (i + j * SCREEN_WIDTH) v else some px) px) px =
          some p' ∧
      ∀ cx cy, 0 ≤ cx → cx < 640 →
        p' (cx + cy * 640) =
          if (loi ≤ cx ∧ cx < hii) ∧ (loj ≤ cy ∧ cy < hij) ∧ c cx cy then v
          else px (cx + cy * 640) := by
  apply forLoop_inv loi hii _ (fun n t => ∀ cx cy, 0 ≤ cx → cx < 640 →
      t (cx + cy * 640) =
        if (loi ≤ cx ∧ cx < n) ∧ (loj ≤ cy ∧ cy < hij) ∧ c cx cy then v
        else px (cx + cy * 640)) px hi
  · intro cx cy _ _
    rw [if_neg (by omega)]
  · intro n hn0 hn1 t hI
    obtain ⟨t', e, h⟩ := condFill_column loj hij n c v t hj (by omega) (by omega) hj0 hj1
    refine ⟨t', e, ?_⟩
    intro cx cy hx0 hx1
    rw [h cx cy hx0 hx1]
    by_cases hcol : cx = n
    · subst hcol
      by_cases hq : loj ≤ cy ∧ cy < hij ∧ c cx cy
      · rw [if_pos ⟨rfl, hq⟩, if_pos ⟨⟨hn0, by omega⟩, ⟨hq.1, hq.2.1⟩, hq.2.2⟩]
      · rw [if_neg (fun hh => hq hh.2), hI cx cy hx0 hx1, if_neg (by omega),
          if_neg (fun hh => hq ⟨hh.2.1.1, hh.2.1.2, hh.2.2⟩)]
    · rw [if_neg (fun hh => hcol hh.1), hI cx cy hx0 hx1]
      exact if_congr (by constructor <;> rintro ⟨⟨a, b⟩, c', d⟩ <;>
        exact ⟨⟨a, by omega⟩, c', d⟩) rfl rfl

/-- The buffer after start-up: black on the working grid, background colour on
every other pixel of the screen. -/
theorem init_pixels_spec (px0 : Pixels) :
    ∃ px, init_pixels px0 = some px ∧
      ∀ cx cy, 0 ≤ cx → cx < 640 → 0 ≤ cy → cy < 360 →
        px (cx + cy * 640) = if OnGrid cx cy then 0x000000ff else 0x232324ff := by
  obtain ⟨p1, e1, h1, _⟩ := fillRect_spec (fun y x => x + y * SCREEN_WIDTH)
    (fun _ _ => some 0x232324ff) SCREEN_HEIGHT SCREEN_WIDTH px0 (by norm_num) (by norm_num)
    (fun _ _ _ _ _ _ => rfl)
    (fun y x a b c d => by simp only [SCREEN_WIDTH, SCREEN_HEIGHT, PIXELS_LEN] at *; omega)
    (fun y x y' x' a b c d a' b' c' d' e => by
      simp only [SCREEN_WIDTH, SCREEN_HEIGHT] at *; omega)
  have ebg : forLoop 0 SCREEN_HEIGHT (fun y px =>
      forLoop 0 SCREEN_WIDTH (fun x px =>
        writeAt PIXELS_LEN px (x + y * SCREEN_WIDTH) 0x232324ff) px) px0 = some p1 := by
    rw [← e1]
    unfold fillRect cellWrite
    refine forLoop_congr _ _ _ _ _ (fun y p => forLoop_congr _ _ _ _ _ (fun x q => ?_))
    simp only [Option.some_bind]
  obtain ⟨p2, e2, h2⟩ := condFill_spec 224 417 84 277
    (fun i j => (i - SCREEN_WIDTH.tdiv 2).tmod RENDER_SIZE = 0 ∨
      (j - SCREEN_HEIGHT.tdiv 2).tmod RENDER_SIZE = 0) 0x000000ff p1
    (by norm_num) (by norm_num) (by norm_num) (by norm_num) (by norm_num) (by norm_num)
  have ex : SCREEN_WIDTH.tdiv 2 + (RENDER_SIZE * TILE_SIZE).tdiv 2 + 1 = 417 := by decide
  have ey : SCREEN_HEIGHT.tdiv 2 + (RENDER_SIZE * TILE_SIZE).tdiv 2 + 1 = 277 := by decide
  refine ⟨p2, ?_, ?_⟩
  · unfold init_pixels
    rw [ebg, Option.some_bind, canvas_corner_x, canvas_corner_y, ex, ey]
    exact e2
  · intro cx cy hx0 hx1 hy0 hy1
    rw [h2 cx cy hx0 hx1]
    have hw : SCREEN_WIDTH.tdiv 2 = 320 := by decide
    have hh : SCREEN_HEIGHT.tdiv 2 = 180 := by decide
    simp only [hw, hh, RENDER_SIZE, tmod_zero_iff]
    have hbg : p1 (cx + cy * 640) = 0x232324ff :=
      Option.some.inj (h1 cy cx hy0 hy1 hx0 hx1)
    rw [hbg]
    refine if_congr ?_ rfl rfl
    unfold OnGrid
    constructor
    · rintro ⟨⟨a, b⟩, ⟨c, d⟩, e⟩
      exact ⟨a, by omega, c, by omega, e⟩
    · rintro ⟨a, b, c, d, e⟩
      exact ⟨⟨a, by omega⟩, ⟨c, by omega⟩, e⟩

theorem init_pixels_of_init (palette : Palette) (px0 : Pixels) (cp0 : Int → ColourButton)
    (ss0 : Int → Sprite) (s : Editor) (h : init palette px0 cp0 ss0 = some s) :
    init_pixels px0 = some s.pixels := by
  unfold init at h
  cases hp : init_pixels px0 with
  | none => rw [hp] at h; cases h
  | some px =>
    rw [hp, Option.some_bind] at h
    cases hc : init_colour_palette palette cp0 with
    | none => rw [hc] at h; cases h
    | some cp =>
      rw [hc, Option.some_bind] at h
      cases hs : init_sprite_sheet ss0 with
      | none => rw [hs] at h; cases h
      | some ss =>
        rw [hs, Option.some_bind] at h
        cases hr : readAt N_TILES ss 0 with
        | none => rw [hr] at h; cases h
        | some cur =>
          rw [hr, Option.some_bind] at h
          cases h
          rfl

/-! ## The working grid across frames -/

theorem process_input_pixels (palette : Palette) (s s1 : Editor) (hinv : Inv palette s)
    (m : MouseInput) (h : process_input m s = some s1) : s1.pixels = s.pixels := by
  cases hclick : m.click
  · rw [process_input_idle m s hclick] at h
    cases h
    rfl
  · obtain ⟨s', e, hp, _⟩ := process_input_click_spec palette s hinv m hclick
    rw [e] at h
    cases h
    exact hp

/-- A frame step from a state that satisfies the invariant, with the effect
of the repaint on the canvas area and on the pixels outside every box. -/
theorem frame_render_spec (palette : Palette) (s : Editor) (hinv : Inv palette s)
    (m : MouseInput) :
    ∃ t, frame palette m s = some t ∧ Inv palette t ∧
      (∀ cx cy, InBox 224 84 192 192 cx cy →
        t.pixels (cx + cy * 640) =
          canvasPixel palette (t.sprite_sheet t.current_sprite.index).colour_data cx cy) ∧
      (∀ cx cy, 0 ≤ cx → cx < 640 →
        (∀ k, 0 ≤ k → k < 64 →
          ¬ InBox (t.colour_palette k).x (t.colour_palette k).y 16 16 cx cy) →
        ¬ InBox 224 84 192 192 cx cy →
        (∀ i, 0 ≤ i → i < 128 →
          ¬ InBox (t.sprite_sheet i).x (t.sprite_sheet i).y 16 16 cx cy) →
        t.pixels (cx + cy * 640) = s.pixels (cx + cy * 640)) := by
  obtain ⟨s1, e1⟩ := process_input_some palette s hinv m
  have h1 := inv_process_input palette s s1 hinv m e1
  have hp := process_input_pixels palette s s1 hinv m e1
  obtain ⟨px', e2, _, r2, _, r4⟩ := render_spec palette s1 h1
  refine ⟨{ s1 with pixels := px' }, ?_, inv_pixels palette s1 px' h1, r2, ?_⟩
  · unfold frame
    rw [e1, Option.some_bind, e2]
  · intro cx cy hx0 hx1 hb hc ht
    rw [← hp]
    exact r4 cx cy hx0 hx1 hb hc ht

theorem gridEdge_onGrid (cx cy : Int) (h : OnGridEdge cx cy) : OnGrid cx cy := by
  unfold OnGridEdge at h
  unfold OnGrid
  omega

/-- A pixel on the right or bottom edge of the grid is in no button box, not
in the canvas area and in no thumbnail. -/
theorem gridEdge_outside (palette : Palette) (s : Editor) (hinv : Inv palette s)
    (cx cy : Int) (h : OnGridEdge cx cy) :
    (0 ≤ cx ∧ cx < 640 ∧ 0 ≤ cy ∧ cy < 360) ∧
    (∀ k, 0 ≤ k → k < 64 →
      ¬ InBox (s.colour_palette k).x (s.colour_palette k).y 16 16 cx cy) ∧
    ¬ InBox 224 84 192 192 cx cy ∧
    (∀ i, 0 ≤ i → i < 128 →
      ¬ InBox (s.sprite_sheet i).x (s.sprite_sheet i).y 16 16 cx cy) := by
  unfold OnGridEdge at h
  refine ⟨by omega, ?_, by unfold InBox; omega, ?_⟩
  · intro k hk0 hk1 hb
    have := (button_box palette _ hinv.buttons k hk0 hk1 cx cy).mp hb
    omega
  · intro i hi0 hi1 hb
    have := (tile_box _ hinv.tiles i hi0 hi1 cx cy).mp hb
    omega

/-- The right and bottom edges of the working grid stay black for ever. -/
theorem gridEdge_reachable (palette : Palette) (s : Editor) (hr : Reachable palette s)
    (cx cy : Int) (h : OnGridEdge cx cy) : s.pixels (cx + cy * 640) = 0x000000ff := by
  induction hr with
  | start px0 cp0 ss0 s hs =>
    obtain ⟨px, e, hpx⟩ := init_pixels_spec px0
    rw [init_pixels_of_init palette px0 cp0 ss0 s hs] at e
    cases e
    have hb := h
    unfold OnGridEdge at hb
    rw [hpx cx cy (by omega) (by omega) (by omega) (by omega),
      if_pos (gridEdge_onGrid cx cy h)]
  | step m s t hs ht ih =>
    have hinv := inv_reachable palette s hs
    obtain ⟨t', e, hinv', _, hframe⟩ := frame_render_spec palette s hinv m
    rw [e] at ht
    cases ht
    obtain ⟨hon, hb, hc, htl⟩ := gridEdge_outside palette t hinv' cx cy h
    rw [hframe cx cy hon.1 hon.2.1 hb hc htl]
    exact ih

theorem draw_sprite_not_writes (palette : Palette) (sp : Sprite)
    (hfit : FitsScreen sp.x sp.y 16 16) (cx cy : Int) (hx0 : 0 ≤ cx) (hx1 : cx < 640)
    (hout : ¬ InBox sp.x sp.y 16 16 cx cy) :
    ¬ Writes (fun px => draw_sprite palette px sp 2) (cx + cy * 640) := by
  rintro ⟨px, px', e, hne⟩
  simp only at e
  apply hne
  cases hsel : sp.selected
  · exact (draw_sprite_unselected_result palette px px' sp 2 hsel hfit e).2 cx cy hx0 hx1 hout
  · exact (draw_sprite_selected_result palette px px' sp 2 hsel (by norm_num) hfit e).2
      cx cy hx0 hx1 hout

theorem draw_canvas_not_writes (palette : Palette) (cur : Sprite) (sheet : Int → Sprite)
    (h0 : 0 ≤ cur.index) (h1 : cur.index < 128) (cx cy : Int) (hx0 : 0 ≤ cx) (hx1 : cx < 640)
    (hout : ¬ InBox 224 84 192 192 cx cy) :
    ¬ Writes (fun px => draw_canvas palette px cur sheet) (cx + cy * 640) := by
  rintro ⟨px, px', e, hne⟩
  simp only at e
  exact hne ((draw_canvas_result palette px px' cur sheet h0 h1 e).2 cx cy hx0 hx1 hout)

/-! ## The hit tests as behaviour of `colour_select` and `sprite_select` -/

/-- Where the arithmetic of the test does not overflow, the test of
`colour_select` is containment in the button's 16x16 box. -/
theorem colour_hit_iff_contains (b : ColourButton) (m : MouseInput)
    (h : ColourTestDefined b m) : colour_hit b m ↔ InBox b.x b.y 16 16 m.x m.y := by
  unfold ColourTestDefined IsInt32 at h
  unfold colour_hit InBox wrap32
  simp only [BUTTON_SIZE]
  omega

/-- Where the arithmetic of the test does not overflow, the test of
`sprite_select` is containment in the tile's 16x16 box. -/
theorem sprite_hit_iff_contains (sp : Sprite) (m : MouseInput)
    (h : SpriteTestDefined sp m) : sprite_hit sp m ↔ InBox sp.x sp.y 16 16 m.x m.y := by
  unfold SpriteTestDefined IsInt32 at h
  unfold sprite_hit InBox wrap32
  simp only [TILE_SIZE]
  omega

/-- `colour_select` overwrites every current colour record with the button's
colour and index exactly when its test passes. -/
theorem colour_select_registers_iff (b : ColourButton) (m : MouseInput) :
    (∀ c : ColourButton, (colour_select b m c).2 =
        { c with colour := b.colour, colour_index := b.colour_index }) ↔ colour_hit b m := by
  constructor
  · intro h
    by_contra hmiss
    have h1 := h ⟨b.colour + 1, b.colour_index, 0, 0, false⟩
    rw [colour_select_miss _ _ _ hmiss] at h1
    have h2 := congrArg ColourButton.colour h1
    simp only at h2
    omega
  · intro h c
    exact colour_select_hit b m c h

/-- `colour_select` leaves every current colour record as it was exactly when
its test fails. -/
theorem colour_select_keeps_iff (b : ColourButton) (m : MouseInput) :
    (∀ c : ColourButton, (colour_select b m c).2 = c) ↔ ¬ colour_hit b m := by
  constructor
  · intro h hhit
    have h1 := h ⟨b.colour + 1, b.colour_index, 0, 0, false⟩
    rw [colour_select_hit _ _ _ hhit] at h1
    have h2 := congrArg ColourButton.colour h1
    simp only at h2
    omega
  · intro h c
    exact colour_select_miss b m c h

/-- `sprite_select` overwrites the index of every current sprite record with
the tile's index exactly when its test passes. -/
theorem sprite_select_registers_iff (m : MouseInput) (sp : Sprite) :
    (∀ c : Sprite, (sprite_select m sp c).2 = { c with index := sp.index }) ↔
      sprite_hit sp m := by
  constructor
  · intro h
    by_contra hmiss
    have h1 := h ⟨sp.colour_data, sp.index + 1, 0, 0, false⟩
    rw [sprite_select_miss _ _ _ hmiss] at h1
    have h2 := congrArg Sprite.index h1
    simp only at h2
    omega
  · intro h c
    exact sprite_select_hit m sp c h

/-- `sprite_select` leaves every current sprite record as it was exactly when
its test fails. -/
theorem sprite_select_keeps_iff (m : MouseInput) (sp : Sprite) :
    (∀ c : Sprite, (sprite_select m sp c).2 = c) ↔ ¬ sprite_hit sp m := by
  constructor
  · intro h hhit
    have h1 := h ⟨sp.colour_data, sp.index + 1, 0, 0, false⟩
    rw [sprite_select_hit _ _ _ hhit] at h1
    have h2 := congrArg Sprite.index h1
    simp only at h2
    omega
  · intro h c
    exact sprite_select_miss m sp c h

/-! # Claims -/

/-- C1: on the button layout built at start-up (button k at x = 512 + 16*(k div 16),
y = 64 + 16*(k mod 16)), whatever the selected flags and the current colour
were, a click inside the box of button k followed by the scan of all 64
buttons and the re-assertion leaves button k selected, no other button
selected, and the current colour equal to palette[k] with colour index k. -/
theorem C1_hit_selects_button (palette : Palette)
    (colour_palette0 start colour_palette : Int → ColourButton)
    (current_colour : ColourButton) (mouse : MouseInput) (k : Int)
    (hstart : init_colour_palette palette colour_palette0 = some start)
    (hsame : ∀ j, 0 ≤ j → j < 64 →
      colour_palette j = { start j with selected := (colour_palette j).selected })
    (hk : 0 ≤ k ∧ k < 64)
    (hx : 0 ≤ mouse.x - (512 + 16 * (k / 16)) ∧ mouse.x - (512 + 16 * (k / 16)) < 16)
    (hy : 0 ≤ mouse.y - (64 + 16 * (k % 16)) ∧ mouse.y - (64 + 16 * (k % 16)) < 16) :
    (∀ j, 0 ≤ j → j < 64 →
      (start j).x = 512 + 16 * (j / 16) ∧ (start j).y = 64 + 16 * (j % 16)) ∧
    ∃ cp' cur', select_colour mouse colour_palette current_colour = some (cp', cur') ∧
      (cp' k).selected = true ∧
      (∀ j, 0 ≤ j → j < 64 → j ≠ k → (cp' j).selected = false) ∧
      cur'.colour = palette k ∧ cur'.colour_index = k := by
  obtain ⟨b, eb, hb⟩ := init_colour_palette_spec palette colour_palette0
  rw [eb] at hstart
  cases hstart
  have hl : ButtonLayout palette colour_palette := by
    intro j hj0 hj1
    rw [hsame j hj0 hj1, hb j hj0 hj1]
    exact ⟨rfl, rfl, rfl, rfl⟩
  refine ⟨fun j hj0 hj1 => by rw [hb j hj0 hj1]; exact ⟨rfl, rfl⟩, ?_⟩
  have hs := scanColour_in_button palette colour_palette hl current_colour mouse k hk.1 hk.2
    (by unfold InBox; omega)
  obtain ⟨cp', e, h1, _⟩ := select_colour_spec mouse colour_palette current_colour
    (by rw [hs]; exact hk)
  rw [hs] at e h1
  refine ⟨cp', _, e, ?_, ?_, rfl, rfl⟩
  · rw [h1 k hk.1 hk.2]
    simp
  · intro j hj0 hj1 hjk
    rw [h1 j hj0 hj1]
    simp [hjk]

theorem C1_hit_selects_button_witness :
    ∃ start, init_colour_palette samplePalette (fun _ => sampleButton) = some start ∧
      ∃ cp' cur', select_colour ⟨true, 515, 150⟩ start sampleButton = some (cp', cur') ∧
        (cp' 5).selected = true ∧ cur'.colour = samplePalette 5 ∧ cur'.colour_index = 5 := by
  obtain ⟨start, e, _⟩ := init_colour_palette_spec samplePalette (fun _ => sampleButton)
  obtain ⟨_, cp', cur', h1, h2, _, h4, h5⟩ := C1_hit_selects_button samplePalette
    (fun _ => sampleButton) start start sampleButton ⟨true, 515, 150⟩ 5 e
    (fun j _ _ => rfl) (by decide) (by decide) (by decide)
  exact ⟨start, e, cp', cur', h1, h2, h4, h5⟩

/-- C2 (the code departs from the claim): from the initial state, a click on
button 5 followed by a click at (210, 70), which is outside the canvas area
224 ≤ x < 416, 84 ≤ y < 276, writes colour index 5 into entry 0 of tile 0:
C division truncates (210 - 224)/24 and (70 - 84)/24 to 0, so the gate passes. -/
theorem C2_paint_outside_canvas (palette : Palette) (pixels0 : Pixels)
    (colour_palette0 : Int → ColourButton) (sprite_sheet0 : Int → Sprite) :
    ∃ s0 s1 s2, init palette pixels0 colour_palette0 sprite_sheet0 = some s0 ∧
      frame palette ⟨true, 515, 150⟩ s0 = some s1 ∧
      frame palette ⟨true, 210, 70⟩ s1 = some s2 ∧
      ¬ (224 ≤ (210 : Int) ∧ (210 : Int) < 416 ∧ 84 ≤ (70 : Int) ∧ (70 : Int) < 276) ∧
      canvas_pixel_x ⟨true, 210, 70⟩ = 0 ∧ canvas_pixel_y ⟨true, 210, 70⟩ = 0 ∧
      paint_gate ⟨true, 210, 70⟩ = true ∧
      s1.current_sprite.index = 0 ∧
      (s1.sprite_sheet 0).colour_data 0 = 0 ∧
      (s2.sprite_sheet 0).colour_data 0 = 5 := by
  obtain ⟨s0, e0, _, hc0, ht0, hi0⟩ := init_spec palette pixels0 colour_palette0 sprite_sheet0
  have inv0 := inv_init palette _ _ _ s0 e0
  obtain ⟨s1, e1, inv1, c1, t1, _, d1, _⟩ :=
    frame_click_spec palette s0 inv0 ⟨true, 515, 150⟩ rfl
  obtain ⟨s2, e2, _, c2, t2, _, d2, _⟩ :=
    frame_click_spec palette s1 inv1 ⟨true, 210, 70⟩ rfl
  have g1 : ¬ paint_gate ⟨true, 515, 150⟩ = true := by decide
  have g2 : paint_gate ⟨true, 210, 70⟩ = true := by decide
  rw [scanColour_in_button palette _ inv0.buttons _ _ 5 (by norm_num) (by norm_num)
    (by decide)] at c1
  rw [scanSprite_off_tiles _ inv0.tiles _ _ (by decide)] at t1
  rw [scanColour_off_buttons palette _ inv1.buttons _ _ (by decide) (by decide)] at c2
  rw [scanSprite_off_tiles _ inv1.tiles _ _ (by decide)] at t2
  have i1 : s1.current_sprite.index = 0 := by rw [t1]; exact hi0
  have i2 : s2.current_sprite.index = 0 := by rw [t2]; exact i1
  have k2 : s2.current_colour.colour_index = 5 := by rw [c2, c1]
  have a1 : (s1.sprite_sheet 0).colour_data 0 = 0 := by
    rw [d1 0 (by norm_num) (by norm_num)]
    simp only [g1, false_and, if_false]
    exact (ht0 0 (by norm_num) (by norm_num)).2.2.2.2 0 (by norm_num) (by norm_num)
  have a2 : (s2.sprite_sheet 0).colour_data 0 = 5 := by
    rw [d2 0 (by norm_num) (by norm_num)]
    have ex : canvas_pixel_x ⟨true, 210, 70⟩ + 8 * canvas_pixel_y ⟨true, 210, 70⟩ = 0 := by
      decide
    simp only [g2, i2, true_and, if_true, ex, Function.update_same, k2]
  exact ⟨s0, s1, s2, e0, e1, e2, by decide, by decide, by decide, g2, i1, a1, a2⟩

/-- C3 (as amended): from the initial state, a click in the thumbnail of tile
t, a click in button c and a click in the canvas block of cell (x, y) all
succeed, and after the repaint of the last frame every pixel of the canvas
block of (x, y) is palette[c]; in the 2x2 block of cell (x, y) of tile t's
thumbnail the pixels on the outer ring of the 16x16 thumbnail are the
highlight colour 0xffffff00 (tile t is the selected tile) and the others are
palette[c]; every pixel of every other tile's thumbnail is palette[0]. -/
theorem C3_edit_scenario (palette : Palette) (pixels0 : Pixels)
    (colour_palette0 : Int → ColourButton) (sprite_sheet0 : Int → Sprite)
    (t c x y : Int) (m1 m2 m3 : MouseInput)
    (ht : 0 ≤ t ∧ t < 128) (hc : 0 ≤ c ∧ c < 64) (hx : 0 ≤ x ∧ x < 8) (hy : 0 ≤ y ∧ y < 8)
    (h1c : m1.click = true) (h1 : InBox (50 + 16 * (t % 8)) (50 + 16 * (t / 8)) 16 16 m1.x m1.y)
    (h2c : m2.click = true)
    (h2 : InBox (512 + 16 * (c / 16)) (64 + 16 * (c % 16)) 16 16 m2.x m2.y)
    (h3c : m3.click = true) (h3 : InBox (224 + 24 * x) (84 + 24 * y) 24 24 m3.x m3.y) :
    ∃ s0 s1 s2 s3, init palette pixels0 colour_palette0 sprite_sheet0 = some s0 ∧
      frame palette m1 s0 = some s1 ∧ frame palette m2 s1 = some s2 ∧
      frame palette m3 s2 = some s3 ∧
      (∀ cx cy, 224 + 24 * x ≤ cx → cx < 224 + 24 * x + 24 →
        84 + 24 * y ≤ cy → cy < 84 + 24 * y + 24 → s3.pixels (cx + cy * 640) = palette c) ∧
      (∀ a b, 0 ≤ a → a < 2 → 0 ≤ b → b < 2 →
        s3.pixels ((50 + 16 * (t % 8) + 2 * x + a) + (50 + 16 * (t / 8) + 2 * y + b) * 640) =
          if OnRing 16 (2 * x + a) (2 * y + b) then 0xffffff00 else palette c) ∧
      (∀ u, 0 ≤ u → u < 128 → u ≠ t → ∀ i j, 0 ≤ i → i < 16 → 0 ≤ j → j < 16 →
        s3.pixels ((50 + 16 * (u % 8) + i) + (50 + 16 * (u / 8) + j) * 640) = palette 0) := by
  obtain ⟨s0, s1, s2, s3, e0, e1, e2, e3, hs, hcan, hthumb⟩ := scenario_spec palette pixels0
    colour_palette0 sprite_sheet0 t c x y m1 m2 m3 ht hc hx hy h1c h1 h2c h2 h3c h3
  refine ⟨s0, s1, s2, s3, e0, e1, e2, e3, ?_, ?_, ?_⟩
  · intro cx cy a1 a2 b1 b2
    rw [hcan cx cy (by unfold InBox; omega)]
    unfold canvasPixel
    have ex : (cx - 224).tdiv 24 = x := by rw [tdiv24, if_pos (by omega)]; omega
    have ey : (cy - 84).tdiv 24 = y := by rw [tdiv24, if_pos (by omega)]; omega
    rw [ex, ey, (hs t ht.1 ht.2).2.2.2 (x + y * 8) (by omega) (by omega)]
    rw [if_pos ⟨rfl, by omega⟩]
  · intro a b a0 a1 b0 b1
    obtain ⟨tx, ty, tsel, tdata⟩ := hs t ht.1 ht.2
    rw [hthumb t ht.1 ht.2 _ _ (by unfold InBox; omega)]
    unfold tilePixel
    have ex : 50 + 16 * (t % 8) + 2 * x + a - (s3.sprite_sheet t).x = 2 * x + a := by
      rw [tx]; omega
    have ey : 50 + 16 * (t / 8) + 2 * y + b - (s3.sprite_sheet t).y = 2 * y + b := by
      rw [ty]; omega
    have dx : (2 * x + a).tdiv 2 = x := by
      rw [Int.tdiv_eq_ediv (by omega) (by norm_num)]; omega
    have dy : (2 * y + b).tdiv 2 = y := by
      rw [Int.tdiv_eq_ediv (by omega) (by norm_num)]; omega
    have e8 : x + y * 8 = x + 8 * y := by omega
    rw [ex, ey, dx, dy, tsel, tdata (x + y * 8) (by omega) (by omega), e8]
    simp
  · intro u hu0 hu1 hut i j i0 i1 j0 j1
    obtain ⟨ux, uy, usel, udata⟩ := hs u hu0 hu1
    rw [hthumb u hu0 hu1 _ _ (by unfold InBox; omega)]
    unfold tilePixel
    have ex : 50 + 16 * (u % 8) + i - (s3.sprite_sheet u).x = i := by rw [ux]; omega
    have ey : 50 + 16 * (u / 8) + j - (s3.sprite_sheet u).y = j := by rw [uy]; omega
    have hb := cell_index_bounds 2 i j (by norm_num) i0 (by omega) j0 (by omega)
    rw [ex, ey, usel, udata _ hb.1 hb.2]
    simp [hut]

theorem C3_edit_scenario_witness :
    ∃ s0 s1 s2 s3,
      init samplePalette (fun _ => 0) (fun _ => sampleButton) (fun _ => checkerTile) = some s0 ∧
      frame samplePalette ⟨true, 100, 52⟩ s0 = some s1 ∧
      frame samplePalette ⟨true, 515, 150⟩ s1 = some s2 ∧
      frame samplePalette ⟨true, 230, 90⟩ s2 = some s3 ∧
      s3.pixels (230 + 90 * 640) = 1005 ∧
      s3.pixels ((50 + 16 * (3 % 8) + 2 * 0 + 1) + (50 + 16 * (3 / 8) + 2 * 0 + 1) * 640) = 1005 ∧
      s3.pixels ((50 + 16 * (4 % 8) + 7) + (50 + 16 * (4 / 8) + 0) * 640) = 1000 := by
  obtain ⟨s0, s1, s2, s3, e0, e1, e2, e3, a, b, c⟩ := C3_edit_scenario samplePalette
    (fun _ => 0) (fun _ => sampleButton) (fun _ => checkerTile) 3 5 0 0
    ⟨true, 100, 52⟩ ⟨true, 515, 150⟩ ⟨true, 230, 90⟩
    (by decide) (by decide) (by decide) (by decide) rfl (by decide) rfl (by decide) rfl
    (by decide)
  refine ⟨s0, s1, s2, s3, e0, e1, e2, e3, ?_, ?_, ?_⟩
  · exact a 230 90 (by norm_num) (by norm_num) (by norm_num) (by norm_num)
  · have := b 1 1 (by norm_num) (by norm_num) (by norm_num) (by norm_num)
    rw [this]
    decide
  · exact c 4 (by norm_num) (by norm_num) (by norm_num) 7 0 (by norm_num) (by norm_num)
      (by norm_num) (by norm_num)

/-- C3 (counterexample to the claim as stated): in the scenario with t = 3,
c = 5 and cell (0, 0), the top-left pixel of the 2x2 block of cell (0, 0) of
tile 3's thumbnail, at screen position (98, 50), is the highlight colour and
not palette[5]. -/
theorem C3_thumbnail_corner_is_highlight :
    ∃ s0 s1 s2 s3,
      init samplePalette (fun _ => 0) (fun _ => sampleButton) (fun _ => checkerTile) = some s0 ∧
      frame samplePalette ⟨true, 100, 52⟩ s0 = some s1 ∧
      frame samplePalette ⟨true, 515, 150⟩ s1 = some s2 ∧
      frame samplePalette ⟨true, 230, 90⟩ s2 = some s3 ∧
      s3.pixels ((98 + 2 * 0) + (50 + 2 * 0) * 640) = 0xffffff00 ∧
      s3.pixels ((98 + 2 * 0) + (50 + 2 * 0) * 640) ≠ samplePalette 5 := by
  obtain ⟨s0, s1, s2, s3, e0, e1, e2, e3, hs, _, hthumb⟩ := scenario_spec samplePalette
    (fun _ => 0) (fun _ => sampleButton) (fun _ => checkerTile) 3 5 0 0
    ⟨true, 100, 52⟩ ⟨true, 515, 150⟩ ⟨true, 230, 90⟩
    (by decide) (by decide) (by decide) (by decide) rfl (by decide) rfl (by decide) rfl
    (by decide)
  obtain ⟨tx, ty, tsel, _⟩ := hs 3 (by norm_num) (by norm_num)
  have hp : s3.pixels ((98 + 2 * 0) + (50 + 2 * 0) * 640) = 0xffffff00 := by
    have := hthumb 3 (by norm_num) (by norm_num) 98 50 (by decide)
    norm_num at this ⊢
    rw [this]
    unfold tilePixel
    rw [tx, ty, tsel]
    simp [OnRing]
  exact ⟨s0, s1, s2, s3, e0, e1, e2, e3, hp, by rw [hp]; decide⟩

/-- C4 (the code departs from the claim): an unselected tile is drawn at zoom 2
whatever scale is passed.  For the checkerboard tile at scale 24 the pixel
(2, 0) shows cell (1, 0), not cell (2/24, 0/24) = (0, 0), and the pixel (16, 0),
which belongs to the 192x192 box, is not written at all. -/
theorem C4_unselected_ignores_scale :
    ∃ px', draw_sprite samplePalette (fun _ => 0) checkerTile 24 = some px' ∧
      px' ((0 + 2) + (0 + 0) * 640) = samplePalette (checkerTile.colour_data 1) ∧
      samplePalette (checkerTile.colour_data 1) ≠
        samplePalette (checkerTile.colour_data ((2 : Int).tdiv 24 + (0 : Int).tdiv 24 * 8)) ∧
      px' ((0 + 16) + (0 + 0) * 640) = 0 ∧
      samplePalette (checkerTile.colour_data ((16 : Int).tdiv 24 + (0 : Int).tdiv 24 * 8)) ≠ 0 := by
  obtain ⟨px', h1, h2, h3⟩ := draw_sprite_unselected_spec samplePalette (fun _ => 0)
    checkerTile 24 rfl (by decide) checkerTile_valid
  refine ⟨px', h1, ?_, by decide, ?_, by decide⟩
  · have := h2 2 0 (by norm_num) (by norm_num) (by norm_num) (by norm_num)
    simpa [checkerTile] using this
  · have := h3 16 0 (by norm_num) (by norm_num) (by simp [checkerTile])
    simpa using this

/-- C5: for every sheet and every current sprite with 0 ≤ index < 128, whenever
`draw_canvas` completes, the 192x192 square at (224, 84) shows the current tile
of the sheet at zoom 24; it completes whenever the tile's entries are palette
indices; and its result is the same whatever the selected flags of the current
sprite and of the tiles of the sheet are. -/
theorem C5_draw_canvas (palette : Palette) (pixels : Pixels) (current : Sprite)
    (sprite_sheet : Int → Sprite) (h0 : 0 ≤ current.index) (h1 : current.index < 128) :
    (∀ pixels', draw_canvas palette pixels current sprite_sheet = some pixels' →
      ∀ i j, 0 ≤ i → i < 192 → 0 ≤ j → j < 192 →
        pixels' ((224 + i) + (84 + j) * 640) =
          palette ((sprite_sheet current.index).colour_data (i.tdiv 24 + j.tdiv 24 * 8))) ∧
    (ValidData (sprite_sheet current.index).colour_data →
      ∃ pixels', draw_canvas palette pixels current sprite_sheet = some pixels') ∧
    (∀ (b : Bool) (f : Int → Bool),
      draw_canvas palette pixels { current with selected := b }
          (fun k => { sprite_sheet k with selected := f k }) =
        draw_canvas palette pixels current sprite_sheet) := by
  refine ⟨?_, ?_, fun b f => draw_canvas_congr palette pixels _ _ _ _ rfl (fun k => rfl)⟩
  · intro px' e
    exact (draw_canvas_result palette pixels px' current sprite_sheet h0 h1 e).1
  · intro hcd
    obtain ⟨px', e, _⟩ := draw_canvas_spec palette pixels current sprite_sheet h0 h1 hcd
    exact ⟨px', e⟩

theorem C5_draw_canvas_witness :
    ∃ pixels', draw_canvas samplePalette (fun _ => 0) checkerTile (fun _ => checkerTile) =
        some pixels' ∧
      pixels' ((224 + 30) + (84 + 5) * 640) = 1001 := by
  obtain ⟨h, hex, _⟩ := C5_draw_canvas samplePalette (fun _ => 0) checkerTile
    (fun _ => checkerTile) (by decide) (by decide)
  obtain ⟨px', e⟩ := hex checkerTile_valid
  refine ⟨px', e, ?_⟩
  rw [h px' e 30 5 (by norm_num) (by norm_num) (by norm_num) (by norm_num)]
  decide

/-- C6: after `draw_pixel` at tile coordinate (x, y), the entry
`colour_data[x + y*8]` of the current tile of the sheet is the colour index of
the current colour. -/
theorem C6_paint_then_read (pixels : Pixels) (x y : Int) (colour : ColourButton)
    (sprite : Sprite) (sprite_sheet : Int → Sprite)
    (h0 : 0 ≤ sprite.index) (h1 : sprite.index < 128)
    (hx0 : 0 ≤ x) (hx1 : x < 8) (hy0 : 0 ≤ y) (hy1 : y < 8) :
    ∃ sheet', draw_pixel pixels x y colour sprite sprite_sheet = some sheet' ∧
      (sheet' sprite.index).colour_data (x + y * 8) = colour.colour_index := by
  refine ⟨_, draw_pixel_spec pixels x y colour sprite sprite_sheet h0 h1 hx0 hx1 hy0 hy1, ?_⟩
  have e : x + y * 8 = x + 8 * y := by omega
  simp [e]

theorem C6_paint_then_read_witness :
    ∃ sheet', draw_pixel (fun _ => 0) 3 4 sampleButton checkerTile (fun _ => checkerTile) =
        some sheet' ∧
      (sheet' checkerTile.index).colour_data (3 + 4 * 8) = sampleButton.colour_index :=
  C6_paint_then_read (fun _ => 0) 3 4 sampleButton checkerTile (fun _ => checkerTile)
    (by decide) (by decide) (by decide) (by decide) (by decide) (by decide)

/-- C7: in every reachable state at most one of the 64 buttons and at most
one of the 128 tiles is selected; and every frame step with the mouse held
succeeds and leaves exactly the button of the current colour and exactly the
current tile selected. -/
theorem C7_selection_invariant (palette : Palette) (s : Editor) (hr : Reachable palette s) :
    (∀ k k', 0 ≤ k → k < 64 → 0 ≤ k' → k' < 64 →
      (s.colour_palette k).selected = true → (s.colour_palette k').selected = true → k = k') ∧
    (∀ i i', 0 ≤ i → i < 128 → 0 ≤ i' → i' < 128 →
      (s.sprite_sheet i).selected = true → (s.sprite_sheet i').selected = true → i = i') ∧
    (∀ mouse : MouseInput, mouse.click = true →
      ∃ t, frame palette mouse s = some t ∧
        (0 ≤ t.current_colour.colour_index ∧ t.current_colour.colour_index < 64) ∧
        (0 ≤ t.current_sprite.index ∧ t.current_sprite.index < 128) ∧
        (∀ k, 0 ≤ k → k < 64 →
          ((t.colour_palette k).selected = true ↔ k = t.current_colour.colour_index)) ∧
        (∀ i, 0 ≤ i → i < 128 →
          ((t.sprite_sheet i).selected = true ↔ i = t.current_sprite.index))) := by
  have hinv := inv_reachable palette s hr
  refine ⟨?_, ?_, ?_⟩
  · intro k k' hk0 hk1 hk0' hk1' h h'
    rw [hinv.one_button k hk0 hk1 h, hinv.one_button k' hk0' hk1' h']
  · intro i i' hi0 hi1 hi0' hi1' h h'
    rw [hinv.one_tile i hi0 hi1 h, hinv.one_tile i' hi0' hi1' h']
  · intro mouse hclick
    obtain ⟨t, e, hinv', _, _, hb, hs, _⟩ := frame_click_spec palette s hinv mouse hclick
    refine ⟨t, e, hinv'.colour_index, hinv'.sprite_index, ?_, ?_⟩
    · intro k hk0 hk1
      rw [hb k hk0 hk1]
      simp
    · intro i hi0 hi1
      rw [hs i hi0 hi1]
      simp

theorem C7_selection_invariant_witness :
    ∃ s, init samplePalette (fun _ => 0) (fun _ => sampleButton) (fun _ => checkerTile) = some s ∧
      ∃ t, frame samplePalette ⟨true, 515, 150⟩ s = some t ∧
        (∀ k, 0 ≤ k → k < 64 →
          ((t.colour_palette k).selected = true ↔ k = t.current_colour.colour_index)) ∧
        (∀ i, 0 ≤ i → i < 128 →
          ((t.sprite_sheet i).selected = true ↔ i = t.current_sprite.index)) := by
  obtain ⟨s, e, _⟩ := init_spec samplePalette (fun _ => 0) (fun _ => sampleButton)
    (fun _ => checkerTile)
  obtain ⟨t, h1, _, _, h4, h5⟩ := (C7_selection_invariant samplePalette s
    (Reachable.start _ _ _ s e)).2.2 ⟨true, 515, 150⟩ rfl
  exact ⟨s, e, t, h1, h4, h5⟩

/-- C8: in every reachable state every `colour_data` entry of each of the 128
tiles is a palette index in 0..63, and so is the colour index of the current
colour. -/
theorem C8_palette_index_invariant (palette : Palette) (s : Editor)
    (hr : Reachable palette s) :
    (∀ i, 0 ≤ i → i < 128 → ∀ k, 0 ≤ k → k < 64 →
      0 ≤ (s.sprite_sheet i).colour_data k ∧ (s.sprite_sheet i).colour_data k < 64) ∧
    (0 ≤ s.current_colour.colour_index ∧ s.current_colour.colour_index < 64) := by
  have hinv := inv_reachable palette s hr
  exact ⟨fun i hi0 hi1 k hk0 hk1 => hinv.data i hi0 hi1 k hk0 hk1, hinv.colour_index⟩

theorem C8_palette_index_invariant_witness :
    ∃ s t, init samplePalette (fun _ => 0) (fun _ => sampleButton) (fun _ => checkerTile) =
        some s ∧ frame samplePalette ⟨true, 515, 150⟩ s = some t ∧
      (∀ i, 0 ≤ i → i < 128 → ∀ k, 0 ≤ k → k < 64 →
        0 ≤ (t.sprite_sheet i).colour_data k ∧ (t.sprite_sheet i).colour_data k < 64) ∧
      (0 ≤ t.current_colour.colour_index ∧ t.current_colour.colour_index < 64) := by
  obtain ⟨s, e, _⟩ := init_spec samplePalette (fun _ => 0) (fun _ => sampleButton)
    (fun _ => checkerTile)
  have hs : Reachable samplePalette s := Reachable.start _ _ _ s e
  obtain ⟨_, _, t, _, et, _⟩ := frame_spec samplePalette s (inv_reachable samplePalette s hs)
    ⟨true, 515, 150⟩
  exact ⟨s, _, e, et, C8_palette_index_invariant samplePalette _
    (Reachable.step ⟨true, 515, 150⟩ s _ hs et)⟩

/-- C9: `draw_colour_button` succeeds on a button whose 16x16 box is on the
screen; a pixel of the box is the highlight colour 0xffffff00 when the button
is selected and the pixel is on the outermost ring, and the button colour
otherwise, so an unselected button is its colour on all 256 pixels. -/
theorem C9_draw_colour_button_border (pixels : Pixels) (button : ColourButton)
    (hfit : FitsScreen button.x button.y 16 16) :
    ∃ pixels', draw_colour_button pixels button = some pixels' ∧
      (∀ i j, 0 ≤ i → i < 16 → 0 ≤ j → j < 16 →
        pixels' ((button.x + i) + (button.y + j) * 640) =
          if button.selected = true ∧ (i = 0 ∨ i = 15 ∨ j = 0 ∨ j = 15) then 0xffffff00
          else button.colour) ∧
      (button.selected = false → ∀ i j, 0 ≤ i → i < 16 → 0 ≤ j → j < 16 →
        pixels' ((button.x + i) + (button.y + j) * 640) = button.colour) := by
  obtain ⟨hx, hxw, hy, hyh⟩ := hfit
  obtain ⟨px', e, h2, _⟩ := draw_colour_button_spec pixels button hx hxw hy hyh
  refine ⟨px', e, h2, ?_⟩
  intro hsel i j a b c d
  rw [h2 i j a b c d]
  simp [hsel]

theorem C9_draw_colour_button_border_witness :
    FitsScreen sampleButton.x sampleButton.y 16 16 ∧
    ∃ pixels', draw_colour_button (fun _ => 0) sampleButton = some pixels' ∧
      pixels' ((512 + 15) + (144 + 7) * 640) = 0xffffff00 ∧
      pixels' ((512 + 14) + (144 + 7) * 640) = 1005 := by
  obtain ⟨px', e, h, _⟩ := C9_draw_colour_button_border (fun _ => 0) sampleButton (by decide)
  refine ⟨by decide, px', e, ?_, ?_⟩
  · have := h 15 7 (by norm_num) (by norm_num) (by norm_num) (by norm_num)
    simpa [sampleButton] using this
  · have := h 14 7 (by norm_num) (by norm_num) (by norm_num) (by norm_num)
    simpa [sampleButton] using this

/-- C10: for every selected tile and every scale s ≥ 1 whose s*8 by s*8 box is
on the screen, whenever `draw_sprite` completes, the outermost ring of the box
is the highlight colour 0xffffff00 and every interior pixel (i, j) is
palette[colour_data[i/s + (j/s)*8]]; it completes whenever the entries are
palette indices; and at scale 2 the selected and the unselected rendering of
the same tile differ only at pixels of the ring of the 16x16 box. -/
theorem C10_draw_sprite_border (palette : Palette) (pixels : Pixels) (sprite : Sprite)
    (hsel : sprite.selected = true) :
    (∀ s, 1 ≤ s → FitsScreen sprite.x sprite.y (s * 8) (s * 8) →
      (∀ pixels', draw_sprite palette pixels sprite s = some pixels' →
        ∀ i j, 0 ≤ i → i < s * 8 → 0 ≤ j → j < s * 8 →
          pixels' ((sprite.x + i) + (sprite.y + j) * 640) =
            if i = 0 ∨ i = s * 8 - 1 ∨ j = 0 ∨ j = s * 8 - 1 then 0xffffff00
            else palette (sprite.colour_data (i.tdiv s + j.tdiv s * 8))) ∧
      (ValidData sprite.colour_data →
        ∃ pixels', draw_sprite palette pixels sprite s = some pixels')) ∧
    (FitsScreen sprite.x sprite.y 16 16 →
      ∀ p1 p2, draw_sprite palette pixels sprite 2 = some p1 →
        draw_sprite palette pixels { sprite with selected := false } 2 = some p2 →
        ∀ idx, p1 idx ≠ p2 idx →
          ∃ i j, (0 ≤ i ∧ i < 16) ∧ (0 ≤ j ∧ j < 16) ∧ (i = 0 ∨ i = 15 ∨ j = 0 ∨ j = 15) ∧
            idx = (sprite.x + i) + (sprite.y + j) * 640) := by
  constructor
  · intro s hs hfit
    constructor
    · intro px' e
      exact (draw_sprite_selected_result palette pixels px' sprite s hsel hs hfit e).1
    · intro hcd
      obtain ⟨px', e, _⟩ := draw_sprite_selected_spec palette pixels sprite s hsel hs hfit hcd
      exact ⟨px', e⟩
  · intro hfit p1 p2 e1 e2
    obtain ⟨a1, b1⟩ := draw_sprite_selected_result palette pixels p1 sprite 2 hsel
      (by norm_num) hfit e1
    obtain ⟨a2, b2⟩ := draw_sprite_unselected_result palette pixels p2
      { sprite with selected := false } 2 rfl hfit e2
    intro idx hne
    obtain ⟨hx, hxw, hy, hyh⟩ := hfit
    simp only [SCREEN_WIDTH, SCREEN_HEIGHT] at hxw hyh
    have hidx : idx = idx % 640 + idx / 640 * 640 := by omega
    by_cases hbox : sprite.x ≤ idx % 640 ∧ idx % 640 < sprite.x + 2 * 8 ∧
        sprite.y ≤ idx / 640 ∧ idx / 640 < sprite.y + 2 * 8
    · have hi : (sprite.x + (idx % 640 - sprite.x)) + (sprite.y + (idx / 640 - sprite.y)) * 640
          = idx := by omega
      have c1 := a1 (idx % 640 - sprite.x) (idx / 640 - sprite.y)
        (by omega) (by omega) (by omega) (by omega)
      have c2 := a2 (idx % 640 - sprite.x) (idx / 640 - sprite.y)
        (by omega) (by omega) (by omega) (by omega)
      simp only at c2
      rw [hi] at c1 c2
      by_cases hring : OnRing (2 * 8) (idx % 640 - sprite.x) (idx / 640 - sprite.y)
      · refine ⟨idx % 640 - sprite.x, idx / 640 - sprite.y, by omega, by omega, ?_, by omega⟩
        unfold OnRing at hring
        omega
      · rw [if_neg hring] at c1
        exact absurd (c1.trans c2.symm) hne
    · have d1 := b1 (idx % 640) (idx / 640) (by omega) (by omega) hbox
      have d2 := b2 (idx % 640) (idx / 640) (by omega) (by omega) hbox
      rw [← hidx] at d1 d2
      exact absurd (d1.trans d2.symm) hne

theorem C10_draw_sprite_border_witness :
    FitsScreen selectedTile.x selectedTile.y (24 * 8) (24 * 8) ∧
    ∃ pixels', draw_sprite samplePalette (fun _ => 0) selectedTile 24 = some pixels' ∧
      pixels' ((50 + 0) + (50 + 100) * 640) = 0xffffff00 ∧
      pixels' ((50 + 30) + (50 + 100) * 640) = 1001 := by
  obtain ⟨h, hex⟩ := (C10_draw_sprite_border samplePalette (fun _ => 0) selectedTile rfl).1 24
    (by norm_num) (by decide)
  obtain ⟨px', e⟩ := hex selectedTile_valid
  refine ⟨by decide, px', e, ?_, ?_⟩
  · have := h px' e 0 100 (by norm_num) (by norm_num) (by norm_num) (by norm_num)
    simpa [selectedTile] using this
  · have := h px' e 30 100 (by norm_num) (by norm_num) (by norm_num) (by norm_num)
    exact this.trans (by decide)

/-- C11: on the start-up button layout, for a mouse position (a C `int` pair)
outside the box of every button, the scan of `colour_select` over all 64
buttons leaves the current colour record as it was and every button
unselected; the button of the current colour is selected after the colour
phase only through the re-assertion that follows the scan. -/
theorem C11_miss_keeps_colour (palette : Palette)
    (colour_palette0 start colour_palette : Int → ColourButton)
    (current_colour : ColourButton) (mouse : MouseInput)
    (hstart : init_colour_palette palette colour_palette0 = some start)
    (hsame : ∀ j, 0 ≤ j → j < 64 →
      colour_palette j = { start j with selected := (colour_palette j).selected })
    (hmx : IsInt32 mouse.x) (hmy : IsInt32 mouse.y)
    (hout : ∀ k, 0 ≤ k → k < 64 →
      ¬ InBox (512 + 16 * (k / 16)) (64 + 16 * (k % 16)) 16 16 mouse.x mouse.y) :
    (∃ cp', scan_colours mouse colour_palette current_colour = some (cp', current_colour) ∧
      ∀ j, 0 ≤ j → j < 64 → (cp' j).selected = false) ∧
    (0 ≤ current_colour.colour_index ∧ current_colour.colour_index < 64 →
      ∃ cp'', select_colour mouse colour_palette current_colour = some (cp'', current_colour) ∧
        ∀ j, 0 ≤ j → j < 64 →
          ((cp'' j).selected = true ↔ j = current_colour.colour_index)) := by
  have hl := layout_of_start palette colour_palette0 start colour_palette hstart hsame
  have hs : scanColour mouse colour_palette current_colour 64 = current_colour :=
    scanColour_miss mouse colour_palette current_colour 64 (fun k hk =>
      no_button_hit palette colour_palette hl mouse hmx hmy hout k (by omega) (by omega))
  constructor
  · obtain ⟨cp', e, h1, _⟩ := scan_colours_spec mouse colour_palette current_colour
    rw [hs] at e
    refine ⟨cp', e, fun j hj0 hj1 => ?_⟩
    rw [h1 j hj0 hj1]
  · intro hr
    obtain ⟨cp'', e, h1, _⟩ := select_colour_spec mouse colour_palette current_colour
      (by rw [hs]; exact hr)
    rw [hs] at e h1
    refine ⟨cp'', e, fun j hj0 hj1 => ?_⟩
    rw [h1 j hj0 hj1]
    simp

theorem C11_miss_keeps_colour_witness :
    ∃ start, init_colour_palette samplePalette (fun _ => sampleButton) = some start ∧
      ∃ cp', scan_colours ⟨true, 511, 64⟩ start sampleButton = some (cp', sampleButton) ∧
        ∀ j, 0 ≤ j → j < 64 → (cp' j).selected = false := by
  obtain ⟨start, e, _⟩ := init_colour_palette_spec samplePalette (fun _ => sampleButton)
  exact ⟨start, e, (C11_miss_keeps_colour samplePalette (fun _ => sampleButton) start start
    sampleButton ⟨true, 511, 64⟩ e (fun j _ _ => rfl) (by decide) (by decide)
    (fun k hk0 hk1 hb => by simp only [InBox] at hb; omega)).1⟩

/-- C12 (as amended): for arbitrary (possibly overlapping) buttons, any mouse
position and any prior current colour such that the arithmetic of each
button's test does not overflow a 32-bit `int`, the scan of all 64 buttons in
array order leaves in the current colour the colour and colour index of the
highest-index button whose 16x16 box contains the mouse, and leaves the
current colour unchanged when no box contains it; likewise, when the
arithmetic of each tile's test does not overflow, the scan of all 128 tiles
leaves the index of the highest-position tile whose 16x16 box contains the
mouse, and leaves the current sprite unchanged when none does. -/
theorem C12_last_scanned_wins (mouse : MouseInput) (colour_palette : Int → ColourButton)
    (current_colour : ColourButton) (sprite_sheet : Int → Sprite) (current_sprite : Sprite) :
    ((∀ k, 0 ≤ k → k < 64 → ColourTestDefined (colour_palette k) mouse) →
      ∃ st, scan_colours mouse colour_palette current_colour = some st ∧
        (∀ k, 0 ≤ k → k < 64 →
          InBox (colour_palette k).x (colour_palette k).y 16 16 mouse.x mouse.y →
          (∀ j, k < j → j < 64 →
            ¬ InBox (colour_palette j).x (colour_palette j).y 16 16 mouse.x mouse.y) →
          st.2.colour = (colour_palette k).colour ∧
            st.2.colour_index = (colour_palette k).colour_index) ∧
        ((∀ k, 0 ≤ k → k < 64 →
            ¬ InBox (colour_palette k).x (colour_palette k).y 16 16 mouse.x mouse.y) →
          st.2 = current_colour)) ∧
    ((∀ i, 0 ≤ i → i < 128 → SpriteTestDefined (sprite_sheet i) mouse) →
      ∃ st, scan_sprites mouse sprite_sheet current_sprite = some st ∧
        (∀ i, 0 ≤ i → i < 128 →
          InBox (sprite_sheet i).x (sprite_sheet i).y 16 16 mouse.x mouse.y →
          (∀ j, i < j → j < 128 →
            ¬ InBox (sprite_sheet j).x (sprite_sheet j).y 16 16 mouse.x mouse.y) →
          st.2.index = (sprite_sheet i).index) ∧
        ((∀ i, 0 ≤ i → i < 128 →
            ¬ InBox (sprite_sheet i).x (sprite_sheet i).y 16 16 mouse.x mouse.y) →
          st.2 = current_sprite)) := by
  constructor
  · intro hb
    have hbi : ∀ k, 0 ≤ k → k < 64 → (colour_hit (colour_palette k) mouse ↔
        InBox (colour_palette k).x (colour_palette k).y 16 16 mouse.x mouse.y) :=
      fun k hk0 hk1 => colour_hit_iff_contains _ mouse (hb k hk0 hk1)
    obtain ⟨cp', e, _⟩ := scan_colours_spec mouse colour_palette current_colour
    refine ⟨_, e, ?_, ?_⟩
    · intro k hk0 hk1 hin hlast
      have ek : ((k.toNat : Nat) : Int) = k := by omega
      have := scanColour_last_hit mouse colour_palette current_colour 64 k.toNat (by omega)
        (by rw [ek]; exact (hbi k hk0 hk1).mpr hin)
        (fun j hj1 hj2 hh => hlast j (by omega) (by omega)
          ((hbi j (by omega) (by omega)).mp hh))
      rw [ek] at this
      exact this
    · intro hnone
      exact scanColour_miss mouse colour_palette current_colour 64 (fun k hk hh =>
        hnone k (by omega) (by omega) ((hbi k (by omega) (by omega)).mp hh))
  · intro ht
    have hti : ∀ i, 0 ≤ i → i < 128 → (sprite_hit (sprite_sheet i) mouse ↔
        InBox (sprite_sheet i).x (sprite_sheet i).y 16 16 mouse.x mouse.y) :=
      fun i hi0 hi1 => sprite_hit_iff_contains _ mouse (ht i hi0 hi1)
    obtain ⟨ss', e, _⟩ := scan_sprites_spec mouse sprite_sheet current_sprite
    refine ⟨_, e, ?_, ?_⟩
    · intro i hi0 hi1 hin hlast
      have ei : ((i.toNat : Nat) : Int) = i := by omega
      have := scanSprite_last_hit mouse sprite_sheet current_sprite 128 i.toNat (by omega)
        (by rw [ei]; exact (hti i hi0 hi1).mpr hin)
        (fun j hj1 hj2 hh => hlast j (by omega) (by omega)
          ((hti j (by omega) (by omega)).mp hh))
      rw [ei] at this
      exact this
    · intro hnone
      exact scanSprite_miss mouse sprite_sheet current_sprite 128 (fun k hk hh =>
        hnone k (by omega) (by omega) ((hti k (by omega) (by omega)).mp hh))

theorem C12_last_scanned_wins_witness :
    (∀ k, 0 ≤ k → k < 64 → ColourTestDefined (stackedButtons k) ⟨true, 2147483644, 105⟩) ∧
    ∃ st, scan_colours ⟨true, 2147483644, 105⟩ stackedButtons sampleButton = some st ∧
      st.2.colour = 1063 ∧ st.2.colour_index = 63 := by
  have hd : ∀ k, 0 ≤ k → k < 64 →
      ColourTestDefined (stackedButtons k) ⟨true, 2147483644, 105⟩ := by
    intro k _ _
    simp only [ColourTestDefined, stackedButtons, IsInt32]
    decide
  obtain ⟨st, e, h, _⟩ := (C12_last_scanned_wins ⟨true, 2147483644, 105⟩ stackedButtons
    sampleButton edgeTiles checkerTile).1 hd
  have := h 63 (by norm_num) (by norm_num) (by decide) (fun j hj1 hj2 => by omega)
  exact ⟨hd, st, e, this⟩

/-- C12 (counterexample to the claim as stated): with 64 buttons at
x = 2147483643 and the mouse at x = -2147483648, no button's box contains the
mouse, yet the scan replaces the current colour index 5 by 63, because
`mouse->x - button->x` wraps to 5; and with 128 tiles at x = 2147483640 and the
mouse at x = 2147483645, the box of every tile contains the mouse, yet the
scan leaves the current sprite index 0 instead of 127, because
`sprite->x + 2*TILE_SIZE` wraps to a negative number. -/
theorem C12_overflow_breaks_containment :
    ((IsInt32 (-2147483648) ∧ IsInt32 2147483643) ∧
      (∀ k, 0 ≤ k → k < 64 →
        ¬ InBox (edgeButtons k).x (edgeButtons k).y 16 16 (-2147483648) 0) ∧
      ∃ st, scan_colours ⟨true, -2147483648, 0⟩ edgeButtons sampleButton = some st ∧
        st.2.colour_index = 63 ∧ sampleButton.colour_index = 5) ∧
    ((IsInt32 2147483645 ∧ IsInt32 2147483640) ∧
      (∀ i, 0 ≤ i → i < 128 →
        InBox (edgeTiles i).x (edgeTiles i).y 16 16 2147483645 5) ∧
      ∃ st, scan_sprites ⟨true, 2147483645, 5⟩ edgeTiles checkerTile = some st ∧
        st.2.index = 0 ∧ (edgeTiles 127).index = 127) := by
  constructor
  · refine ⟨by decide, ?_, ?_⟩
    · intro k _ _
      simp only [edgeButtons, InBox]
      decide
    · obtain ⟨cp', e, _⟩ := scan_colours_spec ⟨true, -2147483648, 0⟩ edgeButtons sampleButton
      have := scanColour_last_hit ⟨true, -2147483648, 0⟩ edgeButtons sampleButton 64 63
        (by norm_num) (by decide) (fun j hj1 hj2 => by omega)
      exact ⟨_, e, this.2, rfl⟩
  · refine ⟨by decide, ?_, ?_⟩
    · intro i _ _
      simp only [edgeTiles, InBox]
      decide
    · obtain ⟨ss', e, _⟩ := scan_sprites_spec ⟨true, 2147483645, 5⟩ edgeTiles checkerTile
      have hm := scanSprite_miss ⟨true, 2147483645, 5⟩ edgeTiles checkerTile 128
        (fun k _ => by
          simp only [sprite_hit, edgeTiles, wrap32, TILE_SIZE]
          decide)
      rw [hm] at e
      exact ⟨_, e, rfl, rfl⟩

/-- C13: with the tile positions set at start-up, tile i (0 ≤ i < 128) stands at
x = SPRITE_SHEET_X + 16*(i mod SPRITE_COLUMNS), y = SPRITE_SHEET_Y +
16*(i div SPRITE_COLUMNS), column i mod 8 of 8 and row i div 8 of 16 of a grid
that starts at (50, 50); `draw_sprite_sheet` draws every tile at zoom 2 into
the 16x16 block at that corner and writes nothing outside these blocks; and
the blocks of distinct tiles do not overlap. -/
theorem C13_sprite_sheet_layout (palette : Palette) (pixels : Pixels)
    (sprite_sheet0 start sprite_sheet : Int → Sprite)
    (hstart : init_sprite_sheet sprite_sheet0 = some start)
    (hpos : ∀ i, 0 ≤ i → i < 128 →
      (sprite_sheet i).x = (start i).x ∧ (sprite_sheet i).y = (start i).y)
    (hcd : ∀ i, 0 ≤ i → i < 128 → ValidData (sprite_sheet i).colour_data) :
    (∀ i, 0 ≤ i → i < 128 →
      (sprite_sheet i).x = SPRITE_SHEET_X + 16 * (i % SPRITE_COLUMNS) ∧
      (sprite_sheet i).y = SPRITE_SHEET_Y + 16 * (i / SPRITE_COLUMNS) ∧
      (0 ≤ i % SPRITE_COLUMNS ∧ i % SPRITE_COLUMNS < 8) ∧
      (0 ≤ i / SPRITE_COLUMNS ∧ i / SPRITE_COLUMNS < 16)) ∧
    (∃ pixels', draw_sprite_sheet palette pixels 20 20 sprite_sheet = some pixels' ∧
      (∀ i, 0 ≤ i → i < 128 → ∀ a b, 0 ≤ a → a < 16 → 0 ≤ b → b < 16 →
        pixels' (((sprite_sheet i).x + a) + ((sprite_sheet i).y + b) * 640) =
          if (sprite_sheet i).selected = true ∧ (a = 0 ∨ a = 15 ∨ b = 0 ∨ b = 15)
          then 0xffffff00
          else palette ((sprite_sheet i).colour_data (a.tdiv 2 + b.tdiv 2 * 8))) ∧
      (∀ cx cy, 0 ≤ cx → cx < 640 →
        (∀ i, 0 ≤ i → i < 128 →
          ¬ InBox (sprite_sheet i).x (sprite_sheet i).y 16 16 cx cy) →
        pixels' (cx + cy * 640) = pixels (cx + cy * 640))) ∧
    (∀ i i' cx cy, 0 ≤ i → i < 128 → 0 ≤ i' → i' < 128 →
      InBox (sprite_sheet i).x (sprite_sheet i).y 16 16 cx cy →
      InBox (sprite_sheet i').x (sprite_sheet i').y 16 16 cx cy → i = i') := by
  obtain ⟨ss, e, hs⟩ := init_sprite_sheet_spec sprite_sheet0
  rw [e] at hstart
  cases hstart
  have hp : ∀ i, 0 ≤ i → i < 128 →
      (sprite_sheet i).x = 50 + 16 * (i % 8) ∧ (sprite_sheet i).y = 50 + 16 * (i / 8) := by
    intro i hi0 hi1
    obtain ⟨_, _, ex, ey, _⟩ := hs i hi0 hi1
    rw [(hpos i hi0 hi1).1, (hpos i hi0 hi1).2, ex, ey]
    exact ⟨rfl, rfl⟩
  refine ⟨?_, ?_, ?_⟩
  · intro i hi0 hi1
    simp only [SPRITE_SHEET_X, SPRITE_SHEET_Y, SPRITE_COLUMNS]
    exact ⟨(hp i hi0 hi1).1, (hp i hi0 hi1).2, by omega, by omega⟩
  · obtain ⟨px', e', a, b⟩ := draw_sprite_sheet_spec palette pixels 20 20 sprite_sheet hp hcd
    refine ⟨px', e', ?_, ?_⟩
    · intro i hi0 hi1 u v hu0 hu1 hv0 hv1
      obtain ⟨ex, ey⟩ := hp i hi0 hi1
      have := a i hi0 hi1 ((sprite_sheet i).x + u) ((sprite_sheet i).y + v)
        (by unfold InBox; rw [ex, ey]; omega)
      rw [this]
      unfold tilePixel OnRing
      have e1 : (sprite_sheet i).x + u - (sprite_sheet i).x = u := by omega
      have e2 : (sprite_sheet i).y + v - (sprite_sheet i).y = v := by omega
      rw [e1, e2]
      norm_num
    · intro cx cy hx0 hx1 hout
      apply b cx cy hx0 hx1
      intro i hi0 hi1 hb
      apply hout i hi0 hi1
      rw [(hp i hi0 hi1).1, (hp i hi0 hi1).2]
      exact hb
  · intro i i' cx cy hi0 hi1 hi0' hi1' hb hb'
    rw [(hp i hi0 hi1).1, (hp i hi0 hi1).2] at hb
    rw [(hp i' hi0' hi1').1, (hp i' hi0' hi1').2] at hb'
    unfold InBox at hb hb'
    omega

theorem C13_sprite_sheet_layout_witness :
    ∃ start, init_sprite_sheet (fun _ => checkerTile) = some start ∧
      (start 9).x = 50 + 16 * 1 ∧ (start 9).y = 50 + 16 * 1 ∧
      ∃ pixels', draw_sprite_sheet samplePalette (fun _ => 0) 20 20 start = some pixels' ∧
        pixels' (((start 9).x + 3) + ((start 9).y + 4) * 640) = 1000 := by
  obtain ⟨start, e, hs⟩ := init_sprite_sheet_spec (fun _ => checkerTile)
  have hv : ∀ i, 0 ≤ i → i < 128 → ValidData (start i).colour_data := by
    intro i hi0 hi1 k hk0 hk1
    rw [(hs i hi0 hi1).2.2.2.2 k hk0 hk1]
    decide
  obtain ⟨hl, ⟨px', e', a, _⟩, _⟩ := C13_sprite_sheet_layout samplePalette (fun _ => 0)
    (fun _ => checkerTile) start start e (fun i _ _ => ⟨rfl, rfl⟩) hv
  obtain ⟨_, hsel, _, _, hd⟩ := hs 9 (by norm_num) (by norm_num)
  refine ⟨start, e, ?_, ?_, px', e', ?_⟩
  · rw [(hl 9 (by norm_num) (by norm_num)).1]; decide
  · rw [(hl 9 (by norm_num) (by norm_num)).2.1]; decide
  · rw [a 9 (by norm_num) (by norm_num) 3 4 (by norm_num) (by norm_num) (by norm_num)
      (by norm_num), hsel]
    have : (3 : Int).tdiv 2 + (4 : Int).tdiv 2 * 8 = 17 := by decide
    rw [this, hd 17 (by norm_num) (by norm_num)]
    decide

/-- C14: a checked access has a result exactly when its index is within the
array; start-up (background fill, working grid, buttons, tiles) has a result
for every content of the uninitialised memory; and from every reachable state,
for every mouse input, click processing and the full repaint have a result, so
no access of a frame step is out of bounds.  In the state that is repainted
the current colour index and every `colour_data` entry are in 0..63, the
current tile index is in 0..127, the cell written by an open paint gate is in
0..63, and every button box and thumbnail lies on the 640x360 screen. -/
theorem C14_in_bounds (palette : Palette) :
    (∀ (α : Type) (n : Int) (a : Int → α) (i : Int) (v : α),
      ((readAt n a i).isSome = true ↔ (0 ≤ i ∧ i < n)) ∧
      ((writeAt n a i v).isSome = true ↔ (0 ≤ i ∧ i < n))) ∧
    (∀ pixels0 colour_palette0 sprite_sheet0,
      (∃ px, init_pixels pixels0 = some px) ∧
      ∃ s, init palette pixels0 colour_palette0 sprite_sheet0 = some s) ∧
    (∀ s, Reachable palette s → ∀ mouse : MouseInput,
      ∃ s1 s2, process_input mouse s = some s1 ∧ render palette s1 = some s2 ∧
        frame palette mouse s = some s2 ∧
        (0 ≤ s1.current_colour.colour_index ∧ s1.current_colour.colour_index < 64) ∧
        (0 ≤ s1.current_sprite.index ∧ s1.current_sprite.index < 128) ∧
        (paint_gate mouse = true →
          0 ≤ canvas_pixel_x mouse + 8 * canvas_pixel_y mouse ∧
            canvas_pixel_x mouse + 8 * canvas_pixel_y mouse < 64) ∧
        (∀ i, 0 ≤ i → i < 128 → ∀ k, 0 ≤ k → k < 64 →
          0 ≤ (s1.sprite_sheet i).colour_data k ∧ (s1.sprite_sheet i).colour_data k < 64) ∧
        (∀ k, 0 ≤ k → k < 64 →
          FitsScreen (s1.colour_palette k).x (s1.colour_palette k).y 16 16) ∧
        (∀ i, 0 ≤ i → i < 128 →
          FitsScreen (s1.sprite_sheet i).x (s1.sprite_sheet i).y 16 16)) := by
  refine ⟨fun α n a i v => ⟨readAt_isSome_iff n a i, writeAt_isSome_iff n a i v⟩, ?_, ?_⟩
  · intro px0 cp0 ss0
    obtain ⟨s, e, _⟩ := init_spec palette px0 cp0 ss0
    exact ⟨init_pixels_some px0, s, e⟩
  · intro s hr m
    obtain ⟨s1, px', e1, e2, e3, h1⟩ := frame_spec palette s (inv_reachable palette s hr) m
    refine ⟨s1, _, e1, e2, e3, h1.colour_index, h1.sprite_index, ?_, ?_, ?_, ?_⟩
    · intro hg
      obtain ⟨⟨a, b⟩, c, d⟩ := paint_gate_bounds m hg
      omega
    · exact fun i hi0 hi1 k hk0 hk1 => h1.data i hi0 hi1 k hk0 hk1
    · exact fun k hk0 hk1 => button_fits palette _ h1.buttons k hk0 hk1
    · exact fun i hi0 hi1 => tile_fits _ h1.tiles i hi0 hi1

theorem C14_in_bounds_witness :
    ∃ s s2, init samplePalette (fun _ => 0) (fun _ => sampleButton) (fun _ => checkerTile) =
        some s ∧ frame samplePalette ⟨true, 230, 90⟩ s = some s2 := by
  obtain ⟨s, e⟩ := ((C14_in_bounds samplePalette).2.1 (fun _ => 0) (fun _ => sampleButton)
    (fun _ => checkerTile)).2
  obtain ⟨_, s2, _, _, e3, _⟩ := (C14_in_bounds samplePalette).2.2 s
    (Reachable.start _ _ _ s e) ⟨true, 230, 90⟩
  exact ⟨s, s2, e, e3⟩

/-- C15: click processing has a result from every reachable state, and
whenever it has a result, from any state and for any mouse input, it leaves
x, y, colour and colour_index of every button and x, y and index of every
tile unchanged, and the only `colour_data` entry of the sheet that can differ
afterwards is entry pixel_x + 8*pixel_y of tile current_sprite.index (the
current tile when `draw_pixel` is called, which in a reachable state is also
the current tile before the step); when the mouse is not held the state is
unchanged. -/
theorem C15_frame_effect (palette : Palette) (mouse : MouseInput) (s : Editor) :
    (Reachable palette s → ∃ s', process_input mouse s = some s') ∧
    (∀ s', process_input mouse s = some s' →
      (∀ k, (s'.colour_palette k).x = (s.colour_palette k).x ∧
        (s'.colour_palette k).y = (s.colour_palette k).y ∧
        (s'.colour_palette k).colour = (s.colour_palette k).colour ∧
        (s'.colour_palette k).colour_index = (s.colour_palette k).colour_index) ∧
      (∀ i, (s'.sprite_sheet i).x = (s.sprite_sheet i).x ∧
        (s'.sprite_sheet i).y = (s.sprite_sheet i).y ∧
        (s'.sprite_sheet i).index = (s.sprite_sheet i).index) ∧
      (∀ i k, (s'.sprite_sheet i).colour_data k ≠ (s.sprite_sheet i).colour_data k →
        i = s'.current_sprite.index ∧
          k = canvas_pixel_x mouse + 8 * canvas_pixel_y mouse) ∧
      (mouse.click = false → s' = s)) ∧
    (Reachable palette s → ∀ s', process_input mouse s = some s' →
      ∀ i k, (s'.sprite_sheet i).colour_data k ≠ (s.sprite_sheet i).colour_data k →
        s'.current_sprite.index = s.current_sprite.index) := by
  refine ⟨?_, ?_, ?_⟩
  · intro hr
    exact process_input_some palette s (inv_reachable palette s hr) mouse
  rotate_left
  · intro hr s' h i k hne
    cases hclick : mouse.click
    · rw [process_input_idle mouse s hclick] at h
      cases h
      exact absurd rfl hne
    · obtain ⟨_, _, hsp, _, ht⟩ := process_input_click_result mouse s s' hclick h
      by_cases hg : paint_gate mouse = true
      · rw [hsp, (gate_keeps_selection palette s (inv_reachable palette s hr) mouse hg).2]
      · rw [ht i] at hne
        split_ifs at hne with h1 h2
        · exact absurd h2.1 hg
        · exact absurd rfl hne
        · exact absurd rfl hne
  · intro s' h
    cases hclick : mouse.click
    · rw [process_input_idle mouse s hclick] at h
      cases h
      exact ⟨fun k => ⟨rfl, rfl, rfl, rfl⟩, fun i => ⟨rfl, rfl, rfl⟩,
        fun i k hne => absurd rfl hne, fun _ => rfl⟩
    · obtain ⟨_, _, _, hb, ht⟩ := process_input_click_result mouse s s' hclick h
      refine ⟨?_, ?_, ?_, fun hf => by cases hf⟩
      · intro k
        rw [hb k]
        split_ifs <;> exact ⟨rfl, rfl, rfl, rfl⟩
      · intro i
        rw [ht i]
        split_ifs <;> exact ⟨rfl, rfl, rfl⟩
      · intro i k hne
        rw [ht i] at hne
        by_cases hi : 0 ≤ i ∧ i < 128
        · rw [if_pos hi] at hne
          simp only at hne
          by_cases hg : paint_gate mouse = true ∧ i = s'.current_sprite.index
          · rw [if_pos hg] at hne
            refine ⟨hg.2, ?_⟩
            by_contra hk
            exact hne (Function.update_noteq hk _ _)
          · rw [if_neg hg] at hne
            exact absurd rfl hne
        · rw [if_neg hi] at hne
          exact absurd rfl hne

theorem C15_frame_effect_witness :
    ∃ s s', init samplePalette (fun _ => 0) (fun _ => sampleButton) (fun _ => checkerTile) =
        some s ∧ process_input ⟨true, 230, 90⟩ s = some s' ∧
      ∀ i k, (s'.sprite_sheet i).colour_data k ≠ (s.sprite_sheet i).colour_data k →
        i = s'.current_sprite.index ∧
          k = canvas_pixel_x ⟨true, 230, 90⟩ + 8 * canvas_pixel_y ⟨true, 230, 90⟩ := by
  obtain ⟨s, e, _⟩ := init_spec samplePalette (fun _ => 0) (fun _ => sampleButton)
    (fun _ => checkerTile)
  obtain ⟨hex, hall, _⟩ := C15_frame_effect samplePalette ⟨true, 230, 90⟩ s
  obtain ⟨s', e'⟩ := hex (Reachable.start _ _ _ s e)
  exact ⟨s, s', e, e', (hall s' e').2.2.1⟩

/-- C16: the start-up loop over i in 0..15 and j in 0..3 computes
colour_index = i + j*COLOURS/COLUMNS, which is in 0..63 and takes every value
k of 0..63 for exactly one pair (i, j); the loop has a result, in which button
k has colour_index = k, colour = palette[k], selected = false and position
x = 512 + 16*(k div 16), y = 64 + 16*(k mod 16); every palette index is the
colour_index of exactly one button; and the 64 button boxes are pairwise
disjoint. -/
theorem C16_palette_binding (palette : Palette) (colour_palette0 : Int → ColourButton) :
    COLOURS.tdiv COLUMNS = 16 ∧
    (∀ i j, 0 ≤ i → i < 16 → 0 ≤ j → j < COLUMNS →
      0 ≤ i + (j * COLOURS).tdiv COLUMNS ∧ i + (j * COLOURS).tdiv COLUMNS < 64) ∧
    (∀ k, 0 ≤ k → k < 64 →
      ∃ i j, (0 ≤ i ∧ i < 16) ∧ (0 ≤ j ∧ j < COLUMNS) ∧
        i + (j * COLOURS).tdiv COLUMNS = k ∧
        ∀ i' j', 0 ≤ i' → i' < 16 → 0 ≤ j' → j' < COLUMNS →
          i' + (j' * COLOURS).tdiv COLUMNS = k → i' = i ∧ j' = j) ∧
    (∃ cp, init_colour_palette palette colour_palette0 = some cp ∧
      (∀ k, 0 ≤ k → k < 64 →
        (cp k).colour_index = k ∧ (cp k).colour = palette k ∧ (cp k).selected = false ∧
        (cp k).x = 512 + 16 * (k / 16) ∧ (cp k).y = 64 + 16 * (k % 16)) ∧
      (∀ e, 0 ≤ e → e < 64 →
        ∃ k, (0 ≤ k ∧ k < 64) ∧ (cp k).colour_index = e ∧
          ∀ k', 0 ≤ k' → k' < 64 → (cp k').colour_index = e → k' = k) ∧
      (∀ k k' cx cy, 0 ≤ k → k < 64 → 0 ≤ k' → k' < 64 →
        InBox (cp k).x (cp k).y 16 16 cx cy → InBox (cp k').x (cp k').y 16 16 cx cy →
        k = k')) := by
  have ej : ∀ j : Int, 0 ≤ j → (j * COLOURS).tdiv COLUMNS = 16 * j := by
    intro j hj
    rw [Int.tdiv_eq_ediv (by simp only [COLOURS]; omega) (by norm_num)]
    simp only [COLOURS, COLUMNS]
    omega
  refine ⟨by decide, ?_, ?_, ?_⟩
  · intro i j hi0 hi1 hj0 hj1
    rw [ej j hj0]
    simp only [COLUMNS] at hj1
    omega
  · intro k hk0 hk1
    refine ⟨k % 16, k / 16, by omega, by simp only [COLUMNS]; omega, ?_, ?_⟩
    · rw [ej _ (by omega)]; omega
    · intro i' j' hi0 hi1 hj0 hj1 he
      rw [ej j' hj0] at he
      omega
  · obtain ⟨cp, e, h⟩ := init_colour_palette_spec palette colour_palette0
    have hl : ButtonLayout palette cp := fun k hk0 hk1 => by
      rw [h k hk0 hk1]; exact ⟨rfl, rfl, rfl, rfl⟩
    refine ⟨cp, e, ?_, ?_, ?_⟩
    · intro k hk0 hk1
      rw [h k hk0 hk1]
      exact ⟨rfl, rfl, rfl, rfl, rfl⟩
    · intro e' he0 he1
      refine ⟨e', ⟨he0, he1⟩, by rw [h e' he0 he1]; rfl, ?_⟩
      intro k' hk0 hk1 hk
      rw [h k' hk0 hk1] at hk
      exact hk
    · intro k k' cx cy hk0 hk1 hk0' hk1' hb hb'
      have c := (button_box palette cp hl k hk0 hk1 cx cy).mp hb
      have c' := (button_box palette cp hl k' hk0' hk1' cx cy).mp hb'
      omega

/-- C17: in every reachable state (buttons and tiles at their start-up
positions) and for every screen position (mx, my) with 0 ≤ mx < 640 and
0 ≤ my < 360: `colour_select` on button k registers a hit (it overwrites the
current colour record, whatever it was, with the button's colour and index)
exactly when `draw_colour_button` for button k writes the buffer pixel at
(mx, my), and it leaves every record as it was exactly when that pixel is not
written; `sprite_select` on tile i registers a hit (it overwrites the index of
the current sprite record) exactly when `draw_sprite` for tile i at scale 2
writes the pixel, and leaves every record as it was exactly when it is not
written; so `colour_select` registers a hit for at most one button and
`sprite_select` for at most one tile. -/
theorem C17_hit_boxes_are_drawn_boxes (palette : Palette) (s : Editor)
    (hr : Reachable palette s) (mouse : MouseInput)
    (hx : 0 ≤ mouse.x ∧ mouse.x < 640) (hy : 0 ≤ mouse.y ∧ mouse.y < 360) :
    (∀ k, 0 ≤ k → k < 64 →
      ((∀ c : ColourButton, (colour_select (s.colour_palette k) mouse c).2 =
          { c with colour := (s.colour_palette k).colour,
                   colour_index := (s.colour_palette k).colour_index }) ↔
        Writes (fun px => draw_colour_button px (s.colour_palette k))
          (mouse.x + mouse.y * 640)) ∧
      ((∀ c : ColourButton, (colour_select (s.colour_palette k) mouse c).2 = c) ↔
        ¬ Writes (fun px => draw_colour_button px (s.colour_palette k))
          (mouse.x + mouse.y * 640))) ∧
    (∀ i, 0 ≤ i → i < 128 →
      ((∀ c : Sprite, (sprite_select mouse (s.sprite_sheet i) c).2 =
          { c with index := (s.sprite_sheet i).index }) ↔
        Writes (fun px => draw_sprite palette px (s.sprite_sheet i) 2)
          (mouse.x + mouse.y * 640)) ∧
      ((∀ c : Sprite, (sprite_select mouse (s.sprite_sheet i) c).2 = c) ↔
        ¬ Writes (fun px => draw_sprite palette px (s.sprite_sheet i) 2)
          (mouse.x + mouse.y * 640))) ∧
    (∀ k k', 0 ≤ k → k < 64 → 0 ≤ k' → k' < 64 →
      (∀ c : ColourButton, (colour_select (s.colour_palette k) mouse c).2 =
          { c with colour := (s.colour_palette k).colour,
                   colour_index := (s.colour_palette k).colour_index }) →
      (∀ c : ColourButton, (colour_select (s.colour_palette k') mouse c).2 =
          { c with colour := (s.colour_palette k').colour,
                   colour_index := (s.colour_palette k').colour_index }) →
      k = k') ∧
    (∀ i i', 0 ≤ i → i < 128 → 0 ≤ i' → i' < 128 →
      (∀ c : Sprite, (sprite_select mouse (s.sprite_sheet i) c).2 =
          { c with index := (s.sprite_sheet i).index }) →
      (∀ c : Sprite, (sprite_select mouse (s.sprite_sheet i') c).2 =
          { c with index := (s.sprite_sheet i').index }) →
      i = i') := by
  have hinv := inv_reachable palette s hr
  have hB := hinv.buttons
  have hT := hinv.tiles
  have hbw : ∀ k, 0 ≤ k → k < 64 → (colour_hit (s.colour_palette k) mouse ↔
      Writes (fun px => draw_colour_button px (s.colour_palette k))
        (mouse.x + mouse.y * 640)) := by
    intro k hk0 hk1
    rw [draw_colour_button_writes_iff _ (button_fits palette _ hB k hk0 hk1) _ _ hx.1 hx.2,
      button_hit_iff palette _ hB mouse hx hy k hk0 hk1, button_box palette _ hB k hk0 hk1]
    rfl
  have htw : ∀ i, 0 ≤ i → i < 128 → (sprite_hit (s.sprite_sheet i) mouse ↔
      Writes (fun px => draw_sprite palette px (s.sprite_sheet i) 2)
        (mouse.x + mouse.y * 640)) := by
    intro i hi0 hi1
    rw [draw_sprite_writes_iff palette _ (tile_fits _ hT i hi0 hi1) (hinv.data i hi0 hi1)
      _ _ hx.1 hx.2, tile_hit_iff _ hT mouse i hi0 hi1, tile_box _ hT i hi0 hi1]
    rfl
  refine ⟨?_, ?_, ?_, ?_⟩
  · intro k hk0 hk1
    exact ⟨(colour_select_registers_iff _ mouse).trans (hbw k hk0 hk1),
      (colour_select_keeps_iff _ mouse).trans (not_congr (hbw k hk0 hk1))⟩
  · intro i hi0 hi1
    exact ⟨(sprite_select_registers_iff mouse _).trans (htw i hi0 hi1),
      (sprite_select_keeps_iff mouse _).trans (not_congr (htw i hi0 hi1))⟩
  · intro k k' hk0 hk1 hk0' hk1' h h'
    have c := (button_hit_iff palette _ hB mouse hx hy k hk0 hk1).mp
      ((colour_select_registers_iff _ mouse).mp h)
    have c' := (button_hit_iff palette _ hB mouse hx hy k' hk0' hk1').mp
      ((colour_select_registers_iff _ mouse).mp h')
    unfold InBox at c c'
    omega
  · intro i i' hi0 hi1 hi0' hi1' h h'
    have c := (tile_hit_iff _ hT mouse i hi0 hi1).mp
      ((sprite_select_registers_iff mouse _).mp h)
    have c' := (tile_hit_iff _ hT mouse i' hi0' hi1').mp
      ((sprite_select_registers_iff mouse _).mp h')
    unfold InBox at c c'
    omega

theorem C17_hit_boxes_are_drawn_boxes_witness :
    ∃ s, init samplePalette (fun _ => 0) (fun _ => sampleButton) (fun _ => checkerTile) = some s ∧
      ((∀ c : ColourButton, (colour_select (s.colour_palette 5) ⟨true, 515, 150⟩ c).2 =
          { c with colour := (s.colour_palette 5).colour,
                   colour_index := (s.colour_palette 5).colour_index }) ↔
        Writes (fun px => draw_colour_button px (s.colour_palette 5)) (515 + 150 * 640)) ∧
      ((∀ c : Sprite, (sprite_select ⟨true, 515, 150⟩ (s.sprite_sheet 3) c).2 = c) ↔
        ¬ Writes (fun px => draw_sprite samplePalette px (s.sprite_sheet 3) 2)
          (515 + 150 * 640)) := by
  obtain ⟨s, e, _⟩ := init_spec samplePalette (fun _ => 0) (fun _ => sampleButton)
    (fun _ => checkerTile)
  obtain ⟨hb, ht, _⟩ := C17_hit_boxes_are_drawn_boxes samplePalette s
    (Reachable.start _ _ _ s e) ⟨true, 515, 150⟩ (by decide) (by decide)
  exact ⟨s, e, (hb 5 (by norm_num) (by norm_num)).1, (ht 3 (by norm_num) (by norm_num)).2⟩

/-- C18: in every reachable state, a frame step with the mouse held at a
position that passes the gate 0 ≤ pixel_x < 8, 0 ≤ pixel_y < 8 succeeds,
writes the current colour index into entry pixel_x + 8*pixel_y of the current
tile, and leaves the current colour and the current sprite as they were; no
such mouse position passes the hit test of any button or of any tile. -/
theorem C18_paint_keeps_selection (palette : Palette) (s : Editor)
    (hr : Reachable palette s) (mouse : MouseInput) (hclick : mouse.click = true)
    (hgate : paint_gate mouse = true) :
    (∀ k, 0 ≤ k → k < 64 → ¬ colour_hit (s.colour_palette k) mouse) ∧
    (∀ i, 0 ≤ i → i < 128 → ¬ sprite_hit (s.sprite_sheet i) mouse) ∧
    ∃ t, frame palette mouse s = some t ∧
      t.current_colour.colour = s.current_colour.colour ∧
      t.current_colour.colour_index = s.current_colour.colour_index ∧
      t.current_sprite.index = s.current_sprite.index ∧
      (t.sprite_sheet s.current_sprite.index).colour_data
          (canvas_pixel_x mouse + 8 * canvas_pixel_y mouse) = s.current_colour.colour_index := by
  have hinv := inv_reachable palette s hr
  obtain ⟨hc, ht⟩ := gate_keeps_selection palette s hinv mouse hgate
  obtain ⟨t, e, _, c, sp, _, d, _⟩ := frame_click_spec palette s hinv mouse hclick
  rw [hc] at c
  rw [ht] at sp
  refine ⟨fun k hk0 hk1 => gate_no_button_hit palette _ hinv.buttons mouse hgate k hk0 hk1,
    fun i hi0 hi1 => gate_no_tile_hit _ hinv.tiles mouse hgate i hi0 hi1,
    t, e, by rw [c], by rw [c], by rw [sp], ?_⟩
  rw [d _ hinv.sprite_index.1 hinv.sprite_index.2, sp, c]
  simp [hgate]

theorem C18_paint_keeps_selection_witness :
    ∃ s t, init samplePalette (fun _ => 0) (fun _ => sampleButton) (fun _ => checkerTile) =
        some s ∧ frame samplePalette ⟨true, 210, 70⟩ s = some t ∧
      t.current_colour.colour_index = s.current_colour.colour_index ∧
      t.current_sprite.index = s.current_sprite.index := by
  obtain ⟨s, e, _⟩ := init_spec samplePalette (fun _ => 0) (fun _ => sampleButton)
    (fun _ => checkerTile)
  obtain ⟨_, _, t, et, _, h2, h3, _⟩ := C18_paint_keeps_selection samplePalette s
    (Reachable.start _ _ _ s e) ⟨true, 210, 70⟩ rfl (by decide)
  exact ⟨s, t, e, et, h2, h3⟩

/-- C19: start-up leaves 0x000000ff exactly on the screen pixels (i, j) with
224 ≤ i ≤ 416, 84 ≤ j ≤ 276 and ((i - 320) mod 24 = 0 or (j - 180) mod 24 = 0),
and the background colour elsewhere.  Every frame step from a reachable state
succeeds and its repaint leaves at every pixel with 224 ≤ i < 416, 84 ≤ j < 276
the palette colour of the current tile's cell; the grid pixels outside that
square are those of column 416 and row 276, they still hold 0x000000ff, and
neither `draw_colour_button` for any button, nor `draw_canvas`, nor
`draw_sprite` for any tile writes them. -/
theorem C19_grid_under_canvas (palette : Palette) :
    (∀ pixels0, ∃ px, init_pixels pixels0 = some px ∧
      ∀ cx cy, 0 ≤ cx → cx < 640 → 0 ≤ cy → cy < 360 →
        px (cx + cy * 640) =
          if 224 ≤ cx ∧ cx ≤ 416 ∧ 84 ≤ cy ∧ cy ≤ 276 ∧
              ((cx - 320) % 24 = 0 ∨ (cy - 180) % 24 = 0)
          then 0x000000ff else 0x232324ff) ∧
    (∀ cx cy, OnGrid cx cy →
      (224 ≤ cx ∧ cx < 416 ∧ 84 ≤ cy ∧ cy < 276) ∨ OnGridEdge cx cy) ∧
    (∀ cx cy, OnGridEdge cx cy →
      OnGrid cx cy ∧ ¬ (224 ≤ cx ∧ cx < 416 ∧ 84 ≤ cy ∧ cy < 276)) ∧
    (∀ s, Reachable palette s → ∀ mouse : MouseInput,
      ∃ t, frame palette mouse s = some t ∧
        (∀ cx cy, 224 ≤ cx → cx < 416 → 84 ≤ cy → cy < 276 →
          t.pixels (cx + cy * 640) =
            palette ((t.sprite_sheet t.current_sprite.index).colour_data
              ((cx - 224).tdiv 24 + (cy - 84).tdiv 24 * 8))) ∧
        (∀ cx cy, OnGridEdge cx cy →
          t.pixels (cx + cy * 640) = 0x000000ff ∧
          (∀ k, 0 ≤ k → k < 64 →
            ¬ Writes (fun px => draw_colour_button px (t.colour_palette k)) (cx + cy * 640)) ∧
          ¬ Writes (fun px => draw_canvas palette px t.current_sprite t.sprite_sheet)
            (cx + cy * 640) ∧
          (∀ i, 0 ≤ i → i < 128 →
            ¬ Writes (fun px => draw_sprite palette px (t.sprite_sheet i) 2)
              (cx + cy * 640)))) := by
  refine ⟨?_, ?_, ?_, ?_⟩
  · intro px0
    obtain ⟨px, e, h⟩ := init_pixels_spec px0
    exact ⟨px, e, h⟩
  · intro cx cy h
    unfold OnGrid at h
    unfold OnGridEdge
    omega
  · intro cx cy h
    refine ⟨gridEdge_onGrid cx cy h, ?_⟩
    unfold OnGridEdge at h
    omega
  · intro s hr m
    have hinv := inv_reachable palette s hr
    obtain ⟨t, e, hinv', hcan, _⟩ := frame_render_spec palette s hinv m
    refine ⟨t, e, ?_, ?_⟩
    · intro cx cy a b c d
      rw [hcan cx cy (by unfold InBox; omega)]
      rfl
    · intro cx cy h
      obtain ⟨hon, hb, hc, htl⟩ := gridEdge_outside palette t hinv' cx cy h
      refine ⟨gridEdge_reachable palette t (Reachable.step m s t hr e) cx cy h, ?_, ?_, ?_⟩
      · intro k hk0 hk1
        rw [draw_colour_button_writes_iff _ (button_fits palette _ hinv'.buttons k hk0 hk1)
          cx cy hon.1 hon.2.1]
        exact hb k hk0 hk1
      · exact draw_canvas_not_writes palette _ _ hinv'.sprite_index.1 hinv'.sprite_index.2
          cx cy hon.1 hon.2.1 hc
      · intro i hi0 hi1
        exact draw_sprite_not_writes palette _ (tile_fits _ hinv'.tiles i hi0 hi1) cx cy
          hon.1 hon.2.1 (htl i hi0 hi1)

theorem C19_grid_under_canvas_witness :
    ∃ s t, init samplePalette (fun _ => 0) (fun _ => sampleButton) (fun _ => checkerTile) =
        some s ∧ frame samplePalette ⟨false, 0, 0⟩ s = some t ∧
      t.pixels (416 + 100 * 640) = 0x000000ff ∧
      t.pixels (248 + 100 * 640) = 1000 := by
  obtain ⟨s, e, _, _, hd, hi⟩ := init_spec samplePalette (fun _ => 0) (fun _ => sampleButton)
    (fun _ => checkerTile)
  obtain ⟨t, et, hcan, hedge⟩ := (C19_grid_under_canvas samplePalette).2.2.2 s
    (Reachable.start _ _ _ s e) ⟨false, 0, 0⟩
  refine ⟨s, t, e, et, (hedge 416 100 (by decide)).1, ?_⟩
  rw [hcan 248 100 (by norm_num) (by norm_num) (by norm_num) (by norm_num)]
  obtain ⟨s1, px', e1, _, e3, _⟩ := frame_spec samplePalette s
    (inv_init samplePalette _ _ _ s e) ⟨false, 0, 0⟩
  rw [process_input_idle _ s rfl] at e1
  cases e1
  rw [et] at e3
  cases e3
  simp only
  rw [hi, (hd 0 (by norm_num) (by norm_num)).2.2.2.2 _ (by decide) (by decide)]
  rfl

end SpriteEditor
